import Mathlib

/-!
Trace batching and export pipeline (cozeloop-go, `internal/trace`).

A shallow embedding of `queue_manager.go` and `span_processor.go`.

* The channel `b.queue` is a FIFO list bounded by `maxQueueLength`.
* The goroutine running `processQueue` is a step machine: one step per `select`
  case (`processQueueRecv`, `processQueueTimer`).  The timer is untimed: a timer
  step may happen between any two other steps.
* Calls of `exportFunc` and of `finishEventProcessor` are recorded, in call order,
  in the ghost fields `exported` and `events`.
* `int64` and `uint32` arithmetic wraps (`wrapInt64`, `% 2 ^ 32`).
-/

namespace CozeLoop

/-! ## consts/finish_event.go -/

/-- The four values of `consts.SpanFinishEvent`. -/
inductive SpanFinishEvent where
  | SpanQueueEntryRate
  | FileQueueEntryRate
  | FlushSpanRate
  | FlushFileRate
  deriving DecidableEq, Repr

/-- Mirror of `consts.FinishEventInfoExtra`. -/
structure FinishEventInfoExtra where
  IsRootSpan : Bool
  LatencyMs : Int
  deriving DecidableEq, Repr

/-- Mirror of `consts.FinishEventInfo`. -/
structure FinishEventInfo where
  EventType : SpanFinishEvent
  IsEventFail : Bool
  ItemNum : Int
  DetailMsg : String
  ExtraParams : Option FinishEventInfoExtra
  deriving DecidableEq, Repr

/-! ## entity/export.go -/

/-- The two values of `entity.UploadType`. -/
inductive UploadType where
  | UploadTypeLong
  | UploadTypeMultiModality
  deriving DecidableEq, Repr

/-- Mirror of `entity.UploadFile`. -/
structure UploadFile where
  TosKey : String
  Data : String
  UploadType : UploadType
  TagKey : String
  Name : String
  FileType : String
  SpaceID : String
  deriving DecidableEq, Repr

/-- Mirror of `entity.UploadSpan`, restricted to the scalar fields (the seven tag
maps play no part in queueing or routing). -/
structure UploadSpan where
  StartedATMicros : Int
  LogID : String
  SpanID : String
  ParentID : String
  TraceID : String
  DurationMicros : Int
  ServiceName : String
  WorkspaceID : String
  SpanName : String
  SpanType : String
  StatusCode : Int
  Input : String
  Output : String
  ObjectStorage : String
  deriving DecidableEq, Repr

/-- A tag value (`interface{}`): a string, a bool, an integer of any kind, a float or a
value of any other dynamic type; the last two carry the text that `%v` prints for
them. -/
inductive TagValue where
  | string (s : String)
  | bool (b : Bool)
  | int (v : Int)
  | float (text : String)
  | other (text : String)
  deriving DecidableEq, Repr

/-- The text `fmt.Sprintf("%v", value)` of a tag value. -/
def TagValue.sprint : TagValue → String
  | .string s => s
  | .bool b => if b then "true" else "false"
  | .int v => toString v
  | .float text => text
  | .other text => text

/-- Modelled from the spec: the declaration of `Span` (`span.go`) is missing from the
sources.  A span has its identifiers, the result of `IsRootSpan()` and "a precomputed
approximate byte size used for queue accounting" (`bytesSize`, an `int64`); then what
the getters used by `exporter.go` return: workspace, timing, classification, status
code, the flag `UltraLargeReport()`, the tag map, the system tag map and the set of
multi-modality tag keys (maps are association lists, the first entry of a key
counting). -/
structure Span where
  TraceID : String
  SpanID : String
  isRootSpan : Bool
  bytesSize : Int
  SpaceID : String := ""
  ParentID : String := ""
  LogID : String := ""
  StartTimeMicros : Int := 0
  Duration : Int := 0
  ServiceName : String := ""
  SpanName : String := ""
  SpanType : String := ""
  StatusCode : Int := 0
  ultraLargeReport : Bool := false
  TagMap : List (String × TagValue) := []
  SystemTagMap : List (String × TagValue) := []
  multiModalityKeyMap : List String := []
  deriving DecidableEq, Repr

/-- The Go `len` of a string: its number of bytes. -/
def goLen (s : String) : Int := (s.utf8ByteSize : Int)

/-- Two's-complement wrap-around of `int64` arithmetic. -/
def wrapInt64 (x : Int) : Int := (x + 2 ^ 63) % 2 ^ 64 - 2 ^ 63

/-! ## queue_manager.go -/

def queueNameSpan : String := "span"
def queueNameSpanRetry : String := "span_retry"
def queueNameFile : String := "file"
def queueNameFileRetry : String := "file_retry"

/-- What travels through the channel (`interface{}`): a `*Span`, a `*entity.UploadFile`,
the sentinel `forceFlushSpan`, or a value of any other dynamic type. -/
inductive Item where
  | span (s : Span)
  | file (f : UploadFile)
  | forceFlushSpan
  | other (tag : Nat)
  deriving DecidableEq, Repr

/-- The type assertion `sd.(forceFlushSpan)` fails. -/
def Item.isReal : Item → Bool
  | .forceFlushSpan => false
  | _ => true

/-- Mirror of `batchQueueManagerOptions`.  `maxQueueLength` and `maxExportBatchLength`
are natural numbers: `newBatchQueueManager` passes them to `make`, which panics on a
negative size.  `exportFunc` and `finishEventProcessor` say whether the function value
is non-nil. -/
structure batchQueueManagerOptions where
  queueName : String
  maxQueueLength : Nat
  batchTimeout : Int
  maxExportBatchLength : Nat
  maxExportBatchByteSize : Int
  exportFunc : Bool
  finishEventProcessor : Bool
  deriving DecidableEq, Repr

/-- Mirror of `BatchQueueManager`.  `stopOnce` is true once `stopOnce.Do` has run;
`exported` and `events` are the recorded calls of `exportFunc` and of
`finishEventProcessor`. -/
structure BatchQueueManager where
  o : batchQueueManagerOptions
  queue : List Item
  dropped : Nat
  batch : List Item
  batchByteSize : Int
  stopOnce : Bool
  stopped : Bool
  exported : List (List Item)
  events : List FinishEventInfo
  deriving DecidableEq, Repr

/-- The state built by `newBatchQueueManager`. -/
def newBatchQueueManager (o : batchQueueManagerOptions) : BatchQueueManager :=
  { o := o, queue := [], dropped := 0, batch := [], batchByteSize := 0,
    stopOnce := false, stopped := false, exported := [], events := [] }

/-- Embedding of `isShouldExport`. -/
def isShouldExport (b : BatchQueueManager) : Bool :=
  if b.batch.length ≥ b.o.maxExportBatchLength then true
  else if b.batchByteSize ≥ b.o.maxExportBatchByteSize then true
  else false

/-- Embedding of `doExport`: a non-empty batch is handed to `exportFunc` (when there is
one), then the batch and the byte counter are reset. -/
def doExport (b : BatchQueueManager) : BatchQueueManager :=
  if b.batch.length > 0 then
    let b1 := if b.o.exportFunc then { b with exported := b.exported ++ [b.batch] } else b
    { b1 with batch := [], batchByteSize := 0 }
  else b

/-- One iteration of `processQueue` taking `case sd := <-b.queue` (not enabled, hence
the identity, on an empty channel). -/
def processQueueRecv (b : BatchQueueManager) : BatchQueueManager :=
  match b.queue with
  | [] => b
  | sd :: rest =>
    let b0 := { b with queue := rest }
    match sd with
    | .forceFlushSpan => b0
    | _ =>
      let b1 := { b0 with batch := b0.batch ++ [sd] }
      if isShouldExport b1 then doExport b1 else b1

/-- One iteration of `processQueue` taking `case <-b.timer.C`. -/
def processQueueTimer (b : BatchQueueManager) : BatchQueueManager :=
  doExport b

/-- The result of `ctx.Err()` on a finished context. -/
inductive CtxError where
  | Canceled
  | DeadlineExceeded
  deriving DecidableEq, Repr

/-- A `context.Context` as the callee observes it: `doneAt = some k` means that the
context is done from the callee's `k`-th observation point on (`some 0`: already done
at the call), `none` that it is never done during the call. -/
structure Context where
  doneAt : Option Nat
  err : CtxError
  deriving DecidableEq, Repr

/-- The context `context.Background()`. -/
def Context.background : Context := { doneAt := none, err := .Canceled }

/-- The method `ctx.Err()` at the current observation point. -/
def Context.Err (ctx : Context) : Option CtxError :=
  if ctx.doneAt = some 0 then some ctx.err else none

/-- The same context `n` observation points later. -/
def Context.after (ctx : Context) (n : Nat) : Context :=
  { ctx with doneAt := ctx.doneAt.map (fun k => k - n) }

/-- The loop of `drainQueue`, one iteration per unit of fuel.  `case <-ctx.Done()` is
taken as soon as the context is done; otherwise an item is received if there is one,
and the `default` case makes the final export. -/
def drainQueueLoop : Nat → Context → BatchQueueManager → BatchQueueManager
  | 0, _, b => b
  | fuel + 1, ctx, b =>
    if ctx.doneAt = some 0 then b
    else
      match b.queue with
      | [] => doExport b
      | sd :: rest =>
        let b0 := { b with queue := rest }
        match sd with
        | .forceFlushSpan => drainQueueLoop fuel (ctx.after 1) b0
        | _ =>
          let b1 := { b0 with batch := b0.batch ++ [sd] }
          let b2 := if b1.batch.length = b1.o.maxExportBatchLength then doExport b1 else b1
          drainQueueLoop fuel (ctx.after 1) b2

/-- Embedding of `drainQueue`: every iteration but the last one removes an item from
the channel, so `len(queue) + 1` iterations are enough. -/
def drainQueue (ctx : Context) (b : BatchQueueManager) : BatchQueueManager :=
  drainQueueLoop (b.queue.length + 1) ctx b

/-- The switch on `b.o.queueName` in `Enqueue`: event type and extra parameters. -/
def enqueueEventKind (queueName : String) (sd : Item) :
    SpanFinishEvent × Option FinishEventInfoExtra :=
  if queueName = queueNameSpan ∨ queueName = queueNameSpanRetry then
    (.SpanQueueEntryRate,
      match sd with
      | .span s => some { IsRootSpan := s.isRootSpan, LatencyMs := 0 }
      | _ => none)
  else (.FileQueueEntryRate, none)

/-- Embedding of `Enqueue`: nothing after `Shutdown`; otherwise a non-blocking send
(accepted while the channel holds fewer than `maxQueueLength` items), the byte counter
or the dropped counter is updated, and one finish event is reported. -/
def Enqueue (b : BatchQueueManager) (sd : Item) (byteSize : Int) : BatchQueueManager :=
  if b.stopped then b
  else
    let accepted : Bool := decide (b.queue.length < b.o.maxQueueLength)
    let b1 : BatchQueueManager :=
      if accepted then
        { b with queue := b.queue ++ [sd],
                 batchByteSize := wrapInt64 (b.batchByteSize + byteSize) }
      else { b with dropped := (b.dropped + 1) % 2 ^ 32 }
    let detailMsg : String :=
      if accepted then
        b.o.queueName ++ " enqueue, queue length: " ++ toString b1.queue.length
      else b.o.queueName ++ " queue is full, dropped item"
    let kind := enqueueEventKind b.o.queueName sd
    if b.o.finishEventProcessor then
      { b1 with events := b1.events ++
          [{ EventType := kind.1, IsEventFail := !accepted, ItemNum := 1,
             DetailMsg := detailMsg, ExtraParams := kind.2 }] }
    else b1

/-- The goroutine of `processQueue` left to run for `n` receptions; `timer k` tells
whether the timer case is taken before the reception that leaves `k` more to do. -/
def processQueueSteps (timer : Nat → Bool) : Nat → BatchQueueManager → BatchQueueManager
  | 0, b => b
  | n + 1, b =>
    let b1 := if timer n then processQueueTimer b else b
    processQueueSteps timer n (processQueueRecv b1)

/-- Embedding of `enqueueBlockOnQueueFull` for a context that is not done: nothing after
`Shutdown`; otherwise the send waits until the loop has made room, then succeeds. -/
def enqueueBlockOnQueueFull (timer : Nat → Bool) (b : BatchQueueManager) (sd : Item) :
    BatchQueueManager :=
  if b.stopped then b
  else
    let b1 := processQueueSteps timer (b.queue.length + 1 - b.o.maxQueueLength) b
    { b1 with queue := b1.queue ++ [sd] }

/-- Embedding of `ForceFlush`.  Observation points of the context: the call (point 0),
then the `n` receptions of the loop while the sentinel is awaited (points 1 to `n`, the
sentinel being the `n`-th item of the channel), then the iterations of the drain (from
point `n + 1` on).  When the context is done while the sentinel is awaited the call
returns its error; the state returned is the one the loop has reached by then, the
sentinel being taken to have been sent.  The timer schedule of the blocking send is the
part of `timer` above `len(queue)`, the schedule of the wait the part below. -/
def ForceFlush (ctx : Context) (timer : Nat → Bool) (b : BatchQueueManager) :
    BatchQueueManager × Option CtxError :=
  match ctx.Err with
  | some e => (b, some e)
  | none =>
    if b.stopped then (b, none)
    else
      let b1 := enqueueBlockOnQueueFull (fun k => timer (k + (b.queue.length + 1))) b
        .forceFlushSpan
      let n := b1.queue.length
      match ctx.doneAt with
      | some k =>
        if k ≤ n then (processQueueSteps timer (k - 1) b1, some ctx.err)
        else (drainQueue (ctx.after (n + 1)) (processQueueSteps timer n b1), none)
      | none => (drainQueue ctx (processQueueSteps timer n b1), none)

/-- Embedding of `Shutdown`: only the first call acts.  It sets `stopped`, closes
`stopCh`, on which the loop leaves `processQueue` and runs
`drainQueue(context.Background())`; the call returns `ctx.Err()` when its context is
done before that drain has finished (`len(queue) + 1` iterations). -/
def Shutdown (ctx : Context) (b : BatchQueueManager) :
    BatchQueueManager × Option CtxError :=
  if b.stopOnce then (b, none)
  else
    let b1 := { b with stopOnce := true, stopped := true }
    let b2 := drainQueue Context.background b1
    match ctx.doneAt with
    | some k => if k ≤ b1.queue.length + 1 then (b2, some ctx.err) else (b2, none)
    | none => (b2, none)

/-- The events of the sequential model of one manager: calls of its methods by the
application, and iterations of its `processQueue` goroutine. -/
inductive Op where
  | enqueue (sd : Item) (byteSize : Int)
  | recv
  | timer
  | forceFlush (ctx : Context) (timer : Nat → Bool)
  | shutdown (ctx : Context)

/-- The effect of one event.  After `Shutdown` the goroutine has left `processQueue`,
so its iterations no longer happen. -/
def step (b : BatchQueueManager) : Op → BatchQueueManager
  | .enqueue sd byteSize => Enqueue b sd byteSize
  | .recv => if b.stopOnce then b else processQueueRecv b
  | .timer => if b.stopOnce then b else processQueueTimer b
  | .forceFlush ctx timer => (ForceFlush ctx timer b).1
  | .shutdown ctx => (Shutdown ctx b).1

/-- Run a sequence of events from a state. -/
def run (b : BatchQueueManager) (ops : List Op) : BatchQueueManager :=
  ops.foldl step b

/-- The event is not a call of `Shutdown`. -/
def Op.isShutdown : Op → Bool
  | .shutdown _ => true
  | _ => false

/-- Every `Enqueue` of the sequence finds room in the channel: never more than
`maxQueueLength` items are waiting. -/
def fits : BatchQueueManager → List Op → Bool
  | _, [] => true
  | b, op :: ops =>
    (match op with
      | .enqueue _ _ => decide (b.queue.length < b.o.maxQueueLength)
      | _ => true) && fits (step b op) ops

/-- The items handed to `Enqueue` by a sequence of events, in call order (a sentinel is
not an item). -/
def enqueuedItems : List Op → List Item
  | [] => []
  | .enqueue sd _ :: ops => if sd.isReal then sd :: enqueuedItems ops else enqueuedItems ops
  | _ :: ops => enqueuedItems ops

/-- Everything the manager holds or has exported, oldest first: the exported batches,
the current batch, the items waiting in the channel. -/
def content (b : BatchQueueManager) : List Item :=
  b.exported.flatten ++ b.batch ++ b.queue.filter Item.isReal

/-- A sequence of `Enqueue` calls on one manager, in call order. -/
def EnqueueAll (b : BatchQueueManager) (calls : List (Item × Int)) : BatchQueueManager :=
  calls.foldl (fun q c => Enqueue q c.1 c.2) b

/-! ## span_processor.go -/

def DefaultMaxQueueLength : Nat := 1024
def DefaultMaxRetryQueueLength : Nat := 512
def DefaultMaxExportBatchLength : Nat := 100
def DefaultMaxExportBatchByteSize : Int := 4 * 1024 * 1024
def MaxRetryExportBatchLength : Nat := 50
def DefaultScheduleDelay : Int := 1000
def MaxFileQueueLength : Nat := 512
def MaxFileExportBatchLength : Nat := 1
def MaxFileExportBatchByteSize : Int := 100 * 1024 * 1024
def FileScheduleDelay : Int := 5000

/-- The constant `time.Millisecond`, in nanoseconds. -/
def Millisecond : Int := 1000000

/-- Mirror of `QueueConf`. -/
structure QueueConf where
  SpanQueueLength : Int
  SpanMaxExportBatchLength : Int
  deriving DecidableEq, Repr

/-- The interface `Exporter`: each method returns the text of its error, `none` for a
nil error. -/
structure Exporter where
  ExportSpans : List UploadSpan → Option String
  ExportFiles : List UploadFile → Option String

/-- What the closure returned by `newExportSpansFunc` / `newExportFilesFunc` acts on:
the retry queue and the file queue it was built with (`none` for a nil
`QueueManager`), and the recorded calls it makes of `finishEventProcessor`. -/
structure ExportTargets where
  retryQueue : Option BatchQueueManager
  fileQueue : Option BatchQueueManager
  events : List FinishEventInfo
  deriving DecidableEq, Repr

/-- The loop `if span, ok := s.(*Span); ok` of `newExportSpansFunc`. -/
def spansOf : List Item → List Span
  | [] => []
  | .span s :: l => s :: spansOf l
  | _ :: l => spansOf l

/-- The loop `if file, ok := f.(*entity.UploadFile); ok` of `newExportFilesFunc`. -/
def filesOf : List Item → List UploadFile
  | [] => []
  | .file f :: l => f :: filesOf l
  | _ :: l => filesOf l

/-- Embedding of the closure built by `newExportSpansFunc`.  The conversion
`transferToUploadSpanAndFile` is a parameter (its list of files may hold nil entries),
and `tsMs` is the measured latency of the exporter call. -/
def newExportSpansFunc
    (transferToUploadSpanAndFile : List Span → List UploadSpan × List (Option UploadFile))
    (exporter : Exporter) (finishEventProcessor : Bool) (tsMs : Int)
    (t : ExportTargets) (l : List Item) : ExportTargets :=
  let spans := spansOf l
  let uploadSpans := (transferToUploadSpanAndFile spans).1
  let uploadFiles := (transferToUploadSpanAndFile spans).2
  let r : ExportTargets × String × Bool :=
    match exporter.ExportSpans uploadSpans with
    | some err =>
      match t.retryQueue with
      | some spanRetryQueue =>
        ({ t with retryQueue := some (spans.foldl
              (fun q span => Enqueue q (.span span) span.bytesSize) spanRetryQueue) },
          err ++ ", retry later", true)
      | none => (t, err ++ ", retry second time failed", true)
    | none =>
      ({ t with fileQueue := (uploadFiles.foldl
            (fun fileQueue file =>
              match file with
              | none => fileQueue
              | some f => fileQueue.map (fun q => Enqueue q (.file f) (goLen f.Data)))
            t.fileQueue) },
        "", false)
  if finishEventProcessor then
    { r.1 with events := r.1.events ++
        [{ EventType := .FlushSpanRate, IsEventFail := r.2.2,
           ItemNum := (uploadSpans.length : Int), DetailMsg := r.2.1,
           ExtraParams := some { IsRootSpan := false, LatencyMs := tsMs } }] }
  else r.1

/-- Embedding of the closure built by `newExportFilesFunc`; it never touches a file
queue. -/
def newExportFilesFunc
    (exporter : Exporter) (finishEventProcessor : Bool) (tsMs : Int)
    (t : ExportTargets) (l : List Item) : ExportTargets :=
  let files := filesOf l
  let r : ExportTargets × String × Bool :=
    match exporter.ExportFiles files with
    | some err =>
      match t.retryQueue with
      | some fileRetryQueue =>
        ({ t with retryQueue := some (files.foldl
              (fun q bat => Enqueue q (.file bat) (goLen bat.Data)) fileRetryQueue) },
          err ++ ", retry later", true)
      | none => (t, err ++ ", retry second time failed", true)
    | none => (t, "", false)
  if finishEventProcessor then
    { r.1 with events := r.1.events ++
        [{ EventType := .FlushFileRate, IsEventFail := r.2.2,
           ItemNum := (files.length : Int), DetailMsg := r.2.1,
           ExtraParams := some { IsRootSpan := false, LatencyMs := tsMs } }] }
  else r.1

/-- Mirror of `BatchSpanProcessor`; `events` records the finish events reported by the
export functions of the four queues. -/
structure BatchSpanProcessor where
  spanQM : BatchQueueManager
  spanRetryQM : BatchQueueManager
  fileQM : BatchQueueManager
  fileRetryQM : BatchQueueManager
  stopped : Bool
  events : List FinishEventInfo
  deriving DecidableEq, Repr

/-- Embedding of `NewBatchSpanProcessor`: the four managers with their options.  Every
manager gets an export function; `finishEventProcessor` tells whether the caller's
function is non-nil. -/
def NewBatchSpanProcessor (finishEventProcessor : Bool) (queueConf : Option QueueConf) :
    BatchSpanProcessor :=
  let spanQueueLength : Nat :=
    match queueConf with
    | some c => if c.SpanQueueLength > 0 then c.SpanQueueLength.toNat else DefaultMaxQueueLength
    | none => DefaultMaxQueueLength
  let spanMaxExportBatchLength : Nat :=
    match queueConf with
    | some c =>
      if c.SpanMaxExportBatchLength > 0 then c.SpanMaxExportBatchLength.toNat
      else DefaultMaxExportBatchLength
    | none => DefaultMaxExportBatchLength
  let fileRetryQM := newBatchQueueManager
    { queueName := queueNameFileRetry, batchTimeout := FileScheduleDelay * Millisecond,
      maxQueueLength := MaxFileQueueLength, maxExportBatchLength := MaxFileExportBatchLength,
      maxExportBatchByteSize := MaxFileExportBatchByteSize, exportFunc := true,
      finishEventProcessor := finishEventProcessor }
  let fileQM := newBatchQueueManager
    { queueName := queueNameFile, batchTimeout := FileScheduleDelay * Millisecond,
      maxQueueLength := MaxFileQueueLength, maxExportBatchLength := MaxFileExportBatchLength,
      maxExportBatchByteSize := MaxFileExportBatchByteSize, exportFunc := true,
      finishEventProcessor := finishEventProcessor }
  let spanRetryQM := newBatchQueueManager
    { queueName := queueNameSpanRetry, batchTimeout := DefaultScheduleDelay * Millisecond,
      maxQueueLength := DefaultMaxRetryQueueLength,
      maxExportBatchLength := MaxRetryExportBatchLength,
      maxExportBatchByteSize := DefaultMaxExportBatchByteSize, exportFunc := true,
      finishEventProcessor := finishEventProcessor }
  let spanQM := newBatchQueueManager
    { queueName := queueNameSpan, batchTimeout := DefaultScheduleDelay * Millisecond,
      maxQueueLength := spanQueueLength, maxExportBatchLength := spanMaxExportBatchLength,
      maxExportBatchByteSize := DefaultMaxExportBatchByteSize, exportFunc := true,
      finishEventProcessor := finishEventProcessor }
  { spanQM := spanQM, spanRetryQM := spanRetryQM, fileQM := fileQM,
    fileRetryQM := fileRetryQM, stopped := false, events := [] }

/-- The export function of `spanQM` as `NewBatchSpanProcessor` wires it:
`newExportSpansFunc(exporter, spanRetryQM, fileQM, finishEventProcessor)`. -/
def BatchSpanProcessor.spanQMExport
    (transferToUploadSpanAndFile : List Span → List UploadSpan × List (Option UploadFile))
    (exporter : Exporter) (tsMs : Int) (p : BatchSpanProcessor) (l : List Item) :
    BatchSpanProcessor :=
  let t := newExportSpansFunc transferToUploadSpanAndFile exporter
    p.spanQM.o.finishEventProcessor tsMs
    { retryQueue := some p.spanRetryQM, fileQueue := some p.fileQM, events := p.events } l
  { p with spanRetryQM := t.retryQueue.getD p.spanRetryQM,
           fileQM := t.fileQueue.getD p.fileQM, events := t.events }

/-- The export function of `spanRetryQM` as `NewBatchSpanProcessor` wires it:
`newExportSpansFunc(exporter, nil, fileQM, finishEventProcessor)`. -/
def BatchSpanProcessor.spanRetryQMExport
    (transferToUploadSpanAndFile : List Span → List UploadSpan × List (Option UploadFile))
    (exporter : Exporter) (tsMs : Int) (p : BatchSpanProcessor) (l : List Item) :
    BatchSpanProcessor :=
  let t := newExportSpansFunc transferToUploadSpanAndFile exporter
    p.spanRetryQM.o.finishEventProcessor tsMs
    { retryQueue := none, fileQueue := some p.fileQM, events := p.events } l
  { p with fileQM := t.fileQueue.getD p.fileQM, events := t.events }

/-- The export function of `fileQM` as `NewBatchSpanProcessor` wires it:
`newExportFilesFunc(exporter, fileRetryQM, finishEventProcessor)`. -/
def BatchSpanProcessor.fileQMExport
    (exporter : Exporter) (tsMs : Int) (p : BatchSpanProcessor) (l : List Item) :
    BatchSpanProcessor :=
  let t := newExportFilesFunc exporter p.fileQM.o.finishEventProcessor tsMs
    { retryQueue := some p.fileRetryQM, fileQueue := none, events := p.events } l
  { p with fileRetryQM := t.retryQueue.getD p.fileRetryQM, events := t.events }

/-- The export function of `fileRetryQM` as `NewBatchSpanProcessor` wires it:
`newExportFilesFunc(exporter, nil, finishEventProcessor)`. -/
def BatchSpanProcessor.fileRetryQMExport
    (exporter : Exporter) (tsMs : Int) (p : BatchSpanProcessor) (l : List Item) :
    BatchSpanProcessor :=
  let t := newExportFilesFunc exporter p.fileRetryQM.o.finishEventProcessor tsMs
    { retryQueue := none, fileQueue := none, events := p.events } l
  { p with events := t.events }

/-- What the export functions built by `NewBatchSpanProcessor` close over, besides the
queues: the conversion, the exporter, and the latency they measure. -/
structure ExportEnv where
  transferToUploadSpanAndFile : List Span → List UploadSpan × List (Option UploadFile)
  exporter : Exporter
  tsMs : Int

/-- The four queues of a processor. -/
inductive QueueId where
  | span
  | spanRetry
  | file
  | fileRetry
  deriving DecidableEq, Repr

/-- The manager behind a queue of the processor. -/
def BatchSpanProcessor.get (p : BatchSpanProcessor) : QueueId → BatchQueueManager
  | .span => p.spanQM
  | .spanRetry => p.spanRetryQM
  | .file => p.fileQM
  | .fileRetry => p.fileRetryQM

/-- Replace the manager behind a queue of the processor. -/
def BatchSpanProcessor.set (p : BatchSpanProcessor) (q : QueueId) (b : BatchQueueManager) :
    BatchSpanProcessor :=
  match q with
  | .span => { p with spanQM := b }
  | .spanRetry => { p with spanRetryQM := b }
  | .file => { p with fileQM := b }
  | .fileRetry => { p with fileRetryQM := b }

/-- The export function of each queue, as `NewBatchSpanProcessor` wires it. -/
def BatchSpanProcessor.exportOf (env : ExportEnv) (p : BatchSpanProcessor) (q : QueueId)
    (l : List Item) : BatchSpanProcessor :=
  match q with
  | .span => p.spanQMExport env.transferToUploadSpanAndFile env.exporter env.tsMs l
  | .spanRetry => p.spanRetryQMExport env.transferToUploadSpanAndFile env.exporter env.tsMs l
  | .file => p.fileQMExport env.exporter env.tsMs l
  | .fileRetry => p.fileRetryQMExport env.exporter env.tsMs l

/-- The batches a manager has handed to its export function between two states. -/
def newlyExported (before after : BatchQueueManager) : List (List Item) :=
  after.exported.drop before.exported.length

/-- A method of one queue called on the processor: the manager changes state, and every
batch it exports meanwhile goes through its export function, which acts on the other
queues.  No other loop runs in between. -/
def BatchSpanProcessor.call (env : ExportEnv) (p : BatchSpanProcessor) (q : QueueId)
    (method : BatchQueueManager → BatchQueueManager × Option CtxError) :
    BatchSpanProcessor × Option CtxError :=
  let r := method (p.get q)
  ((newlyExported (p.get q) r.1).foldl (fun p2 l => p2.exportOf env q l) (p.set q r.1), r.2)

/-- The observation points of its context that a call of `Shutdown` goes through: the
iterations of the drain when the call is the first one, none otherwise. -/
def ShutdownPoints (b : BatchQueueManager) : Nat :=
  if b.stopOnce then 0 else b.queue.length + 1

/-- The observation points of its context that a call of `ForceFlush` goes through when
it is not cut short by the context: the receptions up to the sentinel, then the
iterations of the drain; none on a stopped manager. -/
def ForceFlushPoints (timer : Nat → Bool) (b : BatchQueueManager) : Nat :=
  if b.stopped then 0
  else
    let b1 := enqueueBlockOnQueueFull (fun k => timer (k + (b.queue.length + 1))) b
      .forceFlushSpan
    b1.queue.length + ((processQueueSteps timer b1.queue.length b1).queue.length + 1)

/-- The outcome of `Shutdown` or `ForceFlush` on the processor: its new state, the error
returned, and the queues whose method was called, in call order, each with what its
call returned. -/
structure ProcessorResult where
  p : BatchSpanProcessor
  err : Option CtxError
  called : List (QueueId × Option CtxError)

/-- Embedding of `BatchSpanProcessor.OnSpanEnd`. -/
def BatchSpanProcessor.OnSpanEnd (p : BatchSpanProcessor) (s : Span) : BatchSpanProcessor :=
  if p.stopped then p else { p with spanQM := Enqueue p.spanQM (.span s) s.bytesSize }

/-- Embedding of `BatchSpanProcessor.Shutdown`: the four managers are shut down in turn
with the caller's context (seen later and later), each `if err != nil` returning at
once; `stopped` is set after the fourth. -/
def BatchSpanProcessor.Shutdown (env : ExportEnv) (ctx : Context) (p : BatchSpanProcessor) :
    ProcessorResult :=
  let r1 := p.call env .span (CozeLoop.Shutdown ctx)
  match r1.2 with
  | some err => { p := r1.1, err := some err, called := [(.span, some err)] }
  | none =>
    let ctx2 := ctx.after (ShutdownPoints p.spanQM)
    let r2 := r1.1.call env .spanRetry (CozeLoop.Shutdown ctx2)
    match r2.2 with
    | some err =>
      { p := r2.1, err := some err, called := [(.span, none), (.spanRetry, some err)] }
    | none =>
      let ctx3 := ctx2.after (ShutdownPoints r1.1.spanRetryQM)
      let r3 := r2.1.call env .file (CozeLoop.Shutdown ctx3)
      match r3.2 with
      | some err =>
        { p := r3.1, err := some err,
          called := [(.span, none), (.spanRetry, none), (.file, some err)] }
      | none =>
        let ctx4 := ctx3.after (ShutdownPoints r2.1.fileQM)
        let r4 := r3.1.call env .fileRetry (CozeLoop.Shutdown ctx4)
        match r4.2 with
        | some err =>
          { p := r4.1, err := some err,
            called := [(.span, none), (.spanRetry, none), (.file, none),
              (.fileRetry, some err)] }
        | none =>
          { p := { r4.1 with stopped := true }, err := none,
            called := [(.span, none), (.spanRetry, none), (.file, none),
              (.fileRetry, none)] }

/-- Embedding of `BatchSpanProcessor.ForceFlush`: the four managers are flushed in turn
with the caller's context (seen later and later), each `if err != nil` returning at
once. -/
def BatchSpanProcessor.ForceFlush (env : ExportEnv) (ctx : Context) (timer : Nat → Bool)
    (p : BatchSpanProcessor) : ProcessorResult :=
  let r1 := p.call env .span (CozeLoop.ForceFlush ctx timer)
  match r1.2 with
  | some err => { p := r1.1, err := some err, called := [(.span, some err)] }
  | none =>
    let ctx2 := ctx.after (ForceFlushPoints timer p.spanQM)
    let r2 := r1.1.call env .spanRetry (CozeLoop.ForceFlush ctx2 timer)
    match r2.2 with
    | some err =>
      { p := r2.1, err := some err, called := [(.span, none), (.spanRetry, some err)] }
    | none =>
      let ctx3 := ctx2.after (ForceFlushPoints timer r1.1.spanRetryQM)
      let r3 := r2.1.call env .file (CozeLoop.ForceFlush ctx3 timer)
      match r3.2 with
      | some err =>
        { p := r3.1, err := some err,
          called := [(.span, none), (.spanRetry, none), (.file, some err)] }
      | none =>
        let ctx4 := ctx3.after (ForceFlushPoints timer r2.1.fileQM)
        let r4 := r3.1.call env .fileRetry (CozeLoop.ForceFlush ctx4 timer)
        match r4.2 with
        | some err =>
          { p := r4.1, err := some err,
            called := [(.span, none), (.spanRetry, none), (.file, none),
              (.fileRetry, some err)] }
        | none =>
          { p := r4.1, err := none,
            called := [(.span, none), (.spanRetry, none), (.file, none),
              (.fileRetry, none)] }

/-- The place of a queue in the order span, span-retry, file, file-retry. -/
def QueueId.rank : QueueId → Nat
  | .span => 0
  | .spanRetry => 1
  | .file => 2
  | .fileRetry => 3

/-- The sentence on `Shutdown` and `ForceFlush` of the processor, as a loop over a list
of queues: the method is called on each queue in turn, on the state that the call
before has left and with the context as it is seen by then, until a call returns an
error; that error ends the loop, and the queues after it are not called.  The result is
the state, the error, and the calls made with what each returned. -/
def callUntilError (env : ExportEnv)
    (method : Context → BatchQueueManager → BatchQueueManager × Option CtxError)
    (points : BatchQueueManager → Nat) :
    List QueueId → Context → BatchSpanProcessor → ProcessorResult
  | [], _, p => { p := p, err := none, called := [] }
  | q :: rest, ctx, p =>
    match (p.call env q (method ctx)).2 with
    | some err =>
      { p := (p.call env q (method ctx)).1, err := some err, called := [(q, some err)] }
    | none =>
      { callUntilError env method points rest (ctx.after (points (p.get q)))
          (p.call env q (method ctx)).1 with
        called := (q, none) ::
          (callUntilError env method points rest (ctx.after (points (p.get q)))
            (p.call env q (method ctx)).1).called }

/-- What holds of a manager whose batch may exceed its bound by `slack` items: no
exported batch is empty, holds a sentinel or (for a positive `maxExportBatchLength`)
exceeds that length; the batch holds no sentinel and fewer than
`maxExportBatchLength + slack` items; and `stopped` is set exactly when `stopOnce` has
run. -/
structure InvariantUpTo (slack : Nat) (b : BatchQueueManager) : Prop where
  exported_nonempty : ∀ l ∈ b.exported, l ≠ []
  exported_bounded : 0 < b.o.maxExportBatchLength →
    ∀ l ∈ b.exported, l.length ≤ b.o.maxExportBatchLength
  exported_real : ∀ l ∈ b.exported, ∀ x ∈ l, x.isReal = true
  batch_bounded : 0 < b.o.maxExportBatchLength →
    b.batch.length < b.o.maxExportBatchLength + slack
  batch_real : ∀ x ∈ b.batch, x.isReal = true
  stopped_eq_stopOnce : b.stopped = b.stopOnce

/-- The invariant of a manager between two steps. -/
def Invariant (b : BatchQueueManager) : Prop := InvariantUpTo 0 b

/-! ## internal/consts/consts.go, spec/tracespec -/

def MaxBytesOfOneTagValueOfInputOutput : Int := 1 * 1024 * 1024
def TextTruncateCharLength : Int := 1000

/-- The tag keys `tracespec.Input` and `tracespec.Output`. -/
def tracespecInput : String := "input"
def tracespecOutput : String := "output"

def ModelMessagePartTypeText : String := "text"
def ModelMessagePartTypeImage : String := "image_url"
def ModelMessagePartTypeFile : String := "file_url"

/-- Mirror of `tracespec.ModelImageURL`. -/
structure ModelImageURL where
  Name : String
  URL : String
  Detail : String
  deriving DecidableEq, Repr

/-- Mirror of `tracespec.ModelFileURL`. -/
structure ModelFileURL where
  Name : String
  URL : String
  Detail : String
  Suffix : String
  deriving DecidableEq, Repr

/-- Mirror of `tracespec.ModelMessagePart` (`Type_` is its field `Type`); a nil `ImageURL`
or `FileURL` is `none`. -/
structure ModelMessagePart where
  Type_ : String
  Text : String
  ImageURL : Option ModelImageURL
  FileURL : Option ModelFileURL
  deriving DecidableEq, Repr

/-- Mirror of `tracespec.ModelMessage`, restricted to the fields the conversion reads or
writes (the others are carried through unchanged); a nil part is `none`. -/
structure ModelMessage where
  Role : String
  Content : String
  Parts : List (Option ModelMessagePart)
  deriving DecidableEq, Repr

/-- Mirror of `tracespec.ModelInput`, restricted to `Messages` (`[]*ModelMessage`); a
nil message is `none`. -/
structure ModelInput where
  Messages : List (Option ModelMessage)
  deriving DecidableEq, Repr

/-- Mirror of `tracespec.ModelChoice`; a nil `Message` is `none`. -/
structure ModelChoice where
  FinishReason : String
  Index : Int
  Message : Option ModelMessage
  deriving DecidableEq, Repr

/-- Mirror of `tracespec.ModelOutput`; a nil choice is `none`. -/
structure ModelOutput where
  Choices : List (Option ModelChoice)
  deriving DecidableEq, Repr

/-! ## internal/trace/model/model.go -/

/-- Mirror of `model.Attachment` (`Type_` is its field `Type`). -/
structure Attachment where
  Field : String
  Name : String
  Type_ : String
  TosKey : String
  deriving DecidableEq, Repr

/-- Mirror of `model.ObjectStorage`. -/
structure ObjectStorage where
  InputTosKey : String
  OutputTosKey : String
  Attachments : List Attachment
  deriving DecidableEq, Repr

/-! ## internal/util -/

/-- The loop `for i, r := range s` of `TruncateStringByChar`: `i` is the byte offset at
which the rune `r` starts. -/
def truncateRange : List Char → Nat → Int → List Char
  | [], _, _ => []
  | r :: rest, i, n =>
    if (i : Int) ≥ n then [] else r :: truncateRange rest (i + r.utf8Size) n

/-- Embedding of `util.TruncateStringByChar` (on valid UTF-8, where
`utf8.RuneCountInString` is the number of characters). -/
def TruncateStringByChar (s : String) (n : Int) : String :=
  if (s.length : Int) ≤ n then s
  else String.mk (truncateRange s.data 0 n)

/-- What `IsValidURL` reads of the `*url.URL` returned by `url.ParseRequestURI`. -/
structure URL where
  Scheme : String
  Host : String
  deriving DecidableEq, Repr

/-- Embedding of `util.IsValidURL`; `parseRequestURI` stands for the library function
`url.ParseRequestURI`, `none` being an error. -/
def IsValidURL (parseRequestURI : String → Option URL) (u : String) : Bool :=
  match parseRequestURI u with
  | none => false
  | some parsedURL =>
    if parsedURL.Scheme = "" ∨ parsedURL.Host = "" then false else true

/-- Embedding of `util.Gen16CharID`, given the `uint64` that the id generator returns:
`fmt.Sprintf("%016x", rand&math.MaxInt64)`. -/
def Gen16CharID (rand : Nat) : String :=
  let digits := Nat.toDigits 16 ((rand % 2 ^ 64) % 2 ^ 63)
  String.mk (List.replicate (16 - digits.length) '0' ++ digits)

/-! ## exporter.go -/

/-- How a call of the conversion ends: it returns its results with a nil error, it
returns an error, or it panics (a nil pointer is dereferenced; nothing recovers the
panic). -/
inductive Outcome (α : Type) where
  | ok (a : α)
  | error (err : String)
  | panic
  deriving DecidableEq, Repr

/-- The library functions and the sources of non-determinism that the conversion uses:
`url.ParseRequestURI`; `base64.StdEncoding.DecodeString` (the bytes returned, and the
error if any); `json.Unmarshal` and `json.Marshal` on the three types they are applied
to; the value returned by the id generator for the part at a given position (position
of the span in the batch, tag key, index of the message or choice, index of the part);
and the order in which the two entries of the map `tagValueConverterMap` are visited
for the span at a given position. -/
structure ConvertEnv where
  parseRequestURI : String → Option URL
  base64Decode : String → String × Option String
  unmarshalModelInput : String → Except String ModelInput
  marshalModelInput : ModelInput → Except String String
  unmarshalModelOutput : String → Except String ModelOutput
  marshalModelOutput : ModelOutput → Except String String
  marshalObjectStorage : ObjectStorage → Except String String
  GenId : Nat → String → Nat → Nat → Nat
  inputFirst : Nat → Bool

def fileTypeText : String := "text"
def fileTypeImage : String := "image"
def fileTypeFile : String := "file"

/-- The format `KeyTemplateLargeText = "%s_%s_%s_%s_large_text"`. -/
def KeyTemplateLargeText (traceID spanID tagKey fileType : String) : String :=
  traceID ++ "_" ++ spanID ++ "_" ++ tagKey ++ "_" ++ fileType ++ "_large_text"

/-- The format `KeyTemplateMultiModality = "%s_%s_%s_%s_%s"`. -/
def KeyTemplateMultiModality (traceID spanID tagKey fileType id : String) : String :=
  traceID ++ "_" ++ spanID ++ "_" ++ tagKey ++ "_" ++ fileType ++ "_" ++ id

/-- Embedding of `transferText`. -/
def transferText (src : String) (span : Span) (tagKey : String) :
    String × Option UploadFile :=
  if goLen src = 0 then ("", none)
  else if !span.ultraLargeReport then (src, none)
  else if goLen src > MaxBytesOfOneTagValueOfInputOutput then
    (TruncateStringByChar src TextTruncateCharLength,
      some { TosKey := KeyTemplateLargeText span.TraceID span.SpanID tagKey fileTypeText,
             Data := src, UploadType := .UploadTypeLong, TagKey := tagKey, Name := "",
             FileType := fileTypeText, SpaceID := span.SpaceID })
  else (src, none)

/-- Embedding of `transferImage`: the file returned, and `src` as the call leaves it
(its `URL` is overwritten in place).  `rand` is what the id generator returns. -/
def transferImage (env : ConvertEnv) (rand : Nat) (src : Option ModelImageURL)
    (span : Span) (tagKey : String) : Option UploadFile × Option ModelImageURL :=
  match src with
  | none => (none, none)
  | some img =>
    if IsValidURL env.parseRequestURI img.URL then (none, some img)
    else
      let key := KeyTemplateMultiModality span.TraceID span.SpanID tagKey fileTypeImage
        (Gen16CharID rand)
      let bin := (env.base64Decode img.URL).1
      (some { TosKey := key, Data := bin, UploadType := .UploadTypeMultiModality,
              TagKey := tagKey, Name := img.Name, FileType := fileTypeImage,
              SpaceID := span.SpaceID },
        some { img with URL := key })

/-- Embedding of `transferFile`: the file returned, and `src` as the call leaves it. -/
def transferFile (env : ConvertEnv) (rand : Nat) (src : Option ModelFileURL)
    (span : Span) (tagKey : String) : Option UploadFile × Option ModelFileURL :=
  match src with
  | none => (none, none)
  | some file =>
    if IsValidURL env.parseRequestURI file.URL then (none, some file)
    else
      let key := KeyTemplateMultiModality span.TraceID span.SpanID tagKey fileTypeFile
        (Gen16CharID rand)
      let bin := (env.base64Decode file.URL).1
      (some { TosKey := key, Data := bin, UploadType := .UploadTypeMultiModality,
              TagKey := tagKey, Name := file.Name, FileType := fileTypeFile,
              SpaceID := span.SpaceID },
        some { file with URL := key })

/-- Embedding of `transferMessagePart`: the files returned (never nil), and the part as
the call leaves it. -/
def transferMessagePart (env : ConvertEnv) (rand : Nat) (src : Option ModelMessagePart)
    (span : Span) (tagKey : String) : List UploadFile × Option ModelMessagePart :=
  match src with
  | none => ([], none)
  | some part =>
    if part.Type_ = ModelMessagePartTypeImage then
      let r := transferImage env rand part.ImageURL span tagKey
      (r.1.toList, some { part with ImageURL := r.2 })
    else if part.Type_ = ModelMessagePartTypeFile then
      let r := transferFile env rand part.FileURL span tagKey
      (r.1.toList, some { part with FileURL := r.2 })
    else ([], some part)

/-- The loop over the parts of one message, from the part of index `j` on. -/
def transferParts (env : ConvertEnv) (genId : Nat → Nat) (span : Span) (tagKey : String) :
    List (Option ModelMessagePart) → Nat → List UploadFile × List (Option ModelMessagePart)
  | [], _ => ([], [])
  | part :: rest, j =>
    let r := transferMessagePart env (genId j) part span tagKey
    let rs := transferParts env genId span tagKey rest (j + 1)
    (r.1 ++ rs.1, r.2 :: rs.2)

/-- The loop of `convertInput` over the messages, from the message of index `i` on.
`message.Parts` is read without a nil check: on a nil message the loop panics
(`none`). -/
def transferMessages (env : ConvertEnv) (genId : Nat → Nat → Nat) (span : Span)
    (tagKey : String) :
    List (Option ModelMessage) → Nat → Option (List UploadFile × List (Option ModelMessage))
  | [], _ => some ([], [])
  | none :: _, _ => none
  | some message :: rest, i =>
    let r := transferParts env (genId i) span tagKey message.Parts 0
    match transferMessages env genId span tagKey rest (i + 1) with
    | none => none
    | some rs => some (r.1 ++ rs.1, some { message with Parts := r.2 } :: rs.2)

/-- The loop of `convertOutput` over the choices, from the choice of index `i` on; a nil
choice or a choice without message is skipped. -/
def transferChoices (env : ConvertEnv) (genId : Nat → Nat → Nat) (span : Span)
    (tagKey : String) :
    List (Option ModelChoice) → Nat → List UploadFile × List (Option ModelChoice)
  | [], _ => ([], [])
  | choice :: rest, i =>
    let rs := transferChoices env genId span tagKey rest (i + 1)
    match choice with
    | none => (rs.1, none :: rs.2)
    | some c =>
      match c.Message with
      | none => (rs.1, some c :: rs.2)
      | some message =>
        let r := transferParts env (genId i) span tagKey message.Parts 0
        (r.1 ++ rs.1, some { c with Message := some { message with Parts := r.2 } } :: rs.2)

/-- Embedding of `convertInput`: the value and the list of files (whose entries may be
nil), an error, or a panic on a nil message of a multi-modal input. -/
def convertInput (env : ConvertEnv) (genId : Nat → Nat → Nat) (spanKey : String)
    (span : Span) : Outcome (String × List (Option UploadFile)) :=
  match span.TagMap.lookup spanKey with
  | none => .ok ("", [])
  | some value =>
    if ¬ spanKey ∈ span.multiModalityKeyMap then
      let r := transferText value.sprint span spanKey
      match r.2 with
      | some f => .ok (r.1, [some f])
      | none => .ok (r.1, [])
    else
      let unmarshalled : Except String ModelInput :=
        match value with
        | .string tempV => env.unmarshalModelInput tempV
        | _ => .ok { Messages := [] }
      match unmarshalled with
      | .error err => .error err
      | .ok modelInput =>
        match transferMessages env genId span spanKey modelInput.Messages 0 with
        | none => .panic
        | some r =>
          match env.marshalModelInput { modelInput with Messages := r.2 } with
          | .error err => .error err
          | .ok valueRes =>
            if goLen valueRes > MaxBytesOfOneTagValueOfInputOutput then
              let t := transferText valueRes span spanKey
              match t.2 with
              | some f => .ok (t.1, r.1.map some ++ [some f])
              | none => .ok (t.1, r.1.map some)
            else .ok (valueRes, r.1.map some)

/-- Embedding of `convertOutput`.  In the plain-text branch the file returned by
`transferText` is appended without a nil check. -/
def convertOutput (env : ConvertEnv) (genId : Nat → Nat → Nat) (spanKey : String)
    (span : Span) : Outcome (String × List (Option UploadFile)) :=
  match span.TagMap.lookup spanKey with
  | none => .ok ("", [])
  | some value =>
    if ¬ spanKey ∈ span.multiModalityKeyMap then
      let r := transferText value.sprint span spanKey
      .ok (r.1, [r.2])
    else
      let unmarshalled : Except String ModelOutput :=
        match value with
        | .string tempV => env.unmarshalModelOutput tempV
        | _ => .ok { Choices := [] }
      match unmarshalled with
      | .error err => .error err
      | .ok modelOutput =>
        let r := transferChoices env genId span spanKey modelOutput.Choices 0
        match env.marshalModelOutput { modelOutput with Choices := r.2 } with
        | .error err => .error err
        | .ok valueRes =>
          if goLen valueRes > MaxBytesOfOneTagValueOfInputOutput then
            let t := transferText valueRes span spanKey
            match t.2 with
            | some f => .ok (t.1, r.1.map some ++ [some f])
            | none => .ok (t.1, r.1.map some)
          else .ok (valueRes, r.1.map some)

/-- The map `tagValueConverterMap`: the converter registered for a tag key. -/
def tagValueConverter (env : ConvertEnv) (genId : String → Nat → Nat → Nat) (key : String)
    (span : Span) : Outcome (String × List (Option UploadFile)) :=
  if key = tracespecInput then convertInput env (genId key) key span
  else convertOutput env (genId key) key span

/-- The loop of `parseInputOutput` over the keys of `tagValueConverterMap` still to
visit, with the files and the content map accumulated so far. -/
def parseKeys (env : ConvertEnv) (genId : String → Nat → Nat → Nat) (span : Span) :
    List String → List (Option UploadFile) → List (String × String) →
      Outcome (List (Option UploadFile) × List (String × String))
  | [], spanUploadFiles, putContentMap => .ok (spanUploadFiles, putContentMap)
  | key :: rest, spanUploadFiles, putContentMap =>
    match span.TagMap.lookup key with
    | none => parseKeys env genId span rest spanUploadFiles putContentMap
    | some _ =>
      match tagValueConverter env genId key span with
      | .panic => .panic
      | .error err => .error err
      | .ok (newInput, inputFiles) =>
        parseKeys env genId span rest (spanUploadFiles ++ inputFiles)
          ((key, newInput) :: putContentMap.filter (fun kv => kv.1 ≠ key))

/-- Embedding of `parseInputOutput` for the span at position `idx` of the batch: the
files and the content map, an error, or a panic. -/
def parseInputOutput (env : ConvertEnv) (idx : Nat) (span : Span) :
    Outcome (List (Option UploadFile) × List (String × String)) :=
  parseKeys env (env.GenId idx) span
    (if env.inputFirst idx then [tracespecInput, tracespecOutput]
      else [tracespecOutput, tracespecInput]) [] []

/-- The loop of `transferObjectStorage`: the object and the flag `isExist` after the
files of the list. -/
def objectStorageLoop : List (Option UploadFile) → ObjectStorage × Bool →
    ObjectStorage × Bool
  | [], acc => acc
  | none :: rest, acc => objectStorageLoop rest acc
  | some file :: rest, (objectStorage, _) =>
    objectStorageLoop rest
      (match file.UploadType with
        | .UploadTypeLong =>
          if file.TagKey = tracespecInput then
            ({ objectStorage with InputTosKey := file.TosKey }, true)
          else if file.TagKey = tracespecOutput then
            ({ objectStorage with OutputTosKey := file.TosKey }, true)
          else (objectStorage, true)
        | .UploadTypeMultiModality =>
          ({ objectStorage with Attachments := objectStorage.Attachments ++
              [{ Field := file.TagKey, Name := file.Name, Type_ := file.FileType,
                 TosKey := file.TosKey }] }, true))

/-- Embedding of `transferObjectStorage`; `marshal` stands for `json.Marshal` on
`model.ObjectStorage`.  The error the Go function returns is always nil and is left
out. -/
def transferObjectStorage (marshal : ObjectStorage → Except String String)
    (spanUploadFile : List (Option UploadFile)) : String :=
  let r := objectStorageLoop spanUploadFile
    ({ InputTosKey := "", OutputTosKey := "", Attachments := [] }, false)
  if !r.2 then ""
  else
    match marshal r.1 with
    | .ok objectStorageByte => objectStorageByte
    | .error _ => ""

/-- The content map `putContentMap[key]`, the empty string when the key is absent. -/
def contentOf (putContentMap : List (String × String)) (key : String) : String :=
  (putContentMap.lookup key).getD ""

/-- The record that `transferToUploadSpanAndFile` builds for a span from the results of
`parseInputOutput`. -/
def uploadSpanOf (env : ConvertEnv) (span : Span) (spanUploadFile : List (Option UploadFile))
    (putContentMap : List (String × String)) : UploadSpan :=
  { StartedATMicros := span.StartTimeMicros, LogID := span.LogID,
    SpanID := span.SpanID, ParentID := span.ParentID, TraceID := span.TraceID,
    DurationMicros := span.Duration, ServiceName := span.ServiceName,
    WorkspaceID := span.SpaceID, SpanName := span.SpanName, SpanType := span.SpanType,
    StatusCode := span.StatusCode,
    Input := contentOf putContentMap tracespecInput,
    Output := contentOf putContentMap tracespecOutput,
    ObjectStorage := transferObjectStorage env.marshalObjectStorage spanUploadFile }

/-- The loop of `transferToUploadSpanAndFile`, from the span at position `idx` on: a
span whose `parseInputOutput` returns an error is passed over (`continue`); a panic of
`parseInputOutput` ends the loop and the call (`none`). -/
def transferLoop (env : ConvertEnv) : List Span → Nat →
    Option (List UploadSpan × List (Option UploadFile))
  | [], _ => some ([], [])
  | span :: rest, idx =>
    match parseInputOutput env idx span with
    | .panic => none
    | .error _ => transferLoop env rest (idx + 1)
    | .ok (spanUploadFile, putContentMap) =>
      match transferLoop env rest (idx + 1) with
      | none => none
      | some r =>
        some (uploadSpanOf env span spanUploadFile putContentMap :: r.1,
          spanUploadFile ++ r.2)

/-- Embedding of `transferToUploadSpanAndFile`: the records and the files, or `none`
when the call panics. -/
def transferToUploadSpanAndFile (env : ConvertEnv) (spans : List Span) :
    Option (List UploadSpan × List (Option UploadFile)) :=
  transferLoop env spans 0

/-- The closure that `newExportSpansFunc` builds around the conversion of exporter.go.
When the conversion returns, the closure goes on with its results; a panic of the
conversion is not recovered, and the closure then hands nothing to the exporter,
enqueues nothing and reports nothing (`none`). -/
def spanExportFunc (env : ConvertEnv) (exporter : Exporter) (finishEventProcessor : Bool)
    (tsMs : Int) (t : ExportTargets) (l : List Item) : Option ExportTargets :=
  match transferToUploadSpanAndFile env (spansOf l) with
  | none => none
  | some r => some (newExportSpansFunc (fun _ => r) exporter finishEventProcessor tsMs t l)

/-! ## queue_manager.go: two concurrent calls of `Shutdown` -/

/-- Where a call of `Shutdown` stands: at `b.stopOnce.Do` (not yet in, or waiting for
the mutex of the `sync.Once`); inside the function passed to `Do`, at its `select`
(`stopped` is set and the goroutine that closes `stopCh` and then `wait` is started);
or returned, with its result. -/
inductive ShutdownCall where
  | atDo
  | inTeardown
  | returned (err : Option CtxError)
  deriving DecidableEq, Repr

/-- Two calls of `Shutdown` on one manager.  The contexts are observed on a common
clock `now` (`doneAt = some k`: done from time `k` on).  `onceDone` is the field `done`
of `stopOnce`, whose mutex is held exactly while a call is `inTeardown`; `drained` says
that the goroutine of the teardown has closed `wait`; `teardowns` counts the executions
of the function passed to `Do`. -/
structure ConcurrentShutdown where
  now : Nat
  ctx1 : Context
  ctx2 : Context
  call1 : ShutdownCall
  call2 : ShutdownCall
  onceDone : Bool
  stopped : Bool
  drained : Bool
  teardowns : Nat
  deriving DecidableEq, Repr

/-- Both calls have reached `stopOnce.Do` on a running manager. -/
def ConcurrentShutdown.start (ctx1 ctx2 : Context) : ConcurrentShutdown :=
  { now := 0, ctx1 := ctx1, ctx2 := ctx2, call1 := .atDo, call2 := .atDo,
    onceDone := false, stopped := false, drained := false, teardowns := 0 }

/-- The call `who` (`false`: the first, `true`: the second). -/
def ConcurrentShutdown.call (s : ConcurrentShutdown) (who : Bool) : ShutdownCall :=
  if who then s.call2 else s.call1

/-- The context of the call `who`. -/
def ConcurrentShutdown.ctx (s : ConcurrentShutdown) (who : Bool) : Context :=
  if who then s.ctx2 else s.ctx1

def ConcurrentShutdown.setCall (s : ConcurrentShutdown) (who : Bool) (c : ShutdownCall) :
    ConcurrentShutdown :=
  if who then { s with call2 := c } else { s with call1 := c }

/-- The result of `ctx.Err()` of the call `who` at the current time. -/
def ConcurrentShutdown.ctxErr (s : ConcurrentShutdown) (who : Bool) : Option CtxError :=
  ((s.ctx who).after s.now).Err

/-- What can happen: time passes; the goroutine of the teardown closes `wait` (the
loop has left `processQueue` and drained the channel); the call `who` takes its next
step, `preferCtx` telling which case its `select` takes when both are ready. -/
inductive ShutdownEvent where
  | tick
  | drainEnds
  | move (who : Bool) (preferCtx : Bool)
  deriving DecidableEq, Repr

/-- Whether the event can happen.  A call at `Do` goes on when `done` is set, or when
the mutex is free; a call in the teardown when `wait` is closed or its context is
done. -/
def ConcurrentShutdown.enabled (s : ConcurrentShutdown) : ShutdownEvent → Bool
  | .tick => true
  | .drainEnds => s.stopped && !s.drained
  | .move who _ =>
    match s.call who with
    | .atDo => s.onceDone || decide (s.call (!who) ≠ .inTeardown)
    | .inTeardown => s.drained || (s.ctxErr who).isSome
    | .returned _ => false

/-- The state after the event (the same state when the event cannot happen).  A call
at `Do` that finds `done` set returns its `err`, which is nil; otherwise it enters the
function: `atomic.StoreInt32(&b.stopped, 1)`, the goroutine is started, `select`.  A
call at the `select` leaves by `case <-wait` with nil or by `case <-ctx.Done()` with
`ctx.Err()`; `done` is set and the mutex released as it returns. -/
def ConcurrentShutdown.fire (s : ConcurrentShutdown) (ev : ShutdownEvent) :
    ConcurrentShutdown :=
  if !s.enabled ev then s
  else
    match ev with
    | .tick => { s with now := s.now + 1 }
    | .drainEnds => { s with drained := true }
    | .move who preferCtx =>
      match s.call who with
      | .atDo =>
        if s.onceDone then s.setCall who (.returned none)
        else
          { s.setCall who .inTeardown with stopped := true, teardowns := s.teardowns + 1 }
      | .inTeardown =>
        match s.ctxErr who with
        | some e =>
          if s.drained && !preferCtx then
            { s.setCall who (.returned none) with onceDone := true }
          else { s.setCall who (.returned (some e)) with onceDone := true }
        | none => { s.setCall who (.returned none) with onceDone := true }
      | .returned _ => s

/-- The state after a sequence of events. -/
def ConcurrentShutdown.run (s : ConcurrentShutdown) (evs : List ShutdownEvent) :
    ConcurrentShutdown :=
  evs.foldl ConcurrentShutdown.fire s

/-- The call has returned. -/
def ShutdownCall.isReturned : ShutdownCall → Bool
  | .returned _ => true
  | _ => false

/-- The steps a call still has to take. -/
def ShutdownCall.stepsLeft : ShutdownCall → Nat
  | .atDo => 2
  | .inTeardown => 1
  | .returned _ => 0

/-- The events other than `tick` that can still happen. -/
def ConcurrentShutdown.pending (s : ConcurrentShutdown) : Nat :=
  s.call1.stepsLeft + s.call2.stepsLeft + (if s.drained then 0 else 1)

/-- What holds of the two calls in every state: the function of `Do` has run once when
`stopped` is set and not at all otherwise; at most one call is in it; `done` is set
exactly when it has run and no call is in it; a call returns only once `done` is set;
`wait` is closed only after the teardown has begun. -/
def ConcurrentShutdown.wellFormed (s : ConcurrentShutdown) : Bool :=
  decide (s.teardowns = if s.stopped then 1 else 0) &&
    !(decide (s.call1 = .inTeardown) && decide (s.call2 = .inTeardown)) &&
    (s.stopped == (s.onceDone || decide (s.call1 = .inTeardown)
      || decide (s.call2 = .inTeardown))) &&
    !(s.onceDone && (decide (s.call1 = .inTeardown) || decide (s.call2 = .inTeardown))) &&
    (!(s.call1.isReturned || s.call2.isReturned) || s.onceDone) &&
    (!s.drained || s.stopped)

/-! ## exporter.go: `parseTag` -/

/-- A Go map with string keys, as a function to `Option`: `none` for a missing key. -/
abbrev GoMap (α : Type) := String → Option α

/-- The map made by `make`. -/
def GoMap.empty {α : Type} : GoMap α := fun _ => none

/-- The assignment `m[key] = v`. -/
def GoMap.set {α : Type} (m : GoMap α) (key : String) (v : α) : GoMap α :=
  fun k => if k = key then some v else m k

/-- The four maps returned by `parseTag`.  A `float64` is identified by the text that
stands for it in `TagValue.float`. -/
structure TagMaps where
  vStrMap : GoMap String
  vLongMap : GoMap Int
  vDoubleMap : GoMap String
  vBoolMap : GoMap Bool

/-- Embedding of `util.Stringify`; `format` gives the text for a float
(`strconv.FormatFloat`) and for a value of another type. -/
def Stringify (format : TagValue → String) : TagValue → String
  | .bool tv => if tv then "true" else "false"
  | .string tv => tv
  | .int tv => toString tv
  | v => format v

/-- The loop of `parseTag` over the entries of `spanTag`, in the order in which the
map is visited.  The conversion `int64(v)` of an integer of any type wraps around. -/
def parseTagLoop (format : TagValue → String) (isSystemTag : Bool) :
    List (String × TagValue) → TagMaps → TagMaps
  | [], m => m
  | (key, value) :: rest, m =>
    if key = tracespecInput ∨ key = tracespecOutput then
      parseTagLoop format isSystemTag rest m
    else
      parseTagLoop format isSystemTag rest
        (match value with
          | .bool v =>
            if isSystemTag then
              { m with vStrMap := m.vStrMap.set key (Stringify format value) }
            else { m with vBoolMap := m.vBoolMap.set key v }
          | .string v => { m with vStrMap := m.vStrMap.set key v }
          | .int v => { m with vLongMap := m.vLongMap.set key (wrapInt64 v) }
          | .float v => { m with vDoubleMap := m.vDoubleMap.set key v }
          | _ => { m with vStrMap := m.vStrMap.set key (Stringify format value) })

/-- Embedding of `parseTag`: `none` stands for the four nil maps. -/
def parseTag (format : TagValue → String) (spanTag : List (String × TagValue))
    (isSystemTag : Bool) : Option TagMaps :=
  if spanTag.length = 0 then none
  else
    some (parseTagLoop format isSystemTag spanTag
      { vStrMap := GoMap.empty, vLongMap := GoMap.empty, vDoubleMap := GoMap.empty,
        vBoolMap := GoMap.empty })

/-- What the four maps hold for a key. -/
def TagMaps.entry (m : TagMaps) (key : String) :
    Option String × Option Int × Option String × Option Bool :=
  (m.vStrMap key, m.vLongMap key, m.vDoubleMap key, m.vBoolMap key)

/-- The number of maps that hold a key. -/
def TagMaps.holders (m : TagMaps) (key : String) : Nat :=
  (m.vStrMap key).isSome.toNat + (m.vLongMap key).isSome.toNat
    + (m.vDoubleMap key).isSome.toNat + (m.vBoolMap key).isSome.toNat

/-- The entry that the specification gives to a tag by the type of its value: a string
in the string map; an integer of any type in the int64 map; a float in the float64 map;
a bool in the bool map for user tags and as "true" / "false" in the string map for
system tags; a value of another type in the string map, as its string form. -/
def specTagEntry (format : TagValue → String) (isSystemTag : Bool) :
    TagValue → Option String × Option Int × Option String × Option Bool
  | .string v => (some v, none, none, none)
  | .int v => (none, some (wrapInt64 v), none, none)
  | .float v => (none, none, some v, none)
  | .bool v =>
    if isSystemTag then (some (if v then "true" else "false"), none, none, none)
    else (none, none, none, some v)
  | .other text => (some (format (.other text)), none, none, none)

/-! ## internal/logger/logger.go -/

/-- The type `LogLevel` (an `int`). -/
abbrev LogLevel := Int

def LogLevelDebug : LogLevel := 0
def LogLevelInfo : LogLevel := 1
def LogLevelWarn : LogLevel := 2
def LogLevelError : LogLevel := 3
def LogLevelFatal : LogLevel := 4

/-- The initial value of the package variable `defaultLogLevel`. -/
def defaultLogLevel : LogLevel := LogLevelWarn

/-- The state of the package `logger`: the current value of `defaultLogLevel`, and the
recorded calls forwarded to the configured logger (level of the method, format). -/
structure LoggerState where
  logLevel : LogLevel
  forwarded : List (LogLevel × String)
  deriving DecidableEq, Repr

/-- The package `logger` before any call. -/
def initialLogger : LoggerState := { logLevel := defaultLogLevel, forwarded := [] }

def SetLogLevel (s : LoggerState) (level : LogLevel) : LoggerState :=
  { s with logLevel := level }

def GetLogLevel (s : LoggerState) : LogLevel := s.logLevel

def CtxDebugf (s : LoggerState) (format : String) : LoggerState :=
  if GetLogLevel s ≤ LogLevelDebug then
    { s with forwarded := s.forwarded ++ [(LogLevelDebug, format)] }
  else s

def CtxInfof (s : LoggerState) (format : String) : LoggerState :=
  if GetLogLevel s ≤ LogLevelInfo then
    { s with forwarded := s.forwarded ++ [(LogLevelInfo, format)] }
  else s

def CtxWarnf (s : LoggerState) (format : String) : LoggerState :=
  if GetLogLevel s ≤ LogLevelWarn then
    { s with forwarded := s.forwarded ++ [(LogLevelWarn, format)] }
  else s

def CtxErrorf (s : LoggerState) (format : String) : LoggerState :=
  if GetLogLevel s ≤ LogLevelError then
    { s with forwarded := s.forwarded ++ [(LogLevelError, format)] }
  else s

def CtxFatalf (s : LoggerState) (format : String) : LoggerState :=
  if GetLogLevel s ≤ LogLevelFatal then
    { s with forwarded := s.forwarded ++ [(LogLevelFatal, format)] }
  else s

/-! ## internal/prompt/cache.go -/

def cacheKeyPrefix : String := "prompt_hub"

/-- Embedding of `getCacheKey`: the format `"%s:%s:%s:%s"`. -/
def getCacheKey (promptKey version label : String) : String :=
  cacheKeyPrefix ++ ":" ++ promptKey ++ ":" ++ version ++ ":" ++ label

/-- The library function `strings.Split` for a separator of one character. -/
def stringsSplit (s : String) (sep : Char) : List String :=
  (s.data.splitOn sep).map String.mk

/-- Embedding of `parseCacheKey`. -/
def parseCacheKey (key : String) : String × String × String × Bool :=
  match stringsSplit key ':' with
  | [_, promptKey, version, label] => (promptKey, version, label, true)
  | _ => ("", "", "", false)

/-- Mirror of `PromptQuery`. -/
structure PromptQuery where
  PromptKey : String
  Version : String
  Label : String
  deriving DecidableEq, Repr

/-- Embedding of `GetAllPromptQueries`; `keys` is what `c.cache.Keys(false)` returns,
restricted to the keys that are strings. -/
def GetAllPromptQueries (keys : List String) : List PromptQuery :=
  keys.filterMap (fun strKey =>
    let r := parseCacheKey strKey
    if r.2.2.2 then some { PromptKey := r.1, Version := r.2.1, Label := r.2.2.1 }
    else none)

/-! ## internal/consts/error.go -/

/-- A value of the interface `error` as a call sees it: nil, an error made by
`errors.New` or `fmt.Errorf` (its text, and for `%w` the error it wraps), the error of a
finished context, or a `*LoopError`, `*RemoteServiceError`, `*AuthError` with the
fields it has at that moment. -/
inductive GoError where
  | nil
  | plain (msg : String)
  | wrapped (msg : String) (cause : GoError)
  | context (e : CtxError)
  | loop (Msg : String) (cause : GoError)
  | remote (HttpCode ErrCode : Int) (ErrMsg LogID : String) (cause : GoError)
  | auth (HttpCode : Int) (Code ErrorMessage Param LogID : String) (cause : GoError)
  deriving DecidableEq, Repr

/-- The method `Error()`; `<nil>` is what `%v` prints for a nil error. -/
def GoError.Error : GoError → String
  | .nil => "<nil>"
  | .plain msg => msg
  | .wrapped msg _ => msg
  | .context .Canceled => "context canceled"
  | .context .DeadlineExceeded => "context deadline exceeded"
  | .loop Msg .nil => Msg
  | .loop Msg cause => Msg ++ ": " ++ cause.Error
  | .remote HttpCode ErrCode ErrMsg LogID .nil =>
    ErrMsg ++ " [httpcode=" ++ toString HttpCode ++ " code=" ++ toString ErrCode
      ++ " logid=" ++ LogID ++ "]"
  | .remote HttpCode ErrCode ErrMsg LogID cause =>
    ErrMsg ++ " [httpcode=" ++ toString HttpCode ++ " code=" ++ toString ErrCode
      ++ " logid=" ++ LogID ++ "]" ++ ": " ++ cause.Error
  | .auth HttpCode Code ErrorMessage Param LogID _ =>
    ErrorMessage ++ " [httpcode=" ++ toString HttpCode ++ " code=" ++ Code
      ++ " param=" ++ Param ++ " logid=" ++ LogID ++ "]"

/-- Mirror of the struct `LoopError`. -/
structure LoopError where
  Msg : String
  cause : GoError
  deriving DecidableEq, Repr

/-- Mirror of the struct `RemoteServiceError`. -/
structure RemoteServiceError where
  HttpCode : Int
  ErrCode : Int
  ErrMsg : String
  LogID : String
  cause : GoError
  deriving DecidableEq, Repr

/-- The `LoopError` objects that exist, by address: a `*LoopError` is an index of the
list. -/
abbrev LoopErrors := List LoopError

/-- The objects of the eight package variables, in the order of their declaration. -/
def packageErrors : LoopErrors :=
  [{ Msg := "invalid param", cause := .nil },
   { Msg := "internal error", cause := .nil },
   { Msg := "remote service error", cause := .nil },
   { Msg := "client already closed", cause := .nil },
   { Msg := "api token or jwt oauth info is required", cause := .nil },
   { Msg := "failed to parse private key", cause := .nil },
   { Msg := "header traceparent is illegal", cause := .nil },
   { Msg := "template render error", cause := .nil }]

def ErrInvalidParam : Nat := 0
def ErrInternal : Nat := 1
def ErrRemoteService : Nat := 2
def ErrClientClosed : Nat := 3

/-- Embedding of `NewError`: a new object, and its address. -/
def NewError (heap : LoopErrors) (msg : String) : LoopErrors × Nat :=
  (heap ++ [{ Msg := msg, cause := .nil }], heap.length)

/-- The error value that the pointer `e` stands for at the moment. -/
def LoopError.value (heap : LoopErrors) (e : Nat) : GoError :=
  match heap.get? e with
  | some obj => .loop obj.Msg obj.cause
  | none => .nil

/-- Embedding of `(*LoopError).Error`. -/
def LoopError.Error (heap : LoopErrors) (e : Nat) : String :=
  (LoopError.value heap e).Error

/-- Embedding of `(*LoopError).Unwrap`. -/
def LoopError.Unwrap (heap : LoopErrors) (e : Nat) : GoError :=
  match heap.get? e with
  | some obj => obj.cause
  | none => .nil

/-- Embedding of `(*LoopError).Wrap`: `e.cause = err; return e`. -/
def LoopError.Wrap (heap : LoopErrors) (e : Nat) (err : GoError) : LoopErrors × Nat :=
  (heap.modify (fun obj => { obj with cause := err }) e, e)

/-- Embedding of `NewRemoteServiceError`. -/
def NewRemoteServiceError (heap : List RemoteServiceError) (httpCode errCode : Int)
    (errMsg logID : String) : List RemoteServiceError × Nat :=
  (heap ++ [{ HttpCode := httpCode, ErrCode := errCode, ErrMsg := errMsg, LogID := logID,
              cause := .nil }], heap.length)

/-- The error value that a `*RemoteServiceError` stands for at the moment. -/
def RemoteServiceError.value (heap : List RemoteServiceError) (e : Nat) : GoError :=
  match heap.get? e with
  | some obj => .remote obj.HttpCode obj.ErrCode obj.ErrMsg obj.LogID obj.cause
  | none => .nil

/-- Embedding of `(*RemoteServiceError).Wrap`. -/
def RemoteServiceError.Wrap (heap : List RemoteServiceError) (e : Nat) (err : GoError) :
    List RemoteServiceError × Nat :=
  (heap.modify (fun obj => { obj with cause := err }) e, e)

/-- Embedding of the three checks of `checkOptions` (client.go): the objects after the
call and the error returned (`none` for nil).  `httpClient` says whether the option is
non-nil. -/
def checkOptions (heap : LoopErrors) (apiBaseURL workspaceID : String) (httpClient : Bool) :
    LoopErrors × Option Nat :=
  if apiBaseURL = "" then
    let r := LoopError.Wrap heap ErrInvalidParam (.plain "apiBaseURL is required")
    (r.1, some r.2)
  else if workspaceID = "" then
    let r := LoopError.Wrap heap ErrInvalidParam (.plain "workspaceID is required")
    (r.1, some r.2)
  else if !httpClient then
    let r := LoopError.Wrap heap ErrInvalidParam (.plain "httpClient is required")
    (r.1, some r.2)
  else (heap, none)

/-! ## internal/httpclient/backoff.go, client.go -/

/-- The test `errors.As(err, &authError)`: some error of the chain is an `*AuthError`. -/
def asAuthError : GoError → Bool
  | .auth _ _ _ _ _ _ => true
  | .wrapped _ cause => asAuthError cause
  | .loop _ cause => asAuthError cause
  | .remote _ _ _ _ cause => asAuthError cause
  | _ => false

/-- The test `errors.As(err, &remoteServiceError)`: the `HttpCode` of the first
`*RemoteServiceError` of the chain, if there is one. -/
def asRemoteServiceError : GoError → Option Int
  | .remote HttpCode _ _ _ _ => some HttpCode
  | .wrapped _ cause => asRemoteServiceError cause
  | .loop _ cause => asRemoteServiceError cause
  | .auth _ _ _ _ _ cause => asRemoteServiceError cause
  | _ => none

/-- Embedding of `Backoff.Wait` as to its result: the context error when the context is
done before the delay has elapsed, nil otherwise.  The observation points of the
context are the waits: `doneAt = some k` means done during the wait of index `k` (or
before it). -/
def Backoff.Wait (ctx : Context) (currentRetryTimes : Nat) : GoError :=
  match (ctx.after currentRetryTimes).Err with
  | some e => .context e
  | none => .nil

/-- What a call of `Retry` did: the error returned, the number of calls of `f` and the
number of calls of `Wait`. -/
structure RetryResult where
  err : GoError
  calls : Nat
  waits : Nat
  deriving DecidableEq, Repr

/-- The loop `for i := 0; i < retryTimes; i++` of `Retry` with `n` iterations to go at
index `i`; `f i` is what the call of `f` in iteration `i` returns, `err` the variable
`err`. -/
def retryLoop (ctx : Context) (f : Nat → GoError) : Nat → Nat → GoError → RetryResult
  | 0, i, err => { err := err, calls := i, waits := i }
  | n + 1, i, _ =>
    let err := f i
    if err = .nil then { err := err, calls := i + 1, waits := i }
    else if asAuthError err then { err := err, calls := i + 1, waits := i }
    else if (match asRemoteServiceError err with
        | some HttpCode => decide (HttpCode < 500)
        | none => false) then { err := err, calls := i + 1, waits := i }
    else
      let waitErr := Backoff.Wait ctx i
      if waitErr ≠ .nil then { err := waitErr, calls := i + 1, waits := i + 1 }
      else retryLoop ctx f n (i + 1) err

/-- Embedding of `Backoff.Retry`. -/
def Backoff.Retry (ctx : Context) (f : Nat → GoError) (retryTimes : Int) : RetryResult :=
  retryLoop ctx f retryTimes.toNat 0 .nil

/-- Embedding of `Client.GetWithRetry`; `get i` is what the call of `c.Get` number `i`
returns. -/
def GetWithRetry (ctx : Context) (get : Nat → GoError) (retryTimes : Int) : GoError :=
  (Backoff.Retry ctx get retryTimes).err

/-- Embedding of `Client.PostWithRetry`. -/
def PostWithRetry (ctx : Context) (post : Nat → GoError) (retryTimes : Int) : GoError :=
  (Backoff.Retry ctx post retryTimes).err

/-- The results after which the claim on `Retry` lets it stop at once: nil, an
`AuthError`, a `RemoteServiceError` whose HTTP code is below 500. -/
def endsRetry (err : GoError) : Bool :=
  decide (err = .nil) || asAuthError err ||
    (match asRemoteServiceError err with
      | some HttpCode => decide (HttpCode < 500)
      | none => false)

/-! ## The object-storage summary as the specification words it -/

/-- The storage key that the specification lists for the tag `key`: the `TosKey` of the
long-text file tagged `key` among the non-nil files (of the last one, should there be
several), and the empty string, which the JSON leaves out, when there is none. -/
def specLongTextKey (key : String) (files : List (Option UploadFile)) : String :=
  ((((files.filterMap id).filter
      (fun f => f.UploadType = .UploadTypeLong ∧ f.TagKey = key)).getLast?).map
    (fun f => f.TosKey)).getD ""

/-- The attachment list of the specification: one entry (field, name, type, key) for
every multi-modality file, in list order. -/
def specAttachments (files : List (Option UploadFile)) : List Attachment :=
  ((files.filterMap id).filter (fun f => f.UploadType = .UploadTypeMultiModality)).map
    (fun f => { Field := f.TagKey, Name := f.Name, Type_ := f.FileType, TosKey := f.TosKey })

/-- The object of the specification for the files of one span. -/
def specObjectStorage (files : List (Option UploadFile)) : ObjectStorage :=
  { InputTosKey := specLongTextKey tracespecInput files,
    OutputTosKey := specLongTextKey tracespecOutput files,
    Attachments := specAttachments files }

/-! ## Sample inputs -/

/-- A span with the given id and byte size. -/
def sampleSpan (id : Nat) (bytesSize : Int) : Span :=
  { TraceID := "t", SpanID := toString id, isRootSpan := false, bytesSize := bytesSize }

/-- Options of a small manager: channel of 2, batches of 2 items or 100 bytes. -/
def smallOptions : batchQueueManagerOptions :=
  { queueName := queueNameSpan, maxQueueLength := 2, batchTimeout := 1,
    maxExportBatchLength := 2, maxExportBatchByteSize := 100, exportFunc := true,
    finishEventProcessor := true }

/-- Three spans enqueued while the loop receives them. -/
def smallRun : List Op :=
  [.enqueue (.span (sampleSpan 1 1)) 1, .enqueue (.span (sampleSpan 2 1)) 1, .recv,
   .enqueue (.span (sampleSpan 3 1)) 1, .recv, .timer, .recv]

/-- Options of a manager whose channel holds one item. -/
def overflowOptions : batchQueueManagerOptions :=
  { queueName := queueNameSpan, maxQueueLength := 1, batchTimeout := 1,
    maxExportBatchLength := 100, maxExportBatchByteSize := 100, exportFunc := true,
    finishEventProcessor := true }

/-- The same item handed to `Enqueue` `2 ^ 32 + 1` times. -/
def overflowCalls : List (Item × Int) := List.replicate (2 ^ 32 + 1) (Item.other 0, 0)

/-- Options of a manager that exports at 100 items or 10 bytes. -/
def byteOptions : batchQueueManagerOptions :=
  { queueName := queueNameSpan, maxQueueLength := 10, batchTimeout := 1,
    maxExportBatchLength := 100, maxExportBatchByteSize := 10, exportFunc := true,
    finishEventProcessor := false }

/-- A fresh manager in which two spans of 6 bytes each wait in the channel. -/
def twoWaiting : BatchQueueManager :=
  EnqueueAll (newBatchQueueManager byteOptions)
    [(.span (sampleSpan 1 6), 6), (.span (sampleSpan 2 6), 6)]

/-- A conversion for the samples: one upload record per span, and for every span one
file holding the span id, followed by a nil entry. -/
def sampleTransfer (spans : List Span) : List UploadSpan × List (Option UploadFile) :=
  (spans.map (fun s =>
      { StartedATMicros := 0, LogID := "", SpanID := s.SpanID, ParentID := "",
        TraceID := s.TraceID, DurationMicros := 0, ServiceName := "", WorkspaceID := "",
        SpanName := "", SpanType := "", StatusCode := 0, Input := "", Output := "",
        ObjectStorage := "" }),
    (spans.map (fun s => some
      { TosKey := s.SpanID, Data := s.SpanID, UploadType := UploadType.UploadTypeLong,
        TagKey := "input", Name := "", FileType := "text", SpaceID := "" })) ++ [none])

/-- An exporter whose calls all fail. -/
def failingExporter : Exporter :=
  { ExportSpans := fun _ => some "export spans fail",
    ExportFiles := fun _ => some "export files fail" }

/-- An exporter whose calls all succeed. -/
def succeedingExporter : Exporter :=
  { ExportSpans := fun _ => none, ExportFiles := fun _ => none }

/-- A file with the given key and content. -/
def sampleFile (key data : String) : UploadFile :=
  { TosKey := key, Data := data, UploadType := UploadType.UploadTypeMultiModality,
    TagKey := "output", Name := "", FileType := "image", SpaceID := "" }

/-- A full batch of the span queue in the default configuration: 100 spans. -/
def fullBatch : List Item :=
  (List.range 100).map (fun i => Item.span (sampleSpan i 1))

/-- The timer that never fires. -/
def noTimer : Nat → Bool := fun _ => false

/-- A fresh small manager in whose channel one span waits. -/
def oneWaiting : BatchQueueManager :=
  Enqueue (newBatchQueueManager smallOptions) (.span (sampleSpan 1 1)) 1

/-- A context that is cancelled right after the loop has acknowledged the sentinel of a
flush of `oneWaiting` (two receptions: the span, then the sentinel). -/
def cancelledInDrain : Context := { doneAt := some 3, err := .Canceled }

/-- A context that is already cancelled at the call. -/
def cancelledContext : Context := { doneAt := some 0, err := .Canceled }

/-- The environment of the sample processor: sample conversion, failing exporter. -/
def sampleEnv : ExportEnv :=
  { transferToUploadSpanAndFile := sampleTransfer, exporter := failingExporter, tsMs := 0 }

/-- The four queues in the order of the calls. -/
def queueOrder : List QueueId := [.span, .spanRetry, .file, .fileRetry]

/-- The shape of what `Shutdown` and `ForceFlush` of the processor report: the queues
called are the first ones of the fixed order, every call but the last returned nil, the
result is what the last call returned, and all four queues are called when the result
is nil. -/
def ProcessorResult.WellFormed (r : ProcessorResult) : Prop :=
  (∃ rest, r.called.map Prod.fst ++ rest = queueOrder) ∧
    (∀ c ∈ r.called.dropLast, c.2 = none) ∧
    r.called.getLast?.map Prod.snd = some r.err ∧
    (r.err = none → r.called.map Prod.fst = queueOrder)

/-- A span whose oversized content is to be reported. -/
def reportingSpan : Span :=
  { TraceID := "t1", SpanID := "s1", isRootSpan := true, bytesSize := 10, SpaceID := "w1",
    ultraLargeReport := true }

/-- A text of `n` letters. -/
def textOfLength (n : Nat) : String := String.mk (List.replicate n 'a')

/-- An image given inline as base64 text ("hello"). -/
def inlineImage : ModelImageURL := { Name := "cat.png", URL := "aGVsbG8=", Detail := "" }

/-- A file given inline as base64 text ("hello"). -/
def inlineFile : ModelFileURL :=
  { Name := "notes.txt", URL := "aGVsbG8=", Detail := "", Suffix := "txt" }

/-- An image given by an external URL. -/
def linkedImage : ModelImageURL :=
  { Name := "dog.png", URL := "https://example.com/dog.png", Detail := "" }

/-- A multi-modal input with one message holding a text part and an inline image. -/
def sampleModelInput : ModelInput :=
  { Messages :=
      [some { Role := "user"
              Content := ""
              Parts :=
                [some { Type_ := ModelMessagePartTypeText, Text := "look", ImageURL := none,
                        FileURL := none },
                 some { Type_ := ModelMessagePartTypeImage, Text := "",
                        ImageURL := some inlineImage, FileURL := none }] }] }

/-- The storage key of the sample image for the tag `output` and the generated number
255. -/
def sampleImageKey : String :=
  "t1" ++ "_" ++ "s1" ++ "_" ++ "output" ++ "_" ++ "image" ++ "_" ++ Gen16CharID 255

/-- The JSON text of `sampleModelInput`. -/
def sampleInputJSON : String :=
  "\x7b\"messages\":[\x7b\"role\":\"user\",\"parts\":[\x7b\"type\":\"text\",\"text\":\"look\"\x7d,\x7b\"type\":\"image_url\",\"image_url\":\x7b\"name\":\"cat.png\",\"url\":\"aGVsbG8=\"\x7d\x7d]\x7d]\x7d"

/-- A JSON text whose list of messages holds `null`. -/
def nilMessageJSON : String := "\x7b\"messages\":[null]\x7d"

/-- The URL of a part after the conversion, for the sample rendering below. -/
def partURL : Option ModelMessagePart → String
  | none => "null"
  | some part =>
    match part.ImageURL, part.FileURL with
    | some img, _ => img.URL
    | none, some file => file.URL
    | none, none => part.Text

/-- Stand-ins for the library on the samples: one external URL, one base64 text, one
JSON text; what is marshalled is rendered as the list of the part URLs. -/
def sampleConvertEnv : ConvertEnv :=
  { parseRequestURI := fun u =>
      if u = "https://example.com/dog.png" then
        some { Scheme := "https", Host := "example.com" }
      else none
    base64Decode := fun text =>
      if text = "aGVsbG8=" then ("hello", none) else ("", some "illegal base64 data")
    unmarshalModelInput := fun text =>
      if text = sampleInputJSON then .ok sampleModelInput
      else if text = nilMessageJSON then .ok { Messages := [none] }
      else .error "invalid character"
    marshalModelInput := fun m =>
      .ok (String.intercalate ";" (m.Messages.map (fun msg =>
        match msg with
        | none => "null"
        | some message => String.intercalate "," (message.Parts.map partURL))))
    unmarshalModelOutput := fun _ => .error "invalid character"
    marshalModelOutput := fun _ => .ok "choices"
    marshalObjectStorage := fun o =>
      .ok (o.InputTosKey ++ "|" ++ o.OutputTosKey ++ "|" ++ toString o.Attachments.length)
    GenId := fun idx _ i j => idx * 100 + i * 10 + j
    inputFirst := fun _ => true }

/-- A span whose oversized content is not to be reported, with the multi-modal input
`sampleInputJSON`. -/
def quietSpan : Span :=
  { TraceID := "t2", SpanID := "s2", isRootSpan := true, bytesSize := 10, SpaceID := "w1",
    ultraLargeReport := false,
    TagMap := [("input", .string sampleInputJSON)],
    multiModalityKeyMap := ["input"] }

/-- A span whose multi-modal input is not JSON: its conversion fails. -/
def brokenSpan : Span :=
  { TraceID := "t3", SpanID := "s3", isRootSpan := false, bytesSize := 5,
    TagMap := [("input", .string "not json")],
    multiModalityKeyMap := ["input"] }

/-- A span whose multi-modal input holds a nil message: its conversion panics. -/
def nilMessageSpan : Span :=
  { TraceID := "t6", SpanID := "s6", isRootSpan := false, bytesSize := 5,
    TagMap := [("input", .string nilMessageJSON)],
    multiModalityKeyMap := ["input"] }

/-- A batch of three spans, the second of which cannot be converted. -/
def mixedBatch : List Item :=
  [.span quietSpan, .span brokenSpan, .span (sampleSpan 4 1)]

/-- The files of one span: a long input text, an image of the output, a nil entry, a
long output text and a file of the input. -/
def sampleSpanFiles : List (Option UploadFile) :=
  [some { TosKey := "t1_s1_input_text_large_text", Data := "in", UploadType := .UploadTypeLong,
          TagKey := "input", Name := "", FileType := "text", SpaceID := "w1" },
   some (sampleFile "k1" "img"),
   none,
   some { TosKey := "t1_s1_output_text_large_text", Data := "out",
          UploadType := .UploadTypeLong, TagKey := "output", Name := "", FileType := "text",
          SpaceID := "w1" },
   some { TosKey := "k2", Data := "doc", UploadType := .UploadTypeMultiModality,
          TagKey := "input", Name := "notes.txt", FileType := "file", SpaceID := "w1" }]

/-- A request that always fails with a server error. -/
def serverError : Nat → GoError :=
  fun _ => .loop "remote service error" (.remote 500 1 "busy" "log1" .nil)

/-- A request that fails once with a server error, then succeeds. -/
def succeedsSecond : Nat → GoError :=
  fun i => if i = 0 then .loop "remote service error" (.remote 502 1 "busy" "log1" .nil)
    else .nil

/-- A tag map with a value of every kind, and an input. -/
def sampleTags : List (String × TagValue) :=
  [("model", .string "gpt"), ("input", .string "hello"), ("tokens", .int 42),
   ("temperature", .float "0.5"), ("stream", .bool true), ("extra", .other "[1 2]")]

/-- The text of a sample value of another type. -/
def sampleFormat : TagValue → String := TagValue.sprint

/-- A span with a short plain-text output. -/
def plainOutputSpan : Span :=
  { TraceID := "t5", SpanID := "s5", isRootSpan := false, bytesSize := 5,
    ultraLargeReport := true,
    TagMap := [("output", .string "hello")] }

/-- A context with a deadline at time 1. -/
def shortDeadline : Context := { doneAt := some 1, err := .DeadlineExceeded }

/-- The first call enters the teardown, the second arrives, time passes; the loop is
still draining. -/
def secondCallWaits : List ShutdownEvent :=
  [.move false false, .move true false, .tick, .tick]

/-! ## Basic facts about `doExport` and the loop steps -/

theorem doExport_o (b : BatchQueueManager) : (doExport b).o = b.o := by
  unfold doExport; split <;> [split; skip] <;> rfl

theorem doExport_queue (b : BatchQueueManager) : (doExport b).queue = b.queue := by
  unfold doExport; split <;> [split; skip] <;> rfl

theorem doExport_stopped (b : BatchQueueManager) : (doExport b).stopped = b.stopped := by
  unfold doExport; split <;> [split; skip] <;> rfl

theorem doExport_stopOnce (b : BatchQueueManager) : (doExport b).stopOnce = b.stopOnce := by
  unfold doExport; split <;> [split; skip] <;> rfl

theorem doExport_batch (b : BatchQueueManager) : (doExport b).batch = [] := by
  unfold doExport
  split
  · rfl
  · rename_i h
    simpa using h

theorem doExport_content (b : BatchQueueManager) (h : b.o.exportFunc = true) :
    content (doExport b) = content b := by
  unfold doExport
  split
  · simp [h, content]
  · rfl

theorem processQueueRecv_o (b : BatchQueueManager) : (processQueueRecv b).o = b.o := by
  unfold processQueueRecv
  split
  · rfl
  · split
    · rfl
    · simp only []
      split
      · rw [doExport_o]
      · rfl

theorem processQueueRecv_content (b : BatchQueueManager) (h : b.o.exportFunc = true) :
    content (processQueueRecv b) = content b := by
  unfold processQueueRecv
  split
  · rfl
  · rename_i sd rest hq
    split
    · simp [content, hq, Item.isReal]
    · rename_i hsd
      have hreal : sd.isReal = true := by
        cases sd <;> simp [Item.isReal] at hsd ⊢
      simp only []
      split
      · rw [doExport_content _ (by simpa using h)]
        simp [content, hq, hreal]
      · simp [content, hq, hreal]

theorem processQueueRecv_stopped (b : BatchQueueManager) :
    (processQueueRecv b).stopped = b.stopped := by
  unfold processQueueRecv
  split
  · rfl
  · split
    · rfl
    · simp only []
      split
      · rw [doExport_stopped]
      · rfl

theorem processQueueRecv_stopOnce (b : BatchQueueManager) :
    (processQueueRecv b).stopOnce = b.stopOnce := by
  unfold processQueueRecv
  split
  · rfl
  · split
    · rfl
    · simp only []
      split
      · rw [doExport_stopOnce]
      · rfl

theorem processQueueSteps_o (timer : Nat → Bool) (n : Nat) (b : BatchQueueManager) :
    (processQueueSteps timer n b).o = b.o := by
  induction n generalizing b with
  | zero => rfl
  | succ n ih =>
    simp only [processQueueSteps]
    rw [ih, processQueueRecv_o]
    split
    · exact doExport_o b
    · rfl

theorem processQueueSteps_stopped (timer : Nat → Bool) (n : Nat) (b : BatchQueueManager) :
    (processQueueSteps timer n b).stopped = b.stopped := by
  induction n generalizing b with
  | zero => rfl
  | succ n ih =>
    simp only [processQueueSteps]
    rw [ih, processQueueRecv_stopped]
    split
    · exact doExport_stopped b
    · rfl

theorem processQueueSteps_stopOnce (timer : Nat → Bool) (n : Nat) (b : BatchQueueManager) :
    (processQueueSteps timer n b).stopOnce = b.stopOnce := by
  induction n generalizing b with
  | zero => rfl
  | succ n ih =>
    simp only [processQueueSteps]
    rw [ih, processQueueRecv_stopOnce]
    split
    · exact doExport_stopOnce b
    · rfl

theorem processQueueSteps_content (timer : Nat → Bool) (n : Nat) (b : BatchQueueManager)
    (h : b.o.exportFunc = true) :
    content (processQueueSteps timer n b) = content b := by
  induction n generalizing b with
  | zero => rfl
  | succ n ih =>
    simp only [processQueueSteps]
    by_cases ht : timer n = true
    · simp only [ht, if_true, processQueueTimer]
      rw [ih _ (by rw [processQueueRecv_o, doExport_o]; exact h),
        processQueueRecv_content _ (by rw [doExport_o]; exact h), doExport_content _ h]
    · simp only [ht]
      rw [ih _ (by rw [processQueueRecv_o]; exact h)]
      exact processQueueRecv_content _ h

theorem drainQueueLoop_o (fuel : Nat) (ctx : Context) (b : BatchQueueManager) :
    (drainQueueLoop fuel ctx b).o = b.o := by
  induction fuel generalizing ctx b with
  | zero => rfl
  | succ fuel ih =>
    simp only [drainQueueLoop]
    split
    · rfl
    · split
      · exact doExport_o b
      · split
        · rw [ih]
        · rw [ih]
          split
          · rw [doExport_o]
          · rfl

theorem drainQueueLoop_stopped (fuel : Nat) (ctx : Context) (b : BatchQueueManager) :
    (drainQueueLoop fuel ctx b).stopped = b.stopped := by
  induction fuel generalizing ctx b with
  | zero => rfl
  | succ fuel ih =>
    simp only [drainQueueLoop]
    split
    · rfl
    · split
      · exact doExport_stopped b
      · split
        · rw [ih]
        · rw [ih]
          split
          · rw [doExport_stopped]
          · rfl

theorem drainQueueLoop_stopOnce (fuel : Nat) (ctx : Context) (b : BatchQueueManager) :
    (drainQueueLoop fuel ctx b).stopOnce = b.stopOnce := by
  induction fuel generalizing ctx b with
  | zero => rfl
  | succ fuel ih =>
    simp only [drainQueueLoop]
    split
    · rfl
    · split
      · exact doExport_stopOnce b
      · split
        · rw [ih]
        · rw [ih]
          split
          · rw [doExport_stopOnce]
          · rfl

theorem drainQueueLoop_content (fuel : Nat) (ctx : Context) (b : BatchQueueManager)
    (h : b.o.exportFunc = true) :
    content (drainQueueLoop fuel ctx b) = content b := by
  induction fuel generalizing ctx b with
  | zero => rfl
  | succ fuel ih =>
    simp only [drainQueueLoop]
    split
    · rfl
    · split
      · exact doExport_content b h
      · rename_i sd rest hq
        split
        · rw [ih _ _ (by simpa using h)]
          simp [content, hq, Item.isReal]
        · rename_i hsd
          have hreal : sd.isReal = true := by
            cases sd <;> simp [Item.isReal] at hsd ⊢
          split
          · rw [ih _ _ (by rw [doExport_o]; simpa using h),
              doExport_content _ (by simpa using h)]
            simp [content, hq, hreal]
          · rw [ih _ _ (by simpa using h)]
            simp [content, hq, hreal]

/-- A drain whose context is never done empties the channel and the batch. -/
theorem drainQueueLoop_empty (fuel : Nat) (ctx : Context) (b : BatchQueueManager)
    (hctx : ctx.doneAt = none) (hfuel : b.queue.length < fuel) :
    (drainQueueLoop fuel ctx b).queue = [] ∧ (drainQueueLoop fuel ctx b).batch = [] := by
  induction fuel generalizing ctx b with
  | zero => omega
  | succ fuel ih =>
    have hafter : (ctx.after 1).doneAt = none := by simp [Context.after, hctx]
    simp only [drainQueueLoop, hctx]
    split
    · rename_i hc
      simp at hc
    · split
      · rename_i hq
        exact ⟨by rw [doExport_queue, hq], doExport_batch b⟩
      · rename_i sd rest hq
        have hlen : rest.length < fuel := by
          rw [hq] at hfuel
          simp at hfuel
          omega
        split
        · exact ih _ _ hafter (by simpa using hlen)
        · split
          · exact ih _ _ hafter (by rw [doExport_queue]; simpa using hlen)
          · exact ih _ _ hafter (by simpa using hlen)

/-! ## `Enqueue`, `ForceFlush`, `Shutdown` -/

theorem Enqueue_of_stopped (b : BatchQueueManager) (sd : Item) (n : Int)
    (h : b.stopped = true) : Enqueue b sd n = b := by
  simp [Enqueue, h]

theorem Enqueue_o (b : BatchQueueManager) (sd : Item) (n : Int) :
    (Enqueue b sd n).o = b.o := by
  unfold Enqueue
  split
  · rfl
  · simp only []
    split <;> split <;> rfl

theorem Enqueue_stopped (b : BatchQueueManager) (sd : Item) (n : Int) :
    (Enqueue b sd n).stopped = b.stopped := by
  unfold Enqueue
  split
  · rfl
  · simp only []
    split <;> split <;> rfl

theorem Enqueue_stopOnce (b : BatchQueueManager) (sd : Item) (n : Int) :
    (Enqueue b sd n).stopOnce = b.stopOnce := by
  unfold Enqueue
  split
  · rfl
  · simp only []
    split <;> split <;> rfl

theorem Enqueue_exported (b : BatchQueueManager) (sd : Item) (n : Int) :
    (Enqueue b sd n).exported = b.exported := by
  unfold Enqueue
  split
  · rfl
  · simp only []
    split <;> split <;> rfl

theorem Enqueue_batch (b : BatchQueueManager) (sd : Item) (n : Int) :
    (Enqueue b sd n).batch = b.batch := by
  unfold Enqueue
  split
  · rfl
  · simp only []
    split <;> split <;> rfl

/-- An `Enqueue` on a running manager whose channel has room appends the item. -/
theorem Enqueue_queue_of_room (b : BatchQueueManager) (sd : Item) (n : Int)
    (hrun : b.stopped = false) (hroom : b.queue.length < b.o.maxQueueLength) :
    (Enqueue b sd n).queue = b.queue ++ [sd] := by
  unfold Enqueue
  simp only [hrun, hroom, decide_True]
  by_cases hf : b.o.finishEventProcessor = true <;> simp [hf]

/-- An `Enqueue` on a full channel leaves the channel as it is. -/
theorem Enqueue_queue_of_full (b : BatchQueueManager) (sd : Item) (n : Int)
    (hfull : ¬ b.queue.length < b.o.maxQueueLength) :
    (Enqueue b sd n).queue = b.queue := by
  unfold Enqueue
  split
  · rfl
  · simp only [hfull, decide_False]
    by_cases hf : b.o.finishEventProcessor = true <;> simp [hf]

theorem Enqueue_content_of_room (b : BatchQueueManager) (sd : Item) (n : Int)
    (hrun : b.stopped = false) (hroom : b.queue.length < b.o.maxQueueLength) :
    content (Enqueue b sd n) = content b ++ (if sd.isReal then [sd] else []) := by
  simp only [content, Enqueue_exported, Enqueue_batch,
    Enqueue_queue_of_room b sd n hrun hroom, List.filter_append, List.append_assoc]
  by_cases hr : sd.isReal = true <;> simp [hr]

theorem enqueueBlockOnQueueFull_o (timer : Nat → Bool) (b : BatchQueueManager) (sd : Item) :
    (enqueueBlockOnQueueFull timer b sd).o = b.o := by
  unfold enqueueBlockOnQueueFull
  split
  · rfl
  · simp [processQueueSteps_o]

theorem enqueueBlockOnQueueFull_stopped (timer : Nat → Bool) (b : BatchQueueManager)
    (sd : Item) : (enqueueBlockOnQueueFull timer b sd).stopped = b.stopped := by
  unfold enqueueBlockOnQueueFull
  split
  · rfl
  · simp [processQueueSteps_stopped]

theorem enqueueBlockOnQueueFull_stopOnce (timer : Nat → Bool) (b : BatchQueueManager)
    (sd : Item) : (enqueueBlockOnQueueFull timer b sd).stopOnce = b.stopOnce := by
  unfold enqueueBlockOnQueueFull
  split
  · rfl
  · simp [processQueueSteps_stopOnce]

/-- Sending the sentinel adds nothing to the content of the manager. -/
theorem enqueueBlockOnQueueFull_content (timer : Nat → Bool) (b : BatchQueueManager)
    (h : b.o.exportFunc = true) :
    content (enqueueBlockOnQueueFull timer b .forceFlushSpan) = content b := by
  unfold enqueueBlockOnQueueFull
  split
  · rfl
  · have hc := processQueueSteps_content timer
      (b.queue.length + 1 - b.o.maxQueueLength) b h
    simp only [content] at hc ⊢
    simp only [List.filter_append]
    simpa [Item.isReal] using hc

theorem ForceFlush_o (ctx : Context) (timer : Nat → Bool) (b : BatchQueueManager) :
    (ForceFlush ctx timer b).1.o = b.o := by
  unfold ForceFlush
  split
  · rfl
  · split
    · rfl
    · simp only []
      split
      · split
        · simp [processQueueSteps_o, enqueueBlockOnQueueFull_o]
        · simp [drainQueue, drainQueueLoop_o, processQueueSteps_o, enqueueBlockOnQueueFull_o]
      · simp [drainQueue, drainQueueLoop_o, processQueueSteps_o, enqueueBlockOnQueueFull_o]

theorem ForceFlush_stopped (ctx : Context) (timer : Nat → Bool) (b : BatchQueueManager) :
    (ForceFlush ctx timer b).1.stopped = b.stopped := by
  unfold ForceFlush
  split
  · rfl
  · split
    · rfl
    · simp only []
      split
      · split
        · simp [processQueueSteps_stopped, enqueueBlockOnQueueFull_stopped]
        · simp [drainQueue, drainQueueLoop_stopped, processQueueSteps_stopped,
            enqueueBlockOnQueueFull_stopped]
      · simp [drainQueue, drainQueueLoop_stopped, processQueueSteps_stopped,
          enqueueBlockOnQueueFull_stopped]

theorem ForceFlush_stopOnce (ctx : Context) (timer : Nat → Bool) (b : BatchQueueManager) :
    (ForceFlush ctx timer b).1.stopOnce = b.stopOnce := by
  unfold ForceFlush
  split
  · rfl
  · split
    · rfl
    · simp only []
      split
      · split
        · simp [processQueueSteps_stopOnce, enqueueBlockOnQueueFull_stopOnce]
        · simp [drainQueue, drainQueueLoop_stopOnce, processQueueSteps_stopOnce,
            enqueueBlockOnQueueFull_stopOnce]
      · simp [drainQueue, drainQueueLoop_stopOnce, processQueueSteps_stopOnce,
          enqueueBlockOnQueueFull_stopOnce]

theorem ForceFlush_content (ctx : Context) (timer : Nat → Bool) (b : BatchQueueManager)
    (h : b.o.exportFunc = true) :
    content (ForceFlush ctx timer b).1 = content b := by
  have h1 : (enqueueBlockOnQueueFull (fun k => timer (k + (b.queue.length + 1))) b .forceFlushSpan).o.exportFunc = true := by
    rw [enqueueBlockOnQueueFull_o]; exact h
  have h2 : ∀ n, (processQueueSteps timer n
      (enqueueBlockOnQueueFull (fun k => timer (k + (b.queue.length + 1))) b .forceFlushSpan)).o.exportFunc = true := by
    intro n; rw [processQueueSteps_o]; exact h1
  unfold ForceFlush
  split
  · rfl
  · split
    · rfl
    · simp only []
      split
      · split
        · rw [processQueueSteps_content _ _ _ h1, enqueueBlockOnQueueFull_content _ _ h]
        · simp only [drainQueue]
          rw [drainQueueLoop_content _ _ _ (h2 _), processQueueSteps_content _ _ _ h1,
            enqueueBlockOnQueueFull_content _ _ h]
      · simp only [drainQueue]
        rw [drainQueueLoop_content _ _ _ (h2 _), processQueueSteps_content _ _ _ h1,
          enqueueBlockOnQueueFull_content _ _ h]

theorem Shutdown_o (ctx : Context) (b : BatchQueueManager) : (Shutdown ctx b).1.o = b.o := by
  unfold Shutdown
  split
  · rfl
  · simp only []
    split <;> [split; skip] <;> simp [drainQueue, drainQueueLoop_o]

/-- Once `Shutdown` has been called the manager is marked stopped, provided the two
flags agreed before (they are only ever set together). -/
theorem Shutdown_stopped (ctx : Context) (b : BatchQueueManager)
    (h : b.stopOnce = true → b.stopped = true) : (Shutdown ctx b).1.stopped = true := by
  unfold Shutdown
  split
  · rename_i hs
    exact h hs
  · simp only []
    split <;> [split; skip] <;> simp [drainQueue, drainQueueLoop_stopped]

theorem Shutdown_stopOnce (ctx : Context) (b : BatchQueueManager) :
    (Shutdown ctx b).1.stopOnce = true := by
  unfold Shutdown
  split
  · rename_i hs
    exact hs
  · simp only []
    split <;> [split; skip] <;> simp [drainQueue, drainQueueLoop_stopOnce]

/-! ## Conservation of the items along a run -/

theorem step_o (b : BatchQueueManager) (op : Op) : (step b op).o = b.o := by
  cases op with
  | enqueue sd n => exact Enqueue_o b sd n
  | recv => simp only [step]; split <;> [rfl; exact processQueueRecv_o b]
  | timer => simp only [step, processQueueTimer]; split <;> [rfl; exact doExport_o b]
  | forceFlush ctx timer => exact ForceFlush_o ctx timer b
  | shutdown ctx => exact Shutdown_o ctx b

theorem step_running (b : BatchQueueManager) (op : Op) (hop : op.isShutdown = false)
    (hrun : b.stopped = false ∧ b.stopOnce = false) :
    (step b op).stopped = false ∧ (step b op).stopOnce = false := by
  cases op with
  | enqueue sd n => exact ⟨by rw [step, Enqueue_stopped]; exact hrun.1,
      by rw [step, Enqueue_stopOnce]; exact hrun.2⟩
  | recv =>
    simp only [step, hrun.2, Bool.false_eq_true, if_false]
    exact ⟨(processQueueRecv_stopped b).trans hrun.1,
      (processQueueRecv_stopOnce b).trans hrun.2⟩
  | timer =>
    simp only [step, hrun.2, processQueueTimer, Bool.false_eq_true, if_false]
    exact ⟨(doExport_stopped b).trans hrun.1, (doExport_stopOnce b).trans hrun.2⟩
  | forceFlush ctx timer =>
    exact ⟨by rw [step, ForceFlush_stopped]; exact hrun.1,
      by rw [step, ForceFlush_stopOnce]; exact hrun.2⟩
  | shutdown ctx => simp [Op.isShutdown] at hop

theorem run_content (ops : List Op) (b : BatchQueueManager)
    (hexp : b.o.exportFunc = true) (hrun : b.stopped = false ∧ b.stopOnce = false)
    (hns : ∀ op ∈ ops, op.isShutdown = false) (hfit : fits b ops = true) :
    content (run b ops) = content b ++ enqueuedItems ops ∧
      (run b ops).o = b.o ∧ (run b ops).stopped = false ∧ (run b ops).stopOnce = false := by
  induction ops generalizing b with
  | nil => simp [run, enqueuedItems, hrun.1, hrun.2]
  | cons op ops ih =>
    have hop : op.isShutdown = false := hns op (List.mem_cons_self _ _)
    have hns2 : ∀ op2 ∈ ops, op2.isShutdown = false :=
      fun op2 h2 => hns op2 (List.mem_cons_of_mem _ h2)
    simp only [fits, Bool.and_eq_true] at hfit
    have hstep := ih (step b op) (by rw [step_o]; exact hexp)
      (step_running b op hop hrun) hns2 hfit.2
    have hrunEq : run b (op :: ops) = run (step b op) ops := rfl
    rw [hrunEq]
    refine ⟨?_, by rw [hstep.2.1, step_o], hstep.2.2.1, hstep.2.2.2⟩
    rw [hstep.1]
    cases op with
    | enqueue sd n =>
      have hroom : b.queue.length < b.o.maxQueueLength := by simpa using hfit.1
      simp only [step, enqueuedItems]
      rw [Enqueue_content_of_room b sd n hrun.1 hroom]
      by_cases hr : sd.isReal = true <;> simp [hr]
    | recv => simp [step, hrun.2, enqueuedItems, processQueueRecv_content b hexp]
    | timer =>
      simp [step, hrun.2, enqueuedItems, processQueueTimer, doExport_content b hexp]
    | forceFlush ctx timer =>
      simp [step, enqueuedItems, ForceFlush_content ctx timer b hexp]
    | shutdown ctx => simp [Op.isShutdown] at hop

/-- The first `Shutdown` of a manager, whatever the caller's context, leaves the channel
and the batch empty and exports what they held. -/
theorem Shutdown_first (ctx : Context) (b : BatchQueueManager)
    (hexp : b.o.exportFunc = true) (hfirst : b.stopOnce = false) :
    (Shutdown ctx b).1.queue = [] ∧ (Shutdown ctx b).1.batch = [] ∧
      (Shutdown ctx b).1.exported.flatten = content b := by
  have hstate : (Shutdown ctx b).1 =
      drainQueue Context.background { b with stopOnce := true, stopped := true } := by
    unfold Shutdown
    simp only [hfirst, Bool.false_eq_true, if_false]
    cases ctx.doneAt with
    | none => rfl
    | some k => simp only []; split <;> rfl
  have hempty := drainQueueLoop_empty (b.queue.length + 1) Context.background
    { b with stopOnce := true, stopped := true } rfl (by simp)
  have hcont := drainQueueLoop_content (b.queue.length + 1) Context.background
    { b with stopOnce := true, stopped := true } (by simpa using hexp)
  rw [hstate]
  refine ⟨hempty.1, hempty.2, ?_⟩
  have hc : content (drainQueue Context.background
      { b with stopOnce := true, stopped := true }) = content b := hcont
  have hq : (drainQueue Context.background
      { b with stopOnce := true, stopped := true }).queue = [] := hempty.1
  have hb : (drainQueue Context.background
      { b with stopOnce := true, stopped := true }).batch = [] := hempty.2
  rw [← hc]
  simp [content, hq, hb]

/-- Claim C1: in the sequential model (a fresh manager with an export function, any
interleaving of `Enqueue` calls that find room, loop receptions, timer ticks and
flushes, then `Shutdown` whose drain runs to the end), the concatenation of the
exported batches is exactly the sequence of enqueued items, and nothing is left in the
channel or in the batch. -/
theorem exported_batches_are_the_enqueued_items (o : batchQueueManagerOptions)
    (ops : List Op) (ctx : Context) (hexp : o.exportFunc = true)
    (hns : ∀ op ∈ ops, op.isShutdown = false)
    (hfit : fits (newBatchQueueManager o) ops = true) :
    (Shutdown ctx (run (newBatchQueueManager o) ops)).1.exported.flatten
        = enqueuedItems ops ∧
      (Shutdown ctx (run (newBatchQueueManager o) ops)).1.queue = [] ∧
      (Shutdown ctx (run (newBatchQueueManager o) ops)).1.batch = [] := by
  have hr := run_content ops (newBatchQueueManager o) hexp ⟨rfl, rfl⟩ hns hfit
  have hs := Shutdown_first ctx (run (newBatchQueueManager o) ops)
    (by rw [hr.2.1]; exact hexp) hr.2.2.2
  refine ⟨?_, hs.1, hs.2.1⟩
  rw [hs.2.2, hr.1]
  simp [content, newBatchQueueManager]

theorem exported_batches_are_the_enqueued_items_witness :
    smallOptions.exportFunc = true ∧
      (∀ op ∈ smallRun, op.isShutdown = false) ∧
      fits (newBatchQueueManager smallOptions) smallRun = true ∧
      ((Shutdown Context.background (run (newBatchQueueManager smallOptions) smallRun)).1.exported.flatten
          = enqueuedItems smallRun ∧
        (Shutdown Context.background (run (newBatchQueueManager smallOptions) smallRun)).1.queue = [] ∧
        (Shutdown Context.background (run (newBatchQueueManager smallOptions) smallRun)).1.batch = []) :=
  ⟨rfl, by decide, by decide,
    exported_batches_are_the_enqueued_items smallOptions smallRun Context.background rfl
      (by decide) (by decide)⟩

/-! ## Sequences of `Enqueue` calls -/

theorem Enqueue_of_room (b : BatchQueueManager) (sd : Item) (n : Int)
    (hrun : b.stopped = false) (hroom : b.queue.length < b.o.maxQueueLength) :
    (Enqueue b sd n).dropped = b.dropped ∧
      (Enqueue b sd n).batchByteSize = wrapInt64 (b.batchByteSize + n) := by
  unfold Enqueue
  simp only [hrun, hroom, decide_True]
  by_cases hf : b.o.finishEventProcessor = true <;> simp [hf]

/-- An `Enqueue` on a running manager whose channel is full: only the dropped counter
and the finish events change. -/
theorem Enqueue_of_full (b : BatchQueueManager) (sd : Item) (n : Int)
    (hrun : b.stopped = false) (hfull : ¬ b.queue.length < b.o.maxQueueLength) :
    (Enqueue b sd n).dropped = (b.dropped + 1) % 2 ^ 32 ∧
      (Enqueue b sd n).batchByteSize = b.batchByteSize ∧
      (Enqueue b sd n).events = b.events ++
        (if b.o.finishEventProcessor then
          [{ EventType := (enqueueEventKind b.o.queueName sd).1, IsEventFail := true,
             ItemNum := 1, DetailMsg := b.o.queueName ++ " queue is full, dropped item",
             ExtraParams := (enqueueEventKind b.o.queueName sd).2 }]
        else []) := by
  unfold Enqueue
  simp only [hrun, hfull, decide_False]
  by_cases hf : b.o.finishEventProcessor = true <;> simp [hf]

theorem EnqueueAll_append (b : BatchQueueManager) (l1 l2 : List (Item × Int)) :
    EnqueueAll b (l1 ++ l2) = EnqueueAll (EnqueueAll b l1) l2 := by
  simp [EnqueueAll, List.foldl_append]

theorem EnqueueAll_frame (calls : List (Item × Int)) (b : BatchQueueManager) :
    (EnqueueAll b calls).o = b.o ∧ (EnqueueAll b calls).stopped = b.stopped ∧
      (EnqueueAll b calls).batch = b.batch ∧ (EnqueueAll b calls).exported = b.exported := by
  induction calls generalizing b with
  | nil => simp [EnqueueAll]
  | cons c calls ih =>
    have h := ih (Enqueue b c.1 c.2)
    simp only [EnqueueAll, List.foldl_cons] at h ⊢
    rw [h.1, h.2.1, h.2.2.1, h.2.2.2]
    exact ⟨Enqueue_o _ _ _, Enqueue_stopped _ _ _, Enqueue_batch _ _ _, Enqueue_exported _ _ _⟩

/-- As long as the channel has room, every call is accepted: the items join the channel
in call order, nothing is dropped, and the byte counter grows by each size in turn. -/
theorem EnqueueAll_of_room (calls : List (Item × Int)) (b : BatchQueueManager)
    (hrun : b.stopped = false)
    (hroom : b.queue.length + calls.length ≤ b.o.maxQueueLength) :
    (EnqueueAll b calls).queue = b.queue ++ calls.map Prod.fst ∧
      (EnqueueAll b calls).dropped = b.dropped ∧
      (EnqueueAll b calls).batchByteSize =
        calls.foldl (fun acc c => wrapInt64 (acc + c.2)) b.batchByteSize := by
  induction calls generalizing b with
  | nil => simp [EnqueueAll]
  | cons c calls ih =>
    simp only [List.length_cons] at hroom
    have hlt : b.queue.length < b.o.maxQueueLength := by omega
    have hq := Enqueue_queue_of_room b c.1 c.2 hrun hlt
    have hd := Enqueue_of_room b c.1 c.2 hrun hlt
    have h := ih (Enqueue b c.1 c.2) (by rw [Enqueue_stopped]; exact hrun)
      (by rw [hq, Enqueue_o]; simp; omega)
    simp only [EnqueueAll, List.foldl_cons] at h ⊢
    rw [h.1, h.2.1, h.2.2, hq, hd.1, hd.2]
    simp

/-- On a full channel every call is dropped: the channel and the byte counter stay as
they are, the `uint32` counter of dropped items advances modulo `2 ^ 32`, and each call
reports one failure event for one item. -/
theorem EnqueueAll_of_full (calls : List (Item × Int)) (b : BatchQueueManager)
    (hrun : b.stopped = false) (hfull : ¬ b.queue.length < b.o.maxQueueLength) :
    (EnqueueAll b calls).queue = b.queue ∧
      (EnqueueAll b calls).batchByteSize = b.batchByteSize ∧
      (calls ≠ [] → (EnqueueAll b calls).dropped = (b.dropped + calls.length) % 2 ^ 32) ∧
      (b.o.finishEventProcessor = true →
        ∃ evs : List FinishEventInfo, (EnqueueAll b calls).events = b.events ++ evs ∧
          evs.length = calls.length ∧
          ∀ e ∈ evs, e.IsEventFail = true ∧ e.ItemNum = 1) := by
  induction calls generalizing b with
  | nil =>
    refine ⟨rfl, rfl, fun h => absurd rfl h, fun _ => ⟨[], ?_, rfl, ?_⟩⟩
    · simp [EnqueueAll]
    · simp
  | cons c calls ih =>
    have hq := Enqueue_queue_of_full b c.1 c.2 hfull
    have hd := Enqueue_of_full b c.1 c.2 hrun hfull
    have h := ih (Enqueue b c.1 c.2) (by rw [Enqueue_stopped]; exact hrun)
      (by rw [hq, Enqueue_o]; exact hfull)
    simp only [EnqueueAll, List.foldl_cons] at h ⊢
    refine ⟨by rw [h.1, hq], by rw [h.2.1, hd.2.1], fun _ => ?_, fun hf => ?_⟩
    · by_cases hnil : calls = []
      · subst hnil
        simpa using hd.1
      · rw [h.2.2.1 hnil, hd.1]
        simp only [List.length_cons]
        rw [Nat.mod_add_mod]
        congr 1
        omega
    · obtain ⟨evs, hev, hlen, hall⟩ := h.2.2.2 (by rw [Enqueue_o]; exact hf)
      rw [hd.2.2, hf] at hev
      refine ⟨{ EventType := (enqueueEventKind b.o.queueName c.1).1, IsEventFail := true,
                ItemNum := 1, DetailMsg := b.o.queueName ++ " queue is full, dropped item",
                ExtraParams := (enqueueEventKind b.o.queueName c.1).2 } :: evs,
        by rw [hev]; simp, by simp [hlen], ?_⟩
      intro e he
      rcases List.mem_cons.mp he with rfl | he
      · exact ⟨rfl, rfl⟩
      · exact hall e he

/-- More calls than the empty channel of a running manager can take: the first
`maxQueueLength` are accepted, the others are dropped. -/
theorem EnqueueAll_beyond_capacity (calls : List (Item × Int)) (b : BatchQueueManager)
    (hrun : b.stopped = false) (hempty : b.queue = [])
    (hmore : b.o.maxQueueLength < calls.length) :
    (EnqueueAll b calls).queue = (calls.take b.o.maxQueueLength).map Prod.fst ∧
      (EnqueueAll b calls).queue = (EnqueueAll b (calls.take b.o.maxQueueLength)).queue ∧
      (EnqueueAll b calls).batchByteSize =
        (EnqueueAll b (calls.take b.o.maxQueueLength)).batchByteSize ∧
      (EnqueueAll b calls).dropped =
        (b.dropped + (calls.length - b.o.maxQueueLength)) % 2 ^ 32 ∧
      (b.o.finishEventProcessor = true →
        ∃ evs : List FinishEventInfo,
          (EnqueueAll b calls).events =
            (EnqueueAll b (calls.take b.o.maxQueueLength)).events ++ evs ∧
          evs.length = calls.length - b.o.maxQueueLength ∧
          ∀ e ∈ evs, e.IsEventFail = true ∧ e.ItemNum = 1) := by
  have hlenTake : (calls.take b.o.maxQueueLength).length = b.o.maxQueueLength := by
    rw [List.length_take]; omega
  have hlenDrop : (calls.drop b.o.maxQueueLength).length
      = calls.length - b.o.maxQueueLength := List.length_drop _ _
  have hA := EnqueueAll_of_room (calls.take b.o.maxQueueLength) b hrun
    (by rw [hempty, hlenTake]; simp)
  have hF := EnqueueAll_frame (calls.take b.o.maxQueueLength) b
  have hB := EnqueueAll_of_full (calls.drop b.o.maxQueueLength)
    (EnqueueAll b (calls.take b.o.maxQueueLength)) (by rw [hF.2.1]; exact hrun)
    (by rw [hA.1, hF.1, hempty]; simp [hlenTake]; omega)
  have hsplit : EnqueueAll b calls = EnqueueAll (EnqueueAll b
      (calls.take b.o.maxQueueLength)) (calls.drop b.o.maxQueueLength) := by
    rw [← EnqueueAll_append, List.take_append_drop]
  have hne : calls.drop b.o.maxQueueLength ≠ [] := by
    intro h
    have := congrArg List.length h
    rw [hlenDrop] at this
    simp at this
    omega
  refine ⟨?_, ?_, ?_, ?_, fun hf => ?_⟩
  · rw [hsplit, hB.1, hA.1, hempty]; simp
  · rw [hsplit, hB.1]
  · rw [hsplit, hB.2.1]
  · rw [hsplit, hB.2.2.1 hne, hA.2.1, hlenDrop]
  · obtain ⟨evs, hev, hlen, hall⟩ := hB.2.2.2 (by rw [hF.1]; exact hf)
    exact ⟨evs, by rw [hsplit]; exact hev, by rw [hlen, hlenDrop], hall⟩

/-- Claim C2 fails as stated: after `2 ^ 32 + 1` calls of `Enqueue` on a fresh manager
whose channel holds one item, `2 ^ 32` items have been dropped but the `uint32` counter
has not increased by `2 ^ 32`: it is back to its initial value. -/
theorem dropped_counter_wraps_around :
    (newBatchQueueManager overflowOptions).stopped = false ∧
      (newBatchQueueManager overflowOptions).queue = [] ∧
      overflowOptions.maxQueueLength < overflowCalls.length ∧
      (EnqueueAll (newBatchQueueManager overflowOptions) overflowCalls).dropped
        = (newBatchQueueManager overflowOptions).dropped ∧
      ¬ ((EnqueueAll (newBatchQueueManager overflowOptions) overflowCalls).dropped
        = (newBatchQueueManager overflowOptions).dropped
          + (overflowCalls.length - overflowOptions.maxQueueLength)) := by
  have hlen : overflowCalls.length = 2 ^ 32 + 1 := List.length_replicate _ _
  have hcap : overflowOptions.maxQueueLength = 1 := rfl
  have hd : (newBatchQueueManager overflowOptions).dropped = 0 := rfl
  have hmore : (newBatchQueueManager overflowOptions).o.maxQueueLength
      < overflowCalls.length := by
    show overflowOptions.maxQueueLength < overflowCalls.length
    rw [hlen, hcap]; norm_num
  have h := (EnqueueAll_beyond_capacity overflowCalls
    (newBatchQueueManager overflowOptions) rfl rfl hmore).2.2.2.1
  have ho : (newBatchQueueManager overflowOptions).o.maxQueueLength = 1 := rfl
  rw [ho, hd, hlen] at h
  have hzero : (EnqueueAll (newBatchQueueManager overflowOptions) overflowCalls).dropped
      = 0 := by
    rw [h]; norm_num
  refine ⟨rfl, rfl, ?_, ?_, ?_⟩
  · rw [hlen, hcap]; norm_num
  · rw [hzero, hd]
  · rw [hzero, hd, hlen, hcap]; norm_num

/-- Claim C2, amended: `N > C` calls of `Enqueue` on a running manager whose channel is
empty and not consumed in between accept exactly the first `C` items and drop the
others; the dropped items leave the channel and the byte counter as the accepted ones
left them; the `uint32` dropped counter increases by `N - C` modulo `2 ^ 32`, hence by
exactly `N - C` when that does not wrap; and, a finish-event processor being
configured, each drop reports one event with `IsEventFail = true` and `ItemNum = 1`. -/
theorem Enqueue_beyond_capacity_drops_the_excess (calls : List (Item × Int))
    (b : BatchQueueManager) (hrun : b.stopped = false) (hempty : b.queue = [])
    (hmore : b.o.maxQueueLength < calls.length) :
    (EnqueueAll b calls).queue = (calls.take b.o.maxQueueLength).map Prod.fst ∧
      (EnqueueAll b calls).queue = (EnqueueAll b (calls.take b.o.maxQueueLength)).queue ∧
      (EnqueueAll b calls).batchByteSize =
        (EnqueueAll b (calls.take b.o.maxQueueLength)).batchByteSize ∧
      (EnqueueAll b calls).dropped =
        (b.dropped + (calls.length - b.o.maxQueueLength)) % 2 ^ 32 ∧
      (b.dropped + (calls.length - b.o.maxQueueLength) < 2 ^ 32 →
        (EnqueueAll b calls).dropped = b.dropped + (calls.length - b.o.maxQueueLength)) ∧
      (b.o.finishEventProcessor = true →
        ∃ evs : List FinishEventInfo,
          (EnqueueAll b calls).events =
            (EnqueueAll b (calls.take b.o.maxQueueLength)).events ++ evs ∧
          evs.length = calls.length - b.o.maxQueueLength ∧
          ∀ e ∈ evs, e.IsEventFail = true ∧ e.ItemNum = 1) := by
  have h := EnqueueAll_beyond_capacity calls b hrun hempty hmore
  exact ⟨h.1, h.2.1, h.2.2.1, h.2.2.2.1,
    fun hlt => by rw [h.2.2.2.1]; exact Nat.mod_eq_of_lt hlt, h.2.2.2.2⟩

theorem Enqueue_beyond_capacity_drops_the_excess_witness :
    (newBatchQueueManager smallOptions).stopped = false ∧
      (newBatchQueueManager smallOptions).queue = [] ∧
      (EnqueueAll (newBatchQueueManager smallOptions)
          [(.other 1, 5), (.other 2, 5), (.other 3, 5)]).queue = [.other 1, .other 2] ∧
      (EnqueueAll (newBatchQueueManager smallOptions)
          [(.other 1, 5), (.other 2, 5), (.other 3, 5)]).dropped = 1 :=
  ⟨rfl, rfl,
    (Enqueue_beyond_capacity_drops_the_excess [(.other 1, 5), (.other 2, 5), (.other 3, 5)]
      (newBatchQueueManager smallOptions) rfl rfl (by decide)).1,
    (Enqueue_beyond_capacity_drops_the_excess [(.other 1, 5), (.other 2, 5), (.other 3, 5)]
      (newBatchQueueManager smallOptions) rfl rfl (by decide)).2.2.2.2.1 (by decide)⟩

/-! ## The export decision of the processing loop -/

/-- Claim C3 fails as stated: two spans of 6 bytes wait in the channel of a manager that
exports at 100 items or 10 bytes.  When the loop receives the first one, the batch holds
one item of 6 bytes, yet it is exported: the byte counter already counts the span that
is still in the channel. -/
theorem export_counts_bytes_still_in_channel :
    twoWaiting.queue = [.span (sampleSpan 1 6), .span (sampleSpan 2 6)] ∧
      twoWaiting.batch = [] ∧
      (processQueueRecv twoWaiting).exported = [[.span (sampleSpan 1 6)]] ∧
      ¬ ([Item.span (sampleSpan 1 6)].length ≥ byteOptions.maxExportBatchLength ∨
          (sampleSpan 1 6).bytesSize ≥ byteOptions.maxExportBatchByteSize) := by
  decide

/-- Claim C3, amended: right after a real item is appended to the batch, the batch is
exported if and only if it holds at least `maxExportBatchLength` items or the running
counter `batchByteSize` is at least `maxExportBatchByteSize`; otherwise the item stays
in the batch.  The counter is increased (as an `int64`) by the size hint of every item
that `Enqueue` accepts, be it still in the channel, and every export of a non-empty
batch resets it to zero. -/
theorem export_after_append_iff (b : BatchQueueManager) (sd : Item) (rest : List Item)
    (hq : b.queue = sd :: rest) (hreal : sd.isReal = true)
    (hexp : b.o.exportFunc = true) :
    ((processQueueRecv b).exported = b.exported ++ [b.batch ++ [sd]] ↔
        (b.batch.length + 1 ≥ b.o.maxExportBatchLength ∨
          b.batchByteSize ≥ b.o.maxExportBatchByteSize)) ∧
      (¬ (b.batch.length + 1 ≥ b.o.maxExportBatchLength ∨
          b.batchByteSize ≥ b.o.maxExportBatchByteSize) →
        (processQueueRecv b).exported = b.exported ∧
          (processQueueRecv b).batch = b.batch ++ [sd] ∧
          (processQueueRecv b).batchByteSize = b.batchByteSize) ∧
      (∀ (sd2 : Item) (n : Int), b.stopped = false →
        b.queue.length < b.o.maxQueueLength →
        (Enqueue b sd2 n).batchByteSize = wrapInt64 (b.batchByteSize + n)) ∧
      (b.batch ≠ [] → (doExport b).batchByteSize = 0) := by
  have hrecv : processQueueRecv b =
      if isShouldExport { b with queue := rest, batch := b.batch ++ [sd] }
      then doExport { b with queue := rest, batch := b.batch ++ [sd] }
      else { b with queue := rest, batch := b.batch ++ [sd] } := by
    unfold processQueueRecv
    rw [hq]
    cases sd <;> first | rfl | simp [Item.isReal] at hreal
  have hdec : isShouldExport { b with queue := rest, batch := b.batch ++ [sd] } = true ↔
      (b.batch.length + 1 ≥ b.o.maxExportBatchLength ∨
        b.batchByteSize ≥ b.o.maxExportBatchByteSize) := by
    unfold isShouldExport
    simp only [List.length_append, List.length_singleton]
    by_cases h1 : b.batch.length + 1 ≥ b.o.maxExportBatchLength
    · simp [h1]
    · by_cases h2 : b.batchByteSize ≥ b.o.maxExportBatchByteSize <;> simp [h1, h2]
  refine ⟨?_, ?_, ?_, ?_⟩
  · rw [← hdec, hrecv]
    by_cases hs : isShouldExport { b with queue := rest, batch := b.batch ++ [sd] } = true
    · simp [hs, doExport, hexp]
    · simp [hs]
  · intro hno
    rw [← hdec] at hno
    rw [hrecv]
    simp [hno]
  · intro sd2 n hrun hroom
    exact (Enqueue_of_room b sd2 n hrun hroom).2
  · intro hne
    have : b.batch.length > 0 := List.length_pos.mpr hne
    simp [doExport, this]

theorem export_after_append_iff_witness :
    twoWaiting.queue = [.span (sampleSpan 1 6), .span (sampleSpan 2 6)] ∧
      ((processQueueRecv twoWaiting).exported
          = twoWaiting.exported ++ [twoWaiting.batch ++ [.span (sampleSpan 1 6)]] ↔
        (twoWaiting.batch.length + 1 ≥ twoWaiting.o.maxExportBatchLength ∨
          twoWaiting.batchByteSize ≥ twoWaiting.o.maxExportBatchByteSize)) :=
  ⟨by decide,
    (export_after_append_iff twoWaiting (.span (sampleSpan 1 6)) [.span (sampleSpan 2 6)]
      (by decide) rfl rfl).1⟩

/-! ## The export functions -/

theorem foldl_Enqueue_spans (spans : List Span) (q : BatchQueueManager) :
    spans.foldl (fun q span => Enqueue q (.span span) span.bytesSize) q
      = EnqueueAll q (spans.map (fun s => (Item.span s, s.bytesSize))) := by
  simp [EnqueueAll, List.foldl_map]

theorem foldl_Enqueue_files (files : List UploadFile) (q : BatchQueueManager) :
    files.foldl (fun q bat => Enqueue q (.file bat) (goLen bat.Data)) q
      = EnqueueAll q (files.map (fun f => (Item.file f, goLen f.Data))) := by
  simp [EnqueueAll, List.foldl_map]

theorem foldl_Enqueue_uploadFiles (uploadFiles : List (Option UploadFile))
    (q : BatchQueueManager) :
    uploadFiles.foldl
        (fun fileQueue file =>
          match file with
          | none => fileQueue
          | some f => fileQueue.map (fun q => Enqueue q (.file f) (goLen f.Data)))
        (some q)
      = some (EnqueueAll q
          ((uploadFiles.filterMap id).map (fun f => (Item.file f, goLen f.Data)))) := by
  induction uploadFiles generalizing q with
  | nil => rfl
  | cons file rest ih =>
    cases file with
    | none => simpa using ih q
    | some f =>
      simp only [List.foldl_cons, Option.map_some']
      rw [ih]
      simp [EnqueueAll]

theorem spansOf_eq_filterMap (l : List Item) :
    spansOf l = l.filterMap (fun i => match i with | .span s => some s | _ => none) := by
  induction l with
  | nil => rfl
  | cons i l ih => cases i <;> simp [spansOf, ih]

theorem filesOf_eq_filterMap (l : List Item) :
    filesOf l = l.filterMap (fun i => match i with | .file f => some f | _ => none) := by
  induction l with
  | nil => rfl
  | cons i l ih => cases i <;> simp [filesOf, ih]

/-- Claim C4: when the exporter call fails, the span export function built with a retry
queue calls `Enqueue` on that queue once per span of the batch (the items of the batch
that are spans, read off the batch itself), in batch order, with `span.bytesSize`, and
leaves the file queue alone; the file export function does the same with the files of
its batch and `len(file.Data)`.  On a running retry queue with room for them the items
join the channel in that order and nothing is dropped. -/
theorem failed_export_goes_to_the_retry_queue
    (transfer : List Span → List UploadSpan × List (Option UploadFile))
    (exporter : Exporter) (finishEventProcessor : Bool) (tsMs : Int)
    (rq : BatchQueueManager) (fq : Option BatchQueueManager) (evs : List FinishEventInfo)
    (ls lf : List Item) (errSpans errFiles : String)
    (hspans : exporter.ExportSpans
        (transfer (ls.filterMap (fun i => match i with | .span s => some s | _ => none))).1
      = some errSpans)
    (hfiles : exporter.ExportFiles
        (lf.filterMap (fun i => match i with | .file f => some f | _ => none))
      = some errFiles) :
    ((newExportSpansFunc transfer exporter finishEventProcessor tsMs
          { retryQueue := some rq, fileQueue := fq, events := evs } ls).retryQueue
        = some (EnqueueAll rq
            ((ls.filterMap (fun i => match i with | .span s => some s | _ => none)).map
              (fun s => (Item.span s, s.bytesSize)))) ∧
      (newExportSpansFunc transfer exporter finishEventProcessor tsMs
          { retryQueue := some rq, fileQueue := fq, events := evs } ls).fileQueue = fq) ∧
    ((newExportFilesFunc exporter finishEventProcessor tsMs
          { retryQueue := some rq, fileQueue := fq, events := evs } lf).retryQueue
        = some (EnqueueAll rq
            ((lf.filterMap (fun i => match i with | .file f => some f | _ => none)).map
              (fun f => (Item.file f, goLen f.Data)))) ∧
      (newExportFilesFunc exporter finishEventProcessor tsMs
          { retryQueue := some rq, fileQueue := fq, events := evs } lf).fileQueue = fq) ∧
    (rq.stopped = false →
      rq.queue.length
          + (ls.filterMap (fun i => match i with | .span s => some s | _ => none)).length
        ≤ rq.o.maxQueueLength →
      ((newExportSpansFunc transfer exporter finishEventProcessor tsMs
            { retryQueue := some rq, fileQueue := fq, events := evs } ls).retryQueue.map
          (fun q => (q.queue, q.dropped)))
        = some (rq.queue ++
            (ls.filterMap (fun i => match i with | .span s => some s | _ => none)).map
              Item.span,
          rq.dropped)) ∧
    (rq.stopped = false →
      rq.queue.length
          + (lf.filterMap (fun i => match i with | .file f => some f | _ => none)).length
        ≤ rq.o.maxQueueLength →
      ((newExportFilesFunc exporter finishEventProcessor tsMs
            { retryQueue := some rq, fileQueue := fq, events := evs } lf).retryQueue.map
          (fun q => (q.queue, q.dropped)))
        = some (rq.queue ++
            (lf.filterMap (fun i => match i with | .file f => some f | _ => none)).map
              Item.file,
          rq.dropped)) := by
  rw [← spansOf_eq_filterMap] at hspans ⊢
  rw [← filesOf_eq_filterMap] at hfiles ⊢
  have hs : (newExportSpansFunc transfer exporter finishEventProcessor tsMs
        { retryQueue := some rq, fileQueue := fq, events := evs } ls).retryQueue
        = some (EnqueueAll rq ((spansOf ls).map (fun s => (Item.span s, s.bytesSize)))) ∧
      (newExportSpansFunc transfer exporter finishEventProcessor tsMs
        { retryQueue := some rq, fileQueue := fq, events := evs } ls).fileQueue = fq := by
    unfold newExportSpansFunc
    simp only [hspans, foldl_Enqueue_spans]
    cases finishEventProcessor <;> exact ⟨rfl, rfl⟩
  have hf : (newExportFilesFunc exporter finishEventProcessor tsMs
        { retryQueue := some rq, fileQueue := fq, events := evs } lf).retryQueue
        = some (EnqueueAll rq ((filesOf lf).map (fun f => (Item.file f, goLen f.Data)))) ∧
      (newExportFilesFunc exporter finishEventProcessor tsMs
        { retryQueue := some rq, fileQueue := fq, events := evs } lf).fileQueue = fq := by
    unfold newExportFilesFunc
    simp only [hfiles, foldl_Enqueue_files]
    cases finishEventProcessor <;> exact ⟨rfl, rfl⟩
  refine ⟨hs, hf, ?_, ?_⟩
  · intro hrun hroom
    have h := EnqueueAll_of_room ((spansOf ls).map (fun s => (Item.span s, s.bytesSize)))
      rq hrun (by simpa using hroom)
    rw [hs.1, Option.map_some', h.1, h.2.1]
    simp [Function.comp_def]
  · intro hrun hroom
    have h := EnqueueAll_of_room ((filesOf lf).map (fun f => (Item.file f, goLen f.Data)))
      rq hrun (by simpa using hroom)
    rw [hf.1, Option.map_some', h.1, h.2.1]
    simp [Function.comp_def]

theorem failed_export_goes_to_the_retry_queue_witness :
    ((newExportSpansFunc sampleTransfer failingExporter true 3
          { retryQueue := some (newBatchQueueManager smallOptions), fileQueue := none,
            events := [] }
          [.span (sampleSpan 1 7), .other 0, .span (sampleSpan 2 9)]).retryQueue
        = some (EnqueueAll (newBatchQueueManager smallOptions)
            [(.span (sampleSpan 1 7), 7), (.span (sampleSpan 2 9), 9)]) ∧
      (newExportSpansFunc sampleTransfer failingExporter true 3
          { retryQueue := some (newBatchQueueManager smallOptions), fileQueue := none,
            events := [] }
          [.span (sampleSpan 1 7), .other 0, .span (sampleSpan 2 9)]).fileQueue
        = none) ∧
    ((newExportFilesFunc failingExporter true 3
          { retryQueue := some (newBatchQueueManager smallOptions), fileQueue := none,
            events := [] }
          [.file (sampleFile "k" "data"), .other 0, .file (sampleFile "m" "xy")]).retryQueue
        = some (EnqueueAll (newBatchQueueManager smallOptions)
            [(.file (sampleFile "k" "data"), 4), (.file (sampleFile "m" "xy"), 2)]) ∧
      (newExportFilesFunc failingExporter true 3
          { retryQueue := some (newBatchQueueManager smallOptions), fileQueue := none,
            events := [] }
          [.file (sampleFile "k" "data"), .other 0, .file (sampleFile "m" "xy")]).fileQueue
        = none) ∧
    ((newExportSpansFunc sampleTransfer failingExporter true 3
          { retryQueue := some (newBatchQueueManager smallOptions), fileQueue := none,
            events := [] }
          [.span (sampleSpan 1 7), .other 0, .span (sampleSpan 2 9)]).retryQueue.map
        (fun q => (q.queue, q.dropped)))
      = some ([.span (sampleSpan 1 7), .span (sampleSpan 2 9)], 0) ∧
    ((newExportFilesFunc failingExporter true 3
          { retryQueue := some (newBatchQueueManager smallOptions), fileQueue := none,
            events := [] }
          [.file (sampleFile "k" "data"), .other 0, .file (sampleFile "m" "xy")]).retryQueue.map
        (fun q => (q.queue, q.dropped)))
      = some ([.file (sampleFile "k" "data"), .file (sampleFile "m" "xy")], 0) :=
  ⟨(failed_export_goes_to_the_retry_queue sampleTransfer failingExporter true 3
      (newBatchQueueManager smallOptions) none []
      [.span (sampleSpan 1 7), .other 0, .span (sampleSpan 2 9)]
      [.file (sampleFile "k" "data"), .other 0, .file (sampleFile "m" "xy")]
      "export spans fail" "export files fail" rfl rfl).1,
    (failed_export_goes_to_the_retry_queue sampleTransfer failingExporter true 3
      (newBatchQueueManager smallOptions) none []
      [.span (sampleSpan 1 7), .other 0, .span (sampleSpan 2 9)]
      [.file (sampleFile "k" "data"), .other 0, .file (sampleFile "m" "xy")]
      "export spans fail" "export files fail" rfl rfl).2.1,
    (failed_export_goes_to_the_retry_queue sampleTransfer failingExporter true 3
      (newBatchQueueManager smallOptions) none []
      [.span (sampleSpan 1 7), .other 0, .span (sampleSpan 2 9)]
      [.file (sampleFile "k" "data"), .other 0, .file (sampleFile "m" "xy")]
      "export spans fail" "export files fail" rfl rfl).2.2.1 rfl (by decide),
    (failed_export_goes_to_the_retry_queue sampleTransfer failingExporter true 3
      (newBatchQueueManager smallOptions) none []
      [.span (sampleSpan 1 7), .other 0, .span (sampleSpan 2 9)]
      [.file (sampleFile "k" "data"), .other 0, .file (sampleFile "m" "xy")]
      "export spans fail" "export files fail" rfl rfl).2.2.2 rfl (by decide)⟩

/-- Claim C6: an export function built without a retry queue, on a failed exporter
call, changes no queue at all; the only thing it does is to report (when there is a
finish-event processor) one event with `IsEventFail = true` whose detail message is the
error text followed by ", retry second time failed".  This is how
`NewBatchSpanProcessor` wires the span-retry and the file-retry queues, whose export
functions therefore leave the four managers as they are. -/
theorem failure_without_retry_queue_is_terminal
    (transfer : List Span → List UploadSpan × List (Option UploadFile))
    (exporter : Exporter) (finishEventProcessor : Bool) (tsMs : Int)
    (t : ExportTargets) (p : BatchSpanProcessor)
    (ls lf : List Item) (errSpans errFiles : String)
    (hnil : t.retryQueue = none)
    (hspans : exporter.ExportSpans (transfer (spansOf ls)).1 = some errSpans)
    (hfiles : exporter.ExportFiles (filesOf lf) = some errFiles) :
    newExportSpansFunc transfer exporter finishEventProcessor tsMs t ls
        = { t with events := t.events ++
              if finishEventProcessor then
                [{ EventType := .FlushSpanRate, IsEventFail := true,
                   ItemNum := ((transfer (spansOf ls)).1.length : Int),
                   DetailMsg := errSpans ++ ", retry second time failed",
                   ExtraParams := some { IsRootSpan := false, LatencyMs := tsMs } }]
              else [] } ∧
      newExportFilesFunc exporter finishEventProcessor tsMs t lf
        = { t with events := t.events ++
              if finishEventProcessor then
                [{ EventType := .FlushFileRate, IsEventFail := true,
                   ItemNum := ((filesOf lf).length : Int),
                   DetailMsg := errFiles ++ ", retry second time failed",
                   ExtraParams := some { IsRootSpan := false, LatencyMs := tsMs } }]
              else [] } ∧
      ((p.spanRetryQMExport transfer exporter tsMs ls).spanQM = p.spanQM ∧
        (p.spanRetryQMExport transfer exporter tsMs ls).spanRetryQM = p.spanRetryQM ∧
        (p.spanRetryQMExport transfer exporter tsMs ls).fileQM = p.fileQM ∧
        (p.spanRetryQMExport transfer exporter tsMs ls).fileRetryQM = p.fileRetryQM) ∧
      ((p.fileRetryQMExport exporter tsMs lf).spanQM = p.spanQM ∧
        (p.fileRetryQMExport exporter tsMs lf).spanRetryQM = p.spanRetryQM ∧
        (p.fileRetryQMExport exporter tsMs lf).fileQM = p.fileQM ∧
        (p.fileRetryQMExport exporter tsMs lf).fileRetryQM = p.fileRetryQM) := by
  obtain ⟨r, fq, evs⟩ := t
  simp only at hnil
  subst hnil
  refine ⟨?_, ?_, ?_, ?_⟩
  · unfold newExportSpansFunc
    simp only [hspans]
    cases finishEventProcessor <;> simp
  · unfold newExportFilesFunc
    simp only [hfiles]
    cases finishEventProcessor <;> simp
  · unfold BatchSpanProcessor.spanRetryQMExport newExportSpansFunc
    simp only [hspans]
    cases p.spanRetryQM.o.finishEventProcessor <;> simp
  · unfold BatchSpanProcessor.fileRetryQMExport
    simp

theorem failure_without_retry_queue_is_terminal_witness :
    failingExporter.ExportSpans (sampleTransfer (spansOf [.span (sampleSpan 1 7)])).1
        = some "export spans fail" ∧
      failingExporter.ExportFiles (filesOf [.file (sampleFile "k" "data")])
        = some "export files fail" ∧
      newExportSpansFunc sampleTransfer failingExporter true 3
          { retryQueue := none, fileQueue := some (newBatchQueueManager smallOptions),
            events := [] } [.span (sampleSpan 1 7)]
        = { retryQueue := none, fileQueue := some (newBatchQueueManager smallOptions),
            events := [{ EventType := .FlushSpanRate, IsEventFail := true, ItemNum := 1,
                         DetailMsg := "export spans fail, retry second time failed",
                         ExtraParams := some { IsRootSpan := false, LatencyMs := 3 } }] } :=
  ⟨rfl, rfl,
    (failure_without_retry_queue_is_terminal sampleTransfer failingExporter true 3
      { retryQueue := none, fileQueue := some (newBatchQueueManager smallOptions),
        events := [] } (NewBatchSpanProcessor true none)
      [.span (sampleSpan 1 7)] [.file (sampleFile "k" "data")]
      "export spans fail" "export files fail" rfl rfl rfl).1⟩

/-- Claim C7: when `ExportSpans` succeeds, the span export function calls `Enqueue` on
the file queue once per non-nil file of the conversion, in order, with
`len(file.Data)`, and leaves its retry queue (present for the span queue, absent for the
span-retry queue) as it is.  On a running file queue with room for them the files join
the channel in that order and nothing is dropped. -/
theorem successful_export_sends_files_to_the_file_queue
    (transfer : List Span → List UploadSpan × List (Option UploadFile))
    (exporter : Exporter) (finishEventProcessor : Bool) (tsMs : Int)
    (r : Option BatchQueueManager) (fq : BatchQueueManager) (evs : List FinishEventInfo)
    (l : List Item)
    (hok : exporter.ExportSpans (transfer (spansOf l)).1 = none) :
    (newExportSpansFunc transfer exporter finishEventProcessor tsMs
          { retryQueue := r, fileQueue := some fq, events := evs } l).fileQueue
        = some (EnqueueAll fq (((transfer (spansOf l)).2.filterMap id).map
            (fun f => (Item.file f, goLen f.Data)))) ∧
      (newExportSpansFunc transfer exporter finishEventProcessor tsMs
          { retryQueue := r, fileQueue := some fq, events := evs } l).retryQueue = r ∧
      (fq.stopped = false →
        fq.queue.length + ((transfer (spansOf l)).2.filterMap id).length
          ≤ fq.o.maxQueueLength →
        (EnqueueAll fq (((transfer (spansOf l)).2.filterMap id).map
            (fun f => (Item.file f, goLen f.Data)))).queue
          = fq.queue ++ ((transfer (spansOf l)).2.filterMap id).map Item.file ∧
        (EnqueueAll fq (((transfer (spansOf l)).2.filterMap id).map
            (fun f => (Item.file f, goLen f.Data)))).dropped = fq.dropped) := by
  refine ⟨?_, ?_, ?_⟩
  · unfold newExportSpansFunc
    simp only [hok, foldl_Enqueue_uploadFiles]
    cases finishEventProcessor <;> rfl
  · unfold newExportSpansFunc
    simp only [hok]
    cases finishEventProcessor <;> rfl
  · intro hrun hroom
    have h := EnqueueAll_of_room (((transfer (spansOf l)).2.filterMap id).map
      (fun f => (Item.file f, goLen f.Data))) fq hrun (by simpa using hroom)
    exact ⟨by rw [h.1]; simp [Function.comp_def], h.2.1⟩

theorem successful_export_sends_files_to_the_file_queue_witness :
    succeedingExporter.ExportSpans (sampleTransfer (spansOf
        [.span (sampleSpan 1 7), .span (sampleSpan 2 9)])).1 = none ∧
      (newExportSpansFunc sampleTransfer succeedingExporter true 3
          { retryQueue := none, fileQueue := some (newBatchQueueManager smallOptions),
            events := [] }
          [.span (sampleSpan 1 7), .span (sampleSpan 2 9)]).retryQueue = none ∧
      ((newExportSpansFunc sampleTransfer succeedingExporter true 3
          { retryQueue := none, fileQueue := some (newBatchQueueManager smallOptions),
            events := [] }
          [.span (sampleSpan 1 7), .span (sampleSpan 2 9)]).fileQueue.map
            (fun q => q.queue.length)) = some 2 :=
  ⟨rfl,
    (successful_export_sends_files_to_the_file_queue sampleTransfer succeedingExporter true 3
      none (newBatchQueueManager smallOptions) []
      [.span (sampleSpan 1 7), .span (sampleSpan 2 9)] rfl).2.1,
    by decide⟩

/-! ## The invariant of the manager -/

theorem InvariantUpTo.frame {k : Nat} {b b2 : BatchQueueManager} (h : InvariantUpTo k b)
    (ho : b2.o = b.o) (he : b2.exported = b.exported) (hb : b2.batch = b.batch)
    (h1 : b2.stopOnce = b.stopOnce) (h2 : b2.stopped = b.stopped) :
    InvariantUpTo k b2 :=
  { exported_nonempty := by rw [he]; exact h.exported_nonempty
    exported_bounded := by rw [he, ho]; exact h.exported_bounded
    exported_real := by rw [he]; exact h.exported_real
    batch_bounded := by rw [hb, ho]; exact h.batch_bounded
    batch_real := by rw [hb]; exact h.batch_real
    stopped_eq_stopOnce := by rw [h1, h2]; exact h.stopped_eq_stopOnce }

theorem newBatchQueueManager_invariant (o : batchQueueManagerOptions) :
    Invariant (newBatchQueueManager o) :=
  { exported_nonempty := by simp [newBatchQueueManager]
    exported_bounded := by simp [newBatchQueueManager]
    exported_real := by simp [newBatchQueueManager]
    batch_bounded := by simp [newBatchQueueManager]
    batch_real := by simp [newBatchQueueManager]
    stopped_eq_stopOnce := by simp [newBatchQueueManager] }

/-- An export turns a batch that has just received one item into a bounded one. -/
theorem doExport_invariant (b : BatchQueueManager) (h : InvariantUpTo 1 b) :
    Invariant (doExport b) := by
  unfold doExport
  split
  · rename_i hpos
    have hne : b.batch ≠ [] := List.length_pos.mp hpos
    by_cases hexp : b.o.exportFunc = true
    · simp only [hexp, if_true]
      exact
        { exported_nonempty := by
            intro l hl
            rcases List.mem_append.mp hl with hl | hl
            · exact h.exported_nonempty l hl
            · simp only [List.mem_singleton] at hl
              rw [hl]; exact hne
          exported_bounded := by
            intro hmax l hl
            rcases List.mem_append.mp hl with hl | hl
            · exact h.exported_bounded hmax l hl
            · simp only [List.mem_singleton] at hl
              have := h.batch_bounded hmax
              rw [hl]
              show b.batch.length ≤ b.o.maxExportBatchLength
              omega
          exported_real := by
            intro l hl
            rcases List.mem_append.mp hl with hl | hl
            · exact h.exported_real l hl
            · simp only [List.mem_singleton] at hl
              rw [hl]; exact h.batch_real
          batch_bounded := by intro hmax; simpa using hmax
          batch_real := by simp
          stopped_eq_stopOnce := h.stopped_eq_stopOnce }
    · simp only [hexp]
      exact
        { exported_nonempty := h.exported_nonempty
          exported_bounded := h.exported_bounded
          exported_real := h.exported_real
          batch_bounded := by intro hmax; simpa using hmax
          batch_real := by simp
          stopped_eq_stopOnce := h.stopped_eq_stopOnce }
  · rename_i hpos
    have hnil : b.batch = [] := by
      cases hb : b.batch with
      | nil => rfl
      | cons x xs => rw [hb] at hpos; simp at hpos
    exact
      { exported_nonempty := h.exported_nonempty
        exported_bounded := h.exported_bounded
        exported_real := h.exported_real
        batch_bounded := by intro hmax; rw [hnil]; simpa using hmax
        batch_real := h.batch_real
        stopped_eq_stopOnce := h.stopped_eq_stopOnce }

theorem Invariant.upTo_one {b : BatchQueueManager} (h : Invariant b) : InvariantUpTo 1 b :=
  { exported_nonempty := h.exported_nonempty
    exported_bounded := h.exported_bounded
    exported_real := h.exported_real
    batch_bounded := fun hmax => Nat.lt_succ_of_lt (h.batch_bounded hmax)
    batch_real := h.batch_real
    stopped_eq_stopOnce := h.stopped_eq_stopOnce }

/-- Appending a real item to the batch of a manager, whatever becomes of its channel. -/
theorem Invariant.append {b : BatchQueueManager} (h : Invariant b) (sd : Item)
    (q : List Item) (hreal : sd.isReal = true) :
    InvariantUpTo 1 { b with queue := q, batch := b.batch ++ [sd] } :=
  { exported_nonempty := h.exported_nonempty
    exported_bounded := h.exported_bounded
    exported_real := h.exported_real
    batch_bounded := by
      intro hmax
      have := h.batch_bounded hmax
      simp only [List.length_append, List.length_singleton]
      show b.batch.length + 1 < b.o.maxExportBatchLength + 1
      omega
    batch_real := by
      intro x hx
      rcases List.mem_append.mp hx with hx | hx
      · exact h.batch_real x hx
      · simp only [List.mem_singleton] at hx
        rw [hx]; exact hreal
    stopped_eq_stopOnce := h.stopped_eq_stopOnce }

theorem processQueueRecv_invariant (b : BatchQueueManager) (h : Invariant b) :
    Invariant (processQueueRecv b) := by
  unfold processQueueRecv
  split
  · exact h
  · rename_i sd rest hq
    split
    · exact InvariantUpTo.frame h rfl rfl rfl rfl rfl
    · rename_i hsd
      have hreal : sd.isReal = true := by
        cases sd <;> simp [Item.isReal] at hsd ⊢
      have happ := h.append sd rest hreal
      simp only []
      split
      · exact doExport_invariant _ happ
      · rename_i hno
        refine
          { exported_nonempty := happ.exported_nonempty
            exported_bounded := happ.exported_bounded
            exported_real := happ.exported_real
            batch_bounded := ?_
            batch_real := happ.batch_real
            stopped_eq_stopOnce := happ.stopped_eq_stopOnce }
        intro _
        have hlt : ¬ (b.batch ++ [sd]).length ≥ b.o.maxExportBatchLength := by
          intro hge
          apply hno
          simp only [List.length_append, List.length_singleton] at hge
          simp [isShouldExport]
          exact Or.inl hge
        simp only [List.length_append, List.length_singleton] at hlt ⊢
        show b.batch.length + 1 < b.o.maxExportBatchLength + 0
        omega

theorem processQueueSteps_invariant (timer : Nat → Bool) (n : Nat) (b : BatchQueueManager)
    (h : Invariant b) : Invariant (processQueueSteps timer n b) := by
  induction n generalizing b with
  | zero => exact h
  | succ n ih =>
    simp only [processQueueSteps]
    apply ih
    apply processQueueRecv_invariant
    split
    · exact doExport_invariant b h.upTo_one
    · exact h

theorem drainQueueLoop_invariant (fuel : Nat) (ctx : Context) (b : BatchQueueManager)
    (h : Invariant b) : Invariant (drainQueueLoop fuel ctx b) := by
  induction fuel generalizing ctx b with
  | zero => exact h
  | succ fuel ih =>
    simp only [drainQueueLoop]
    split
    · exact h
    · split
      · exact doExport_invariant b h.upTo_one
      · rename_i sd rest hq
        split
        · exact ih _ _ (InvariantUpTo.frame h rfl rfl rfl rfl rfl)
        · rename_i hsd
          have hreal : sd.isReal = true := by
            cases sd <;> simp [Item.isReal] at hsd ⊢
          have happ := h.append sd rest hreal
          apply ih
          split
          · exact doExport_invariant _ happ
          · rename_i hno
            refine
              { exported_nonempty := happ.exported_nonempty
                exported_bounded := happ.exported_bounded
                exported_real := happ.exported_real
                batch_bounded := ?_
                batch_real := happ.batch_real
                stopped_eq_stopOnce := happ.stopped_eq_stopOnce }
            intro hmax
            have hb := h.batch_bounded hmax
            simp only [List.length_append, List.length_singleton] at hno ⊢
            show b.batch.length + 1 < b.o.maxExportBatchLength + 0
            have hne : b.batch.length + 1 ≠ b.o.maxExportBatchLength := hno
            omega

theorem Enqueue_invariant (b : BatchQueueManager) (sd : Item) (n : Int)
    (h : Invariant b) : Invariant (Enqueue b sd n) :=
  InvariantUpTo.frame h (Enqueue_o b sd n) (Enqueue_exported b sd n) (Enqueue_batch b sd n)
    (Enqueue_stopOnce b sd n) (Enqueue_stopped b sd n)

theorem enqueueBlockOnQueueFull_invariant (timer : Nat → Bool) (b : BatchQueueManager)
    (sd : Item) (h : Invariant b) : Invariant (enqueueBlockOnQueueFull timer b sd) := by
  unfold enqueueBlockOnQueueFull
  split
  · exact h
  · exact InvariantUpTo.frame (processQueueSteps_invariant timer _ b h) rfl rfl rfl rfl rfl

theorem ForceFlush_invariant (ctx : Context) (timer : Nat → Bool) (b : BatchQueueManager)
    (h : Invariant b) : Invariant (ForceFlush ctx timer b).1 := by
  have h1 := enqueueBlockOnQueueFull_invariant (fun k => timer (k + (b.queue.length + 1))) b
    .forceFlushSpan h
  unfold ForceFlush
  split
  · exact h
  · split
    · exact h
    · simp only []
      split
      · split
        · exact processQueueSteps_invariant _ _ _ h1
        · exact drainQueueLoop_invariant _ _ _ (processQueueSteps_invariant _ _ _ h1)
      · exact drainQueueLoop_invariant _ _ _ (processQueueSteps_invariant _ _ _ h1)

theorem Shutdown_invariant (ctx : Context) (b : BatchQueueManager) (h : Invariant b) :
    Invariant (Shutdown ctx b).1 := by
  have h1 : Invariant { b with stopOnce := true, stopped := true } :=
    { exported_nonempty := h.exported_nonempty
      exported_bounded := h.exported_bounded
      exported_real := h.exported_real
      batch_bounded := h.batch_bounded
      batch_real := h.batch_real
      stopped_eq_stopOnce := rfl }
  have h2 := drainQueueLoop_invariant (b.queue.length + 1) Context.background _ h1
  unfold Shutdown
  split
  · exact h
  · simp only []
    split <;> [split; skip] <;> exact h2

theorem step_invariant (b : BatchQueueManager) (op : Op) (h : Invariant b) :
    Invariant (step b op) := by
  cases op with
  | enqueue sd n => exact Enqueue_invariant b sd n h
  | recv => simp only [step]; split <;> [exact h; exact processQueueRecv_invariant b h]
  | timer =>
    simp only [step, processQueueTimer]
    split <;> [exact h; exact doExport_invariant b h.upTo_one]
  | forceFlush ctx timer => exact ForceFlush_invariant ctx timer b h
  | shutdown ctx => exact Shutdown_invariant ctx b h

/-- Every state reached from a state satisfying the invariant satisfies it. -/
theorem run_invariant (ops : List Op) (b : BatchQueueManager) (h : Invariant b) :
    Invariant (run b ops) := by
  induction ops generalizing b with
  | nil => exact h
  | cons op ops ih => exact ih (step b op) (step_invariant b op h)

/-! ## `Enqueue` after `Shutdown` -/

theorem step_of_stopped (b : BatchQueueManager) (op : Op) (hs : b.stopped = true)
    (ho : b.stopOnce = true) : step b op = b := by
  cases op with
  | enqueue sd n => exact Enqueue_of_stopped b sd n hs
  | recv => simp [step, ho]
  | timer => simp [step, ho]
  | forceFlush ctx timer =>
    simp only [step, ForceFlush]
    split
    · rfl
    · simp [hs]
  | shutdown ctx => simp [step, Shutdown, ho]

theorem run_of_stopped (ops : List Op) (b : BatchQueueManager) (hs : b.stopped = true)
    (ho : b.stopOnce = true) : run b ops = b := by
  induction ops with
  | nil => rfl
  | cons op ops ih =>
    show run (step b op) ops = b
    rw [step_of_stopped b op hs ho]
    exact ih

/-- Claim C8: in every state a manager can reach, once `Shutdown` has been called
(first call or not, whatever its context), an `Enqueue` returns the state unchanged:
channel, batch, byte counter, dropped counter, reported events and exported batches.
More generally nothing that happens afterwards changes the state, so the export
function receives nothing further. -/
theorem Enqueue_after_Shutdown_is_a_no_op (o : batchQueueManagerOptions) (ops : List Op)
    (ctx : Context) (sd : Item) (byteSize : Int) (later : List Op) :
    (Shutdown ctx (run (newBatchQueueManager o) ops)).1.stopped = true ∧
      Enqueue (Shutdown ctx (run (newBatchQueueManager o) ops)).1 sd byteSize
        = (Shutdown ctx (run (newBatchQueueManager o) ops)).1 ∧
      run (Shutdown ctx (run (newBatchQueueManager o) ops)).1 later
        = (Shutdown ctx (run (newBatchQueueManager o) ops)).1 := by
  have hinv := run_invariant ops _ (newBatchQueueManager_invariant o)
  have hs := Shutdown_stopped ctx (run (newBatchQueueManager o) ops)
    (fun h => by rw [hinv.stopped_eq_stopOnce]; exact h)
  have ho := Shutdown_stopOnce ctx (run (newBatchQueueManager o) ops)
  exact ⟨hs, Enqueue_of_stopped _ sd byteSize hs, run_of_stopped later _ hs ho⟩

/-! ## `ForceFlush` -/

theorem doExport_exported_grows (b : BatchQueueManager) :
    ∃ new, (doExport b).exported = b.exported ++ new := by
  unfold doExport
  split
  · by_cases hexp : b.o.exportFunc = true
    · exact ⟨[b.batch], by simp [hexp]⟩
    · exact ⟨[], by simp [hexp]⟩
  · exact ⟨[], by simp⟩

theorem processQueueRecv_exported_grows (b : BatchQueueManager) :
    ∃ new, (processQueueRecv b).exported = b.exported ++ new := by
  unfold processQueueRecv
  split
  · exact ⟨[], by simp⟩
  · split
    · exact ⟨[], by simp⟩
    · simp only []
      split
      · exact doExport_exported_grows _
      · exact ⟨[], by simp⟩

theorem processQueueSteps_exported_grows (timer : Nat → Bool) (n : Nat)
    (b : BatchQueueManager) :
    ∃ new, (processQueueSteps timer n b).exported = b.exported ++ new := by
  induction n generalizing b with
  | zero => exact ⟨[], by simp [processQueueSteps]⟩
  | succ n ih =>
    simp only [processQueueSteps]
    obtain ⟨n3, h3⟩ := ih (processQueueRecv (if timer n = true then processQueueTimer b else b))
    obtain ⟨n2, h2⟩ := processQueueRecv_exported_grows
      (if timer n = true then processQueueTimer b else b)
    have h1 : ∃ n1, (if timer n = true then processQueueTimer b else b).exported
        = b.exported ++ n1 := by
      split
      · exact doExport_exported_grows b
      · exact ⟨[], by simp⟩
    obtain ⟨n1, h1⟩ := h1
    exact ⟨n1 ++ n2 ++ n3, by rw [h3, h2, h1]; simp⟩

theorem drainQueueLoop_exported_grows (fuel : Nat) (ctx : Context)
    (b : BatchQueueManager) :
    ∃ new, (drainQueueLoop fuel ctx b).exported = b.exported ++ new := by
  induction fuel generalizing ctx b with
  | zero => exact ⟨[], by simp [drainQueueLoop]⟩
  | succ fuel ih =>
    simp only [drainQueueLoop]
    split
    · exact ⟨[], by simp⟩
    · split
      · exact doExport_exported_grows b
      · split
        · exact ih _ _
        · rename_i sd rest hq _ hsd
          split
          · obtain ⟨n2, h2⟩ := ih (ctx.after 1)
              (doExport { b with queue := rest, batch := b.batch ++ [sd] })
            obtain ⟨n1, h1⟩ := doExport_exported_grows
              { b with queue := rest, batch := b.batch ++ [sd] }
            exact ⟨n1 ++ n2, by rw [h2, h1]; simp⟩
          · exact ih _ _

theorem Shutdown_exported_grows (ctx : Context) (b : BatchQueueManager) :
    ∃ new, (Shutdown ctx b).1.exported = b.exported ++ new := by
  unfold Shutdown
  split
  · exact ⟨[], by simp⟩
  · have h := drainQueueLoop_exported_grows (b.queue.length + 1) Context.background
      { b with stopOnce := true, stopped := true }
    cases ctx.doneAt with
    | none => exact h
    | some k => simp only []; split <;> exact h

/-- Claim C9: `ForceFlush` on a running manager (with an export function), called with a
context that is not cancelled during the call, returns nil, leaves the channel and the
batch empty, and during the call the export function receives, in order, exactly the
items that were in the batch and in the channel. -/
theorem ForceFlush_exports_everything_pending (b : BatchQueueManager) (ctx : Context)
    (timer : Nat → Bool) (hexp : b.o.exportFunc = true) (hrun : b.stopped = false)
    (hctx : ctx.doneAt = none) :
    (ForceFlush ctx timer b).2 = none ∧
      (ForceFlush ctx timer b).1.queue = [] ∧
      (ForceFlush ctx timer b).1.batch = [] ∧
      ∃ new, (ForceFlush ctx timer b).1.exported = b.exported ++ new ∧
        new.flatten = b.batch ++ b.queue.filter Item.isReal := by
  have hcont := ForceFlush_content ctx timer b hexp
  have hstate : ForceFlush ctx timer b =
      (drainQueue ctx (processQueueSteps timer
        (enqueueBlockOnQueueFull (fun k => timer (k + (b.queue.length + 1))) b .forceFlushSpan).queue.length
        (enqueueBlockOnQueueFull (fun k => timer (k + (b.queue.length + 1))) b .forceFlushSpan)), none) := by
    unfold ForceFlush
    simp [Context.Err, hctx, hrun]
  have hempty := drainQueueLoop_empty
    ((processQueueSteps timer (enqueueBlockOnQueueFull (fun k => timer (k + (b.queue.length + 1))) b .forceFlushSpan).queue.length
        (enqueueBlockOnQueueFull (fun k => timer (k + (b.queue.length + 1))) b .forceFlushSpan)).queue.length + 1) ctx
    (processQueueSteps timer (enqueueBlockOnQueueFull (fun k => timer (k + (b.queue.length + 1))) b .forceFlushSpan).queue.length
        (enqueueBlockOnQueueFull (fun k => timer (k + (b.queue.length + 1))) b .forceFlushSpan)) hctx (Nat.lt_succ_self _)
  have hpre : ∃ new, (ForceFlush ctx timer b).1.exported = b.exported ++ new := by
    rw [hstate]
    obtain ⟨n3, h3⟩ := drainQueueLoop_exported_grows
      ((processQueueSteps timer (enqueueBlockOnQueueFull (fun k => timer (k + (b.queue.length + 1))) b .forceFlushSpan).queue.length
        (enqueueBlockOnQueueFull (fun k => timer (k + (b.queue.length + 1))) b .forceFlushSpan)).queue.length + 1) ctx
      (processQueueSteps timer (enqueueBlockOnQueueFull (fun k => timer (k + (b.queue.length + 1))) b .forceFlushSpan).queue.length
        (enqueueBlockOnQueueFull (fun k => timer (k + (b.queue.length + 1))) b .forceFlushSpan))
    obtain ⟨n2, h2⟩ := processQueueSteps_exported_grows timer
      (enqueueBlockOnQueueFull (fun k => timer (k + (b.queue.length + 1))) b .forceFlushSpan).queue.length
      (enqueueBlockOnQueueFull (fun k => timer (k + (b.queue.length + 1))) b .forceFlushSpan)
    have h1 : ∃ n1, (enqueueBlockOnQueueFull (fun k => timer (k + (b.queue.length + 1))) b .forceFlushSpan).exported
        = b.exported ++ n1 := by
      unfold enqueueBlockOnQueueFull
      simp only [hrun]
      exact processQueueSteps_exported_grows _ _ b
    obtain ⟨n1, h1⟩ := h1
    exact ⟨n1 ++ n2 ++ n3, by
      show (drainQueueLoop _ ctx _).exported = _
      rw [h3, h2, h1]; simp⟩
  have hq : (ForceFlush ctx timer b).1.queue = [] := by rw [hstate]; exact hempty.1
  have hb : (ForceFlush ctx timer b).1.batch = [] := by rw [hstate]; exact hempty.2
  obtain ⟨new, hnew⟩ := hpre
  refine ⟨by rw [hstate], hq, hb, new, hnew, ?_⟩
  simp only [content] at hcont
  rw [hq, hb, hnew] at hcont
  simp only [List.flatten_append, List.append_nil, List.filter_nil, List.append_assoc] at hcont
  exact List.append_cancel_left hcont

theorem ForceFlush_exports_everything_pending_witness :
    twoWaiting.o.exportFunc = true ∧ twoWaiting.stopped = false ∧
      Context.background.doneAt = none ∧
      (ForceFlush Context.background noTimer twoWaiting).2 = none ∧
      (ForceFlush Context.background noTimer twoWaiting).1.queue = [] ∧
      (ForceFlush Context.background noTimer twoWaiting).1.batch = [] :=
  ⟨rfl, rfl, rfl,
    (ForceFlush_exports_everything_pending twoWaiting Context.background noTimer
      rfl rfl rfl).1,
    (ForceFlush_exports_everything_pending twoWaiting Context.background noTimer
      rfl rfl rfl).2.1,
    (ForceFlush_exports_everything_pending twoWaiting Context.background noTimer
      rfl rfl rfl).2.2.1⟩

theorem doExport_of_empty_batch (b : BatchQueueManager) (hb : b.batch = []) :
    doExport b = b := by
  simp [doExport, hb]

/-- A manager that holds no item (empty batch, nothing but sentinels in the channel)
stays so, and exports nothing, when the loop receives. -/
theorem processQueueRecv_idle (b : BatchQueueManager) (hb : b.batch = [])
    (hq : ∀ x ∈ b.queue, x.isReal = false) :
    (processQueueRecv b).exported = b.exported ∧ (processQueueRecv b).batch = [] ∧
      ∀ x ∈ (processQueueRecv b).queue, x.isReal = false := by
  unfold processQueueRecv
  split
  · exact ⟨rfl, hb, hq⟩
  · rename_i sd rest hqe
    have hsd : sd.isReal = false := hq sd (by rw [hqe]; exact List.mem_cons_self _ _)
    have hrest : ∀ x ∈ rest, x.isReal = false :=
      fun x hx => hq x (by rw [hqe]; exact List.mem_cons_of_mem _ hx)
    cases sd <;> first | exact ⟨rfl, hb, hrest⟩ | simp [Item.isReal] at hsd

theorem processQueueSteps_idle (timer : Nat → Bool) (n : Nat) (b : BatchQueueManager)
    (hb : b.batch = []) (hq : ∀ x ∈ b.queue, x.isReal = false) :
    (processQueueSteps timer n b).exported = b.exported ∧
      (processQueueSteps timer n b).batch = [] ∧
      ∀ x ∈ (processQueueSteps timer n b).queue, x.isReal = false := by
  induction n generalizing b with
  | zero => exact ⟨rfl, hb, hq⟩
  | succ n ih =>
    simp only [processQueueSteps, processQueueTimer, doExport_of_empty_batch b hb, ite_self]
    have h1 := processQueueRecv_idle b hb hq
    have h2 := ih (processQueueRecv b) h1.2.1 h1.2.2
    exact ⟨by rw [h2.1, h1.1], h2.2.1, h2.2.2⟩

theorem drainQueueLoop_idle (fuel : Nat) (ctx : Context) (b : BatchQueueManager)
    (hb : b.batch = []) (hq : ∀ x ∈ b.queue, x.isReal = false) :
    (drainQueueLoop fuel ctx b).exported = b.exported := by
  induction fuel generalizing ctx b with
  | zero => rfl
  | succ fuel ih =>
    simp only [drainQueueLoop]
    split
    · rfl
    · split
      · rw [doExport_of_empty_batch b hb]
      · rename_i sd rest hqe
        have hsd : sd.isReal = false := hq sd (by rw [hqe]; exact List.mem_cons_self _ _)
        have hrest : ∀ x ∈ rest, x.isReal = false :=
          fun x hx => hq x (by rw [hqe]; exact List.mem_cons_of_mem _ hx)
        split
        · exact ih _ _ hb hrest
        · rename_i hne
          cases sd <;> first | exact absurd rfl hne | simp [Item.isReal] at hsd

/-- Claim C10: in every state a manager can reach, no batch handed to the export
function (by the timer, a threshold, the drain or a flush) is empty; and `ForceFlush`
on a running manager that holds no item makes no export call, and returns nil when its
context is not cancelled. -/
theorem export_function_never_gets_an_empty_batch (o : batchQueueManagerOptions)
    (ops : List Op) (b : BatchQueueManager) (ctx : Context) (timer : Nat → Bool) :
    (∀ l ∈ (run (newBatchQueueManager o) ops).exported, l ≠ []) ∧
      (b.stopped = false → b.queue = [] → b.batch = [] →
        (ForceFlush ctx timer b).1.exported = b.exported ∧
          (ctx.doneAt = none → (ForceFlush ctx timer b).2 = none)) := by
  refine ⟨(run_invariant ops _ (newBatchQueueManager_invariant o)).exported_nonempty, ?_⟩
  intro hrun hq hb
  have h0 := processQueueSteps_idle (fun k => timer (k + (b.queue.length + 1)))
    (b.queue.length + 1 - b.o.maxQueueLength) b hb
    (by rw [hq]; simp)
  have h1e : (enqueueBlockOnQueueFull (fun k => timer (k + (b.queue.length + 1))) b .forceFlushSpan).exported = b.exported := by
    simp only [enqueueBlockOnQueueFull, hrun]
    exact h0.1
  have h1b : (enqueueBlockOnQueueFull (fun k => timer (k + (b.queue.length + 1))) b .forceFlushSpan).batch = [] := by
    simp only [enqueueBlockOnQueueFull, hrun]
    exact h0.2.1
  have h1q : ∀ x ∈ (enqueueBlockOnQueueFull (fun k => timer (k + (b.queue.length + 1))) b .forceFlushSpan).queue,
      x.isReal = false := by
    simp only [enqueueBlockOnQueueFull, hrun]
    intro x hx
    rcases List.mem_append.mp hx with hx | hx
    · exact h0.2.2 x hx
    · simp only [List.mem_singleton] at hx
      rw [hx]; rfl
  have h2 := fun n => processQueueSteps_idle timer n
    (enqueueBlockOnQueueFull (fun k => timer (k + (b.queue.length + 1))) b .forceFlushSpan) h1b h1q
  refine ⟨?_, ?_⟩
  · unfold ForceFlush
    split
    · rfl
    · simp only [hrun, Bool.false_eq_true, if_false]
      cases ctx.doneAt with
      | none =>
        simp only [drainQueue]
        rw [drainQueueLoop_idle _ _ _ (h2 _).2.1 (h2 _).2.2, (h2 _).1, h1e]
      | some k =>
        simp only []
        split
        · rw [(h2 _).1, h1e]
        · simp only [drainQueue]
          rw [drainQueueLoop_idle _ _ _ (h2 _).2.1 (h2 _).2.2, (h2 _).1, h1e]
  · intro hctx
    unfold ForceFlush
    simp [Context.Err, hctx, hrun]

/-! ## A failed batch in the span-retry queue -/

theorem EnqueueAll_stopOnce (calls : List (Item × Int)) (b : BatchQueueManager) :
    (EnqueueAll b calls).stopOnce = b.stopOnce := by
  induction calls generalizing b with
  | nil => rfl
  | cons c calls ih =>
    have h := ih (Enqueue b c.1 c.2)
    simp only [EnqueueAll, List.foldl_cons] at h ⊢
    rw [h, Enqueue_stopOnce]

/-- The span-retry queue of a fresh processor after a failed export of the span queue:
the fresh retry manager on which every span of the batch has been enqueued. -/
theorem spanQMExport_failure (transfer : List Span → List UploadSpan × List (Option UploadFile))
    (exporter : Exporter) (tsMs : Int) (p : BatchSpanProcessor) (l : List Item)
    (err : String) (hfail : exporter.ExportSpans (transfer (spansOf l)).1 = some err) :
    (p.spanQMExport transfer exporter tsMs l).spanRetryQM
      = EnqueueAll p.spanRetryQM ((spansOf l).map (fun s => (Item.span s, s.bytesSize))) := by
  unfold BatchSpanProcessor.spanQMExport newExportSpansFunc
  simp only [hfail, foldl_Enqueue_spans]
  cases p.spanQM.o.finishEventProcessor <;> rfl

set_option maxRecDepth 100000 in
/-- Claim C5 fails as stated: in the default configuration a full batch of the span
queue holds 100 spans; when its export fails and the span-retry queue receives the 100
spans, its first export call gets the first 50 of them only, a second one the other
50. -/
theorem retry_queue_splits_a_failed_batch :
    fullBatch.length = DefaultMaxExportBatchLength ∧
      (NewBatchSpanProcessor true none).spanQM.o.maxExportBatchLength = fullBatch.length ∧
      failingExporter.ExportSpans (sampleTransfer (spansOf fullBatch)).1
        = some "export spans fail" ∧
      (processQueueSteps noTimer 100
          ((NewBatchSpanProcessor true none).spanQMExport sampleTransfer failingExporter 0
            fullBatch).spanRetryQM).exported
        = [fullBatch.take 50, fullBatch.drop 50] ∧
      (processQueueSteps noTimer 100
          ((NewBatchSpanProcessor true none).spanQMExport sampleTransfer failingExporter 0
            fullBatch).spanRetryQM).exported.head? ≠ some fullBatch := by
  decide

theorem spansOf_map_isReal (spans : List Span) :
    (spans.map Item.span).filter Item.isReal = spans.map Item.span := by
  induction spans with
  | nil => rfl
  | cons s spans ih => simp [Item.isReal, ih]

/-- Claim C5, amended: in the processor built by `NewBatchSpanProcessor` with the
default configuration, whatever the span-retry queue has been through, if it has not
been shut down and its channel has room for the batch when the span queue's export of
that batch fails, then the span-retry queue hands all the spans of the failed batch to
its export function, after the items it already held, in the original order, none
missing and none twice, in batches of at most `MaxRetryExportBatchLength = 50` items
each; this holds however many items the retry loop receives, and whatever its timer
does, before the retry queue is shut down and drained. -/
theorem failed_batch_is_retried_in_bounded_batches
    (transfer : List Span → List UploadSpan × List (Option UploadFile))
    (exporter : Exporter) (finishEventProcessor : Bool) (tsMs : Int) (ops : List Op)
    (l : List Item) (err : String) (timer : Nat → Bool) (n : Nat) (ctx : Context)
    (hfail : exporter.ExportSpans (transfer (spansOf l)).1 = some err)
    (hrun : (run (NewBatchSpanProcessor finishEventProcessor none).spanRetryQM ops).stopOnce
      = false)
    (hroom : (run (NewBatchSpanProcessor finishEventProcessor none).spanRetryQM ops).queue.length
      + (spansOf l).length ≤ DefaultMaxRetryQueueLength) :
    (∃ new,
      (Shutdown ctx (processQueueSteps timer n
        (({ NewBatchSpanProcessor finishEventProcessor none with
            spanRetryQM := run (NewBatchSpanProcessor finishEventProcessor none).spanRetryQM ops }
          : BatchSpanProcessor).spanQMExport transfer exporter tsMs l).spanRetryQM)).1.exported
        = (run (NewBatchSpanProcessor finishEventProcessor none).spanRetryQM ops).exported
          ++ new ∧
      new.flatten
        = (run (NewBatchSpanProcessor finishEventProcessor none).spanRetryQM ops).batch
          ++ (run (NewBatchSpanProcessor finishEventProcessor none).spanRetryQM ops).queue.filter
              Item.isReal
          ++ (spansOf l).map Item.span) ∧
      ∀ batch ∈ (Shutdown ctx (processQueueSteps timer n
          (({ NewBatchSpanProcessor finishEventProcessor none with
              spanRetryQM := run (NewBatchSpanProcessor finishEventProcessor none).spanRetryQM ops }
            : BatchSpanProcessor).spanQMExport transfer exporter tsMs l).spanRetryQM)).1.exported,
        batch ≠ [] ∧ batch.length ≤ MaxRetryExportBatchLength := by
  have hrq := spanQMExport_failure transfer exporter tsMs
    ({ NewBatchSpanProcessor finishEventProcessor none with
        spanRetryQM := run (NewBatchSpanProcessor finishEventProcessor none).spanRetryQM ops }
      : BatchSpanProcessor) l err hfail
  rw [hrq]
  simp only []
  have hinv0 : Invariant (run (NewBatchSpanProcessor finishEventProcessor none).spanRetryQM ops) :=
    run_invariant ops _ (newBatchQueueManager_invariant _)
  have ho0 : (run (NewBatchSpanProcessor finishEventProcessor none).spanRetryQM ops).o
      = (NewBatchSpanProcessor finishEventProcessor none).spanRetryQM.o := by
    clear hrq hinv0 hrun hroom
    induction ops using List.reverseRecOn with
    | nil => rfl
    | append_singleton ops op ih =>
      simp only [run, List.foldl_append, List.foldl_cons, List.foldl_nil] at ih ⊢
      rw [step_o, ih]
  generalize hq0 : run (NewBatchSpanProcessor finishEventProcessor none).spanRetryQM ops = rq0
    at hrun hroom hinv0 ho0 ⊢
  generalize hcalls : (spansOf l).map (fun s => (Item.span s, s.bytesSize)) = calls
  have hcl : calls.length = (spansOf l).length := by rw [← hcalls]; simp
  have hcm : calls.map Prod.fst = (spansOf l).map Item.span := by
    rw [← hcalls]; simp [Function.comp_def]
  have hmaxQ : rq0.o.maxQueueLength = DefaultMaxRetryQueueLength := by rw [ho0]; rfl
  have hmaxB : rq0.o.maxExportBatchLength = MaxRetryExportBatchLength := by rw [ho0]; rfl
  have hexp : rq0.o.exportFunc = true := by rw [ho0]; rfl
  have hstop : rq0.stopped = false := by rw [hinv0.stopped_eq_stopOnce]; exact hrun
  have hfr := EnqueueAll_frame calls rq0
  have hroom2 := EnqueueAll_of_room calls rq0 hstop (by rw [hmaxQ, hcl]; exact hroom)
  have hinv1 : Invariant (EnqueueAll rq0 calls) :=
    InvariantUpTo.frame hinv0 hfr.1 hfr.2.2.2 hfr.2.2.1 (EnqueueAll_stopOnce calls rq0)
      hfr.2.1
  have hcont1 : content (EnqueueAll rq0 calls)
      = rq0.exported.flatten ++ (rq0.batch ++ (rq0.queue.filter Item.isReal
          ++ (spansOf l).map Item.span)) := by
    simp only [content]
    rw [hfr.2.2.2, hfr.2.2.1, hroom2.1, hcm]
    simp [spansOf_map_isReal]
  have hexp1 : (EnqueueAll rq0 calls).o.exportFunc = true := by rw [hfr.1]; exact hexp
  have hcont2 := processQueueSteps_content timer n (EnqueueAll rq0 calls) hexp1
  have hinv2 := processQueueSteps_invariant timer n (EnqueueAll rq0 calls) hinv1
  have hso : (processQueueSteps timer n (EnqueueAll rq0 calls)).stopOnce = false := by
    rw [processQueueSteps_stopOnce, EnqueueAll_stopOnce]; exact hrun
  have hs := Shutdown_first ctx (processQueueSteps timer n (EnqueueAll rq0 calls))
    (by rw [processQueueSteps_o]; exact hexp1) hso
  have hinv3 := Shutdown_invariant ctx _ hinv2
  have ho3 : (Shutdown ctx (processQueueSteps timer n (EnqueueAll rq0 calls))).1.o.maxExportBatchLength
      = MaxRetryExportBatchLength := by
    rw [Shutdown_o, processQueueSteps_o, hfr.1, hmaxB]
  have hgrow : ∃ new, (Shutdown ctx (processQueueSteps timer n
      (EnqueueAll rq0 calls))).1.exported = rq0.exported ++ new := by
    obtain ⟨n1, h1⟩ := processQueueSteps_exported_grows timer n (EnqueueAll rq0 calls)
    obtain ⟨n2, h2⟩ := Shutdown_exported_grows ctx
      (processQueueSteps timer n (EnqueueAll rq0 calls))
    exact ⟨n1 ++ n2, by rw [h2, h1, hfr.2.2.2]; simp⟩
  obtain ⟨new, hnew⟩ := hgrow
  refine ⟨⟨new, hnew, ?_⟩, fun batch hb => ⟨hinv3.exported_nonempty batch hb, ?_⟩⟩
  · have hflat := hs.2.2
    rw [hcont2, hcont1, hnew, List.flatten_append] at hflat
    have := List.append_cancel_left hflat
    rw [this]; simp
  · have := hinv3.exported_bounded (by rw [ho3]; decide) batch hb
    rw [ho3] at this
    exact this

theorem failed_batch_is_retried_in_bounded_batches_witness :
    failingExporter.ExportSpans (sampleTransfer (spansOf fullBatch)).1
        = some "export spans fail" ∧
      (run (NewBatchSpanProcessor true none).spanRetryQM []).stopOnce = false ∧
      (run (NewBatchSpanProcessor true none).spanRetryQM []).queue.length
        + (spansOf fullBatch).length ≤ DefaultMaxRetryQueueLength ∧
      ∀ batch ∈ (Shutdown Context.background (processQueueSteps noTimer 100
          (({ NewBatchSpanProcessor true none with
              spanRetryQM := run (NewBatchSpanProcessor true none).spanRetryQM [] }
            : BatchSpanProcessor).spanQMExport sampleTransfer failingExporter 0
              fullBatch).spanRetryQM)).1.exported,
        batch ≠ [] ∧ batch.length ≤ MaxRetryExportBatchLength :=
  ⟨rfl, rfl, by decide,
    (failed_batch_is_retried_in_bounded_batches sampleTransfer failingExporter true 0 []
      fullBatch "export spans fail" noTimer 100 Context.background rfl rfl (by decide)).2⟩

/-! ## `Shutdown` called again -/

/-- Claim C11: `Shutdown` is idempotent.  In every state a manager can reach, the first
call (the one that finds `stopOnce` unused) marks the manager stopped and drains it:
channel and batch end empty.  Every later call, whatever its context and whatever
happened in between, returns nil and leaves the state exactly as the first call left
it, so it triggers no export. -/
theorem Shutdown_is_idempotent (o : batchQueueManagerOptions) (ops later : List Op)
    (ctx1 ctx2 : Context) :
    ((run (newBatchQueueManager o) ops).stopOnce = false →
        (Shutdown ctx1 (run (newBatchQueueManager o) ops)).1.stopped = true ∧
        (Shutdown ctx1 (run (newBatchQueueManager o) ops)).1.stopOnce = true ∧
        (Shutdown ctx1 (run (newBatchQueueManager o) ops)).1.queue = [] ∧
        (Shutdown ctx1 (run (newBatchQueueManager o) ops)).1.batch = []) ∧
      Shutdown ctx2 (Shutdown ctx1 (run (newBatchQueueManager o) ops)).1
        = ((Shutdown ctx1 (run (newBatchQueueManager o) ops)).1, none) ∧
      Shutdown ctx2 (run (Shutdown ctx1 (run (newBatchQueueManager o) ops)).1 later)
        = ((Shutdown ctx1 (run (newBatchQueueManager o) ops)).1, none) := by
  have hinv := run_invariant ops _ (newBatchQueueManager_invariant o)
  have hs := Shutdown_stopped ctx1 (run (newBatchQueueManager o) ops)
    (fun h => by rw [hinv.stopped_eq_stopOnce]; exact h)
  have ho := Shutdown_stopOnce ctx1 (run (newBatchQueueManager o) ops)
  have hagain : Shutdown ctx2 (Shutdown ctx1 (run (newBatchQueueManager o) ops)).1
      = ((Shutdown ctx1 (run (newBatchQueueManager o) ops)).1, none) := by
    generalize (Shutdown ctx1 (run (newBatchQueueManager o) ops)).1 = s at ho
    simp [Shutdown, ho]
  refine ⟨fun hfirst => ⟨hs, ho, ?_, ?_⟩, hagain, ?_⟩
  · have hstate : (Shutdown ctx1 (run (newBatchQueueManager o) ops)).1 =
        drainQueue Context.background
          { run (newBatchQueueManager o) ops with stopOnce := true, stopped := true } := by
      unfold Shutdown
      simp only [hfirst, Bool.false_eq_true, if_false]
      cases ctx1.doneAt with
      | none => rfl
      | some k => simp only []; split <;> rfl
    rw [hstate]
    exact (drainQueueLoop_empty _ Context.background _ rfl (Nat.lt_succ_self _)).1
  · have hstate : (Shutdown ctx1 (run (newBatchQueueManager o) ops)).1 =
        drainQueue Context.background
          { run (newBatchQueueManager o) ops with stopOnce := true, stopped := true } := by
      unfold Shutdown
      simp only [hfirst, Bool.false_eq_true, if_false]
      cases ctx1.doneAt with
      | none => rfl
      | some k => simp only []; split <;> rfl
    rw [hstate]
    exact (drainQueueLoop_empty _ Context.background _ rfl (Nat.lt_succ_self _)).2
  · rw [run_of_stopped later _ hs ho]
    exact hagain

/-! ## `ForceFlush` and cancellation -/

/-- Where `ForceFlush` does return the context error: when the context is already done
at the call (nothing is sent, received or exported), and when it becomes done while the
sentinel is awaited. -/
theorem ForceFlush_cancelled_before_drain (ctx : Context) (timer : Nat → Bool)
    (b : BatchQueueManager) :
    (ctx.doneAt = some 0 → ForceFlush ctx timer b = (b, some ctx.err)) ∧
      (∀ k, b.stopped = false → ctx.doneAt = some (k + 1) →
        k + 1 ≤ (enqueueBlockOnQueueFull (fun i => timer (i + (b.queue.length + 1))) b
          .forceFlushSpan).queue.length →
        (ForceFlush ctx timer b).2 = some ctx.err) := by
  refine ⟨fun h0 => ?_, fun k hrun hk hle => ?_⟩
  · simp [ForceFlush, Context.Err, h0]
  · unfold ForceFlush
    simp only [Context.Err, hk, hrun]
    simp [hle]

/-- Where it does not: when the context becomes done after the sentinel has been
acknowledged, the drain returns at once and `ForceFlush` returns nil. -/
theorem ForceFlush_cancelled_in_drain (ctx : Context) (timer : Nat → Bool)
    (b : BatchQueueManager) (k : Nat) (hrun : b.stopped = false)
    (hk : ctx.doneAt = some (k + 1))
    (hlt : (enqueueBlockOnQueueFull (fun i => timer (i + (b.queue.length + 1))) b
      .forceFlushSpan).queue.length < k + 1) :
    (ForceFlush ctx timer b).2 = none := by
  unfold ForceFlush
  simp only [Context.Err, hk, hrun]
  simp [Nat.not_le.mpr hlt]

/-- Claim C13, at the failing input: a span waits in the channel of a running manager
and the context of `ForceFlush` is cancelled once the loop has acknowledged the
sentinel.  The context is not done at the call, it is done when the drain starts; the
drain leaves at once, the span stays unexported in the batch, and `ForceFlush` returns
nil instead of the context error. -/
theorem ForceFlush_returns_nil_when_cancelled_in_drain :
    oneWaiting.stopped = false ∧
      oneWaiting.queue = [.span (sampleSpan 1 1)] ∧
      cancelledInDrain.Err = none ∧
      (cancelledInDrain.after 3).Err = some CtxError.Canceled ∧
      (ForceFlush cancelledInDrain noTimer oneWaiting).2 = none ∧
      (ForceFlush cancelledInDrain noTimer oneWaiting).1.batch = [.span (sampleSpan 1 1)] ∧
      (ForceFlush cancelledInDrain noTimer oneWaiting).1.exported = [] := by
  decide

/-! ## `Shutdown` and `ForceFlush` of the processor -/

/-- Claim C12 fails as stated: on a fresh default processor, `Shutdown` and `ForceFlush`
called with a cancelled context return the error of the span queue, the first one
called, and no other queue receives the call: after `Shutdown` the span-retry, file and
file-retry managers are still running and the processor is not marked stopped. -/
theorem processor_stops_at_the_first_error :
    ((NewBatchSpanProcessor true none).Shutdown sampleEnv cancelledContext).err
        = some CtxError.Canceled ∧
      ((NewBatchSpanProcessor true none).Shutdown sampleEnv cancelledContext).called
        = [(QueueId.span, some CtxError.Canceled)] ∧
      ((NewBatchSpanProcessor true none).Shutdown sampleEnv cancelledContext).p.spanQM.stopped
        = true ∧
      ((NewBatchSpanProcessor true none).Shutdown sampleEnv
        cancelledContext).p.spanRetryQM.stopped = false ∧
      ((NewBatchSpanProcessor true none).Shutdown sampleEnv cancelledContext).p.fileQM.stopped
        = false ∧
      ((NewBatchSpanProcessor true none).Shutdown sampleEnv
        cancelledContext).p.fileRetryQM.stopped = false ∧
      ((NewBatchSpanProcessor true none).Shutdown sampleEnv cancelledContext).p.stopped
        = false ∧
      ((NewBatchSpanProcessor true none).ForceFlush sampleEnv cancelledContext noTimer).err
        = some CtxError.Canceled ∧
      ((NewBatchSpanProcessor true none).ForceFlush sampleEnv cancelledContext noTimer).called
        = [(QueueId.span, some CtxError.Canceled)] := by
  decide

theorem exportOf_stopOnce (env : ExportEnv) (p : BatchSpanProcessor) (q q2 : QueueId)
    (l : List Item) :
    ((p.exportOf env q l).get q2).stopOnce = (p.get q2).stopOnce := by
  cases q with
  | span =>
    simp only [BatchSpanProcessor.exportOf, BatchSpanProcessor.spanQMExport,
      newExportSpansFunc]
    cases env.exporter.ExportSpans
        (env.transferToUploadSpanAndFile (spansOf l)).1 with
    | some err =>
      simp only [foldl_Enqueue_spans]
      cases p.spanQM.o.finishEventProcessor <;> cases q2 <;>
        simp [BatchSpanProcessor.get, EnqueueAll_stopOnce]
    | none =>
      simp only [foldl_Enqueue_uploadFiles]
      cases p.spanQM.o.finishEventProcessor <;> cases q2 <;>
        simp [BatchSpanProcessor.get, EnqueueAll_stopOnce]
  | spanRetry =>
    simp only [BatchSpanProcessor.exportOf, BatchSpanProcessor.spanRetryQMExport,
      newExportSpansFunc]
    cases env.exporter.ExportSpans
        (env.transferToUploadSpanAndFile (spansOf l)).1 with
    | some err =>
      cases p.spanRetryQM.o.finishEventProcessor <;> cases q2 <;>
        simp [BatchSpanProcessor.get]
    | none =>
      simp only [foldl_Enqueue_uploadFiles]
      cases p.spanRetryQM.o.finishEventProcessor <;> cases q2 <;>
        simp [BatchSpanProcessor.get, EnqueueAll_stopOnce]
  | file =>
    simp only [BatchSpanProcessor.exportOf, BatchSpanProcessor.fileQMExport,
      newExportFilesFunc]
    cases env.exporter.ExportFiles (filesOf l) with
    | some err =>
      simp only [foldl_Enqueue_files]
      cases p.fileQM.o.finishEventProcessor <;> cases q2 <;>
        simp [BatchSpanProcessor.get, EnqueueAll_stopOnce]
    | none =>
      cases p.fileQM.o.finishEventProcessor <;> cases q2 <;>
        simp [BatchSpanProcessor.get]
  | fileRetry =>
    simp only [BatchSpanProcessor.exportOf, BatchSpanProcessor.fileRetryQMExport]
    cases q2 <;> simp [BatchSpanProcessor.get]

theorem set_get (p : BatchSpanProcessor) (q q2 : QueueId) (b : BatchQueueManager) :
    (p.set q b).get q2 = if q2 = q then b else p.get q2 := by
  cases q <;> cases q2 <;> simp [BatchSpanProcessor.set, BatchSpanProcessor.get]

theorem route_stopOnce (env : ExportEnv) (q q2 : QueueId) (batches : List (List Item))
    (p : BatchSpanProcessor) :
    ((batches.foldl (fun p2 l => p2.exportOf env q l) p).get q2).stopOnce
      = (p.get q2).stopOnce := by
  induction batches generalizing p with
  | nil => rfl
  | cons l batches ih =>
    simp only [List.foldl_cons]
    rw [ih, exportOf_stopOnce]

/-- A method called on one queue of the processor: that queue gets the flag the method
leaves, the other queues keep theirs. -/
theorem call_stopOnce (env : ExportEnv) (p : BatchSpanProcessor) (q q2 : QueueId)
    (method : BatchQueueManager → BatchQueueManager × Option CtxError) :
    ((p.call env q method).1.get q2).stopOnce
      = if q2 = q then (method (p.get q)).1.stopOnce else (p.get q2).stopOnce := by
  simp only [BatchSpanProcessor.call]
  rw [route_stopOnce, set_get]
  split <;> rfl

theorem Shutdown_wellFormed (env : ExportEnv) (ctx : Context) (p : BatchSpanProcessor) :
    (p.Shutdown env ctx).WellFormed := by
  unfold BatchSpanProcessor.Shutdown
  simp only []
  split
  · exact ⟨⟨[.spanRetry, .file, .fileRetry], rfl⟩, by simp, by simp, by simp⟩
  · split
    · exact ⟨⟨[.file, .fileRetry], rfl⟩, by simp, by simp, by simp⟩
    · split
      · exact ⟨⟨[.fileRetry], rfl⟩, by simp, by simp, by simp⟩
      · split
        · exact ⟨⟨[], rfl⟩, by simp, by simp, by simp⟩
        · exact ⟨⟨[], rfl⟩, by simp, by simp, fun _ => rfl⟩

theorem ForceFlush_wellFormed (env : ExportEnv) (ctx : Context) (timer : Nat → Bool)
    (p : BatchSpanProcessor) : (p.ForceFlush env ctx timer).WellFormed := by
  unfold BatchSpanProcessor.ForceFlush
  simp only []
  split
  · exact ⟨⟨[.spanRetry, .file, .fileRetry], rfl⟩, by simp, by simp, by simp⟩
  · split
    · exact ⟨⟨[.file, .fileRetry], rfl⟩, by simp, by simp, by simp⟩
    · split
      · exact ⟨⟨[.fileRetry], rfl⟩, by simp, by simp, by simp⟩
      · split
        · exact ⟨⟨[], rfl⟩, by simp, by simp, by simp⟩
        · exact ⟨⟨[], rfl⟩, by simp, by simp, fun _ => rfl⟩

theorem call_Shutdown_stopOnce (env : ExportEnv) (ctx : Context) (p : BatchSpanProcessor)
    (q q2 : QueueId) :
    ((p.call env q (CozeLoop.Shutdown ctx)).1.get q2).stopOnce
      = if q2 = q then true else (p.get q2).stopOnce := by
  rw [call_stopOnce, Shutdown_stopOnce]

/-- What `Shutdown` of the processor does to the managers: when it returns nil, all four
have been shut down and the processor is marked stopped; a queue that was not called is
as far from shut down as before. -/
theorem Shutdown_processor_flags (env : ExportEnv) (ctx : Context) (p : BatchSpanProcessor) :
    ((p.Shutdown env ctx).err = none →
        (p.Shutdown env ctx).p.stopped = true ∧
        ∀ q, ((p.Shutdown env ctx).p.get q).stopOnce = true) ∧
      (∀ q, q ∉ (p.Shutdown env ctx).called.map Prod.fst →
        ((p.Shutdown env ctx).p.get q).stopOnce = (p.get q).stopOnce) := by
  unfold BatchSpanProcessor.Shutdown
  simp only []
  split
  · refine ⟨fun h => by simp at h, fun q hq => ?_⟩
    rw [call_Shutdown_stopOnce]
    cases q <;> simp at hq ⊢
  · split
    · refine ⟨fun h => by simp at h, fun q hq => ?_⟩
      rw [call_Shutdown_stopOnce, call_Shutdown_stopOnce]
      cases q <;> simp at hq ⊢
    · split
      · refine ⟨fun h => by simp at h, fun q hq => ?_⟩
        rw [call_Shutdown_stopOnce, call_Shutdown_stopOnce, call_Shutdown_stopOnce]
        cases q <;> simp at hq ⊢
      · split
        · refine ⟨fun h => by simp at h, fun q hq => ?_⟩
          cases q <;> simp at hq
        · refine ⟨fun _ => ⟨rfl, fun q => ?_⟩, fun q hq => ?_⟩
          · have hget : ∀ (r : BatchSpanProcessor),
                ({ r with stopped := true } : BatchSpanProcessor).get q = r.get q := by
              intro r; cases q <;> rfl
            rw [hget, call_Shutdown_stopOnce, call_Shutdown_stopOnce,
              call_Shutdown_stopOnce, call_Shutdown_stopOnce]
            cases q <;> simp
          · cases q <;> simp at hq

theorem EnqueueAll_stopped (calls : List (Item × Int)) (b : BatchQueueManager) :
    (EnqueueAll b calls).stopped = b.stopped := (EnqueueAll_frame calls b).2.1

theorem EnqueueAll_batch (calls : List (Item × Int)) (b : BatchQueueManager) :
    (EnqueueAll b calls).batch = b.batch := (EnqueueAll_frame calls b).2.2.1

theorem EnqueueAll_exported (calls : List (Item × Int)) (b : BatchQueueManager) :
    (EnqueueAll b calls).exported = b.exported := (EnqueueAll_frame calls b).2.2.2

/-- An export function leaves alone the flag of the processor and, in every manager,
the flags, the batch and the recorded exports: all it does to a queue is `Enqueue`. -/
theorem exportOf_frame (env : ExportEnv) (p : BatchSpanProcessor) (q q2 : QueueId)
    (l : List Item) :
    (p.exportOf env q l).stopped = p.stopped ∧
      ((p.exportOf env q l).get q2).stopped = (p.get q2).stopped ∧
      ((p.exportOf env q l).get q2).batch = (p.get q2).batch ∧
      ((p.exportOf env q l).get q2).exported = (p.get q2).exported := by
  cases q with
  | span =>
    simp only [BatchSpanProcessor.exportOf, BatchSpanProcessor.spanQMExport,
      newExportSpansFunc]
    cases env.exporter.ExportSpans
        (env.transferToUploadSpanAndFile (spansOf l)).1 with
    | some err =>
      simp only [foldl_Enqueue_spans]
      cases p.spanQM.o.finishEventProcessor <;> cases q2 <;>
        simp [BatchSpanProcessor.get, EnqueueAll_stopped, EnqueueAll_batch,
          EnqueueAll_exported]
    | none =>
      simp only [foldl_Enqueue_uploadFiles]
      cases p.spanQM.o.finishEventProcessor <;> cases q2 <;>
        simp [BatchSpanProcessor.get, EnqueueAll_stopped, EnqueueAll_batch,
          EnqueueAll_exported]
  | spanRetry =>
    simp only [BatchSpanProcessor.exportOf, BatchSpanProcessor.spanRetryQMExport,
      newExportSpansFunc]
    cases env.exporter.ExportSpans
        (env.transferToUploadSpanAndFile (spansOf l)).1 with
    | some err =>
      cases p.spanRetryQM.o.finishEventProcessor <;> cases q2 <;>
        simp [BatchSpanProcessor.get]
    | none =>
      simp only [foldl_Enqueue_uploadFiles]
      cases p.spanRetryQM.o.finishEventProcessor <;> cases q2 <;>
        simp [BatchSpanProcessor.get, EnqueueAll_stopped, EnqueueAll_batch,
          EnqueueAll_exported]
  | file =>
    simp only [BatchSpanProcessor.exportOf, BatchSpanProcessor.fileQMExport,
      newExportFilesFunc]
    cases env.exporter.ExportFiles (filesOf l) with
    | some err =>
      simp only [foldl_Enqueue_files]
      cases p.fileQM.o.finishEventProcessor <;> cases q2 <;>
        simp [BatchSpanProcessor.get, EnqueueAll_stopped, EnqueueAll_batch,
          EnqueueAll_exported]
    | none =>
      cases p.fileQM.o.finishEventProcessor <;> cases q2 <;>
        simp [BatchSpanProcessor.get]
  | fileRetry =>
    simp only [BatchSpanProcessor.exportOf, BatchSpanProcessor.fileRetryQMExport]
    cases q2 <;> simp [BatchSpanProcessor.get]

/-- An export function touches only the queues that come later in the order. -/
theorem exportOf_get_of_rank (env : ExportEnv) (p : BatchSpanProcessor) (q q2 : QueueId)
    (l : List Item) (h : q2.rank ≤ q.rank) : (p.exportOf env q l).get q2 = p.get q2 := by
  cases q <;> cases q2 <;> simp only [QueueId.rank] at h <;>
    first
    | omega
    | simp only [BatchSpanProcessor.exportOf, BatchSpanProcessor.spanQMExport,
        BatchSpanProcessor.spanRetryQMExport, BatchSpanProcessor.fileQMExport,
        BatchSpanProcessor.fileRetryQMExport, BatchSpanProcessor.get]

theorem route_frame (env : ExportEnv) (q q2 : QueueId) (batches : List (List Item))
    (p : BatchSpanProcessor) :
    (batches.foldl (fun p2 l => p2.exportOf env q l) p).stopped = p.stopped ∧
      ((batches.foldl (fun p2 l => p2.exportOf env q l) p).get q2).stopped
        = (p.get q2).stopped ∧
      ((batches.foldl (fun p2 l => p2.exportOf env q l) p).get q2).batch
        = (p.get q2).batch ∧
      ((batches.foldl (fun p2 l => p2.exportOf env q l) p).get q2).exported
        = (p.get q2).exported := by
  induction batches generalizing p with
  | nil => exact ⟨rfl, rfl, rfl, rfl⟩
  | cons l batches ih =>
    simp only [List.foldl_cons]
    have h := ih (p.exportOf env q l)
    have hf := exportOf_frame env p q q2 l
    exact ⟨h.1.trans hf.1, h.2.1.trans hf.2.1, h.2.2.1.trans hf.2.2.1,
      h.2.2.2.trans hf.2.2.2⟩

theorem route_get_of_rank (env : ExportEnv) (q q2 : QueueId) (batches : List (List Item))
    (p : BatchSpanProcessor) (h : q2.rank ≤ q.rank) :
    (batches.foldl (fun p2 l => p2.exportOf env q l) p).get q2 = p.get q2 := by
  induction batches generalizing p with
  | nil => rfl
  | cons l batches ih =>
    simp only [List.foldl_cons]
    rw [ih, exportOf_get_of_rank env p q q2 l h]

theorem set_stopped (p : BatchSpanProcessor) (q : QueueId) (b : BatchQueueManager) :
    (p.set q b).stopped = p.stopped := by
  cases q <;> rfl

/-- A method called on one queue of the processor: the result is the one of the method;
that queue is left as the method leaves it and the queues before it are untouched; in
the other queues the flags, the batch and the recorded exports are as before; the flag
of the processor is as before. -/
theorem call_frame (env : ExportEnv) (p : BatchSpanProcessor) (q q2 : QueueId)
    (method : BatchQueueManager → BatchQueueManager × Option CtxError) :
    (p.call env q method).2 = (method (p.get q)).2 ∧
      (p.call env q method).1.stopped = p.stopped ∧
      (p.call env q method).1.get q = (method (p.get q)).1 ∧
      (q2.rank < q.rank → (p.call env q method).1.get q2 = p.get q2) ∧
      (q2 ≠ q →
        ((p.call env q method).1.get q2).stopped = (p.get q2).stopped ∧
        ((p.call env q method).1.get q2).stopOnce = (p.get q2).stopOnce ∧
        ((p.call env q method).1.get q2).batch = (p.get q2).batch ∧
        ((p.call env q method).1.get q2).exported = (p.get q2).exported) := by
  refine ⟨rfl, ?_, ?_, ?_, ?_⟩
  · simp only [BatchSpanProcessor.call]
    rw [(route_frame env q q _ _).1, set_stopped]
  · simp only [BatchSpanProcessor.call]
    rw [route_get_of_rank env q q _ _ (Nat.le_refl _), set_get]
    simp
  · intro hlt
    have hne : q2 ≠ q := by
      intro h; subst h; exact Nat.lt_irrefl _ hlt
    simp only [BatchSpanProcessor.call]
    rw [route_get_of_rank env q q2 _ _ (Nat.le_of_lt hlt), set_get]
    simp [hne]
  · intro hne
    have hso := call_stopOnce env p q q2 method
    simp only [hne, if_false] at hso
    simp only [BatchSpanProcessor.call]
    have hf := route_frame env q q2 (newlyExported (p.get q) (method (p.get q)).1)
      (p.set q (method (p.get q)).1)
    have hset : (p.set q (method (p.get q)).1).get q2 = p.get q2 := by
      rw [set_get]; simp [hne]
    rw [hset] at hf
    exact ⟨hf.2.1, hso, hf.2.2.1, hf.2.2.2⟩

theorem callUntilError_stopped (env : ExportEnv)
    (method : Context → BatchQueueManager → BatchQueueManager × Option CtxError)
    (points : BatchQueueManager → Nat) (qs : List QueueId) (ctx : Context)
    (p : BatchSpanProcessor) :
    (callUntilError env method points qs ctx p).p.stopped = p.stopped := by
  induction qs generalizing ctx p with
  | nil => rfl
  | cons q rest ih =>
    simp only [callUntilError]
    split
    · exact (call_frame env p q q (method ctx)).2.1
    · simp only []
      rw [ih]
      exact (call_frame env p q q (method ctx)).2.1

/-- A queue that the loop has not called: its flags, its batch and its recorded exports
are as before. -/
theorem callUntilError_not_called (env : ExportEnv)
    (method : Context → BatchQueueManager → BatchQueueManager × Option CtxError)
    (points : BatchQueueManager → Nat) (qs : List QueueId) (ctx : Context)
    (p : BatchSpanProcessor) (q : QueueId)
    (hq : q ∉ (callUntilError env method points qs ctx p).called.map Prod.fst) :
    ((callUntilError env method points qs ctx p).p.get q).stopped = (p.get q).stopped ∧
      ((callUntilError env method points qs ctx p).p.get q).stopOnce
        = (p.get q).stopOnce ∧
      ((callUntilError env method points qs ctx p).p.get q).batch = (p.get q).batch ∧
      ((callUntilError env method points qs ctx p).p.get q).exported
        = (p.get q).exported := by
  induction qs generalizing ctx p with
  | nil => exact ⟨rfl, rfl, rfl, rfl⟩
  | cons q1 rest ih =>
    simp only [callUntilError] at hq ⊢
    split at hq
    · rename_i err herr
      simp only [herr]
      have hne : q ≠ q1 := by
        intro h; apply hq; simp [h]
      exact (call_frame env p q1 q (method ctx)).2.2.2.2 hne
    · rename_i herr
      simp only [herr]
      simp only [List.map_cons, List.mem_cons, not_or] at hq
      have h1 := ih (ctx.after (points (p.get q1))) (p.call env q1 (method ctx)).1 hq.2
      have h2 := (call_frame env p q1 q (method ctx)).2.2.2.2 hq.1
      exact ⟨h1.1.trans h2.1, h1.2.1.trans h2.2.1, h1.2.2.1.trans h2.2.2.1,
        h1.2.2.2.trans h2.2.2.2⟩

/-- The loop calls the first queues of its list: every call but the last returned nil,
the error is what the last call returned, and without error every queue is called. -/
theorem callUntilError_called (env : ExportEnv)
    (method : Context → BatchQueueManager → BatchQueueManager × Option CtxError)
    (points : BatchQueueManager → Nat) (qs : List QueueId) (ctx : Context)
    (p : BatchSpanProcessor) :
    (∃ rest, (callUntilError env method points qs ctx p).called.map Prod.fst ++ rest = qs) ∧
      (∀ c ∈ (callUntilError env method points qs ctx p).called.dropLast, c.2 = none) ∧
      ((callUntilError env method points qs ctx p).err = none →
        (callUntilError env method points qs ctx p).called.map Prod.fst = qs) ∧
      (∀ e, (callUntilError env method points qs ctx p).err = some e →
        (callUntilError env method points qs ctx p).called.getLast?.map Prod.snd
          = some (some e)) := by
  induction qs generalizing ctx p with
  | nil => simp [callUntilError]
  | cons q rest ih =>
    simp only [callUntilError]
    split
    · rename_i err herr
      exact ⟨⟨rest, rfl⟩, by simp, by simp, by simp⟩
    · rename_i herr
      obtain ⟨⟨tl, htl⟩, hnil, hall, hlast⟩ :=
        ih (ctx.after (points (p.get q))) (p.call env q (method ctx)).1
      refine ⟨⟨tl, by simp [htl]⟩, ?_, ?_, ?_⟩
      · intro c hc
        cases hcalled : (callUntilError env method points rest
            (ctx.after (points (p.get q))) (p.call env q (method ctx)).1).called with
        | nil => simp [hcalled] at hc
        | cons c2 cs =>
          simp only [hcalled, List.dropLast_cons₂, List.mem_cons] at hc
          rcases hc with rfl | hc
          · rfl
          · exact hnil c (by rw [hcalled]; exact hc)
      · intro herr2
        simp [hall herr2]
      · intro e he
        have h := hlast e he
        cases hcalled : (callUntilError env method points rest
            (ctx.after (points (p.get q))) (p.call env q (method ctx)).1).called with
        | nil => simp [hcalled] at h
        | cons c2 cs =>
          rw [hcalled] at h
          simpa [List.getLast?_cons_cons] using h

/-- Every queue on which the loop has called `Shutdown` has run its `stopOnce`. -/
theorem callUntilError_Shutdown_called (env : ExportEnv) (qs : List QueueId) (ctx : Context)
    (p : BatchSpanProcessor) (q : QueueId)
    (hq : q ∈ (callUntilError env CozeLoop.Shutdown ShutdownPoints qs ctx p).called.map
      Prod.fst) :
    ((callUntilError env CozeLoop.Shutdown ShutdownPoints qs ctx p).p.get q).stopOnce
      = true := by
  induction qs generalizing ctx p with
  | nil => simp [callUntilError] at hq
  | cons q1 rest ih =>
    have hself : ((p.call env q1 (CozeLoop.Shutdown ctx)).1.get q1).stopOnce = true := by
      rw [(call_frame env p q1 q1 (CozeLoop.Shutdown ctx)).2.2.1, Shutdown_stopOnce]
    simp only [callUntilError] at hq ⊢
    split at hq
    · rename_i err herr
      simp only [herr]
      simp only [List.map_cons, List.map_nil, List.mem_singleton] at hq
      rw [hq]
      exact hself
    · rename_i herr
      simp only [herr]
      simp only [List.map_cons, List.mem_cons] at hq
      by_cases hin : q ∈ (callUntilError env CozeLoop.Shutdown ShutdownPoints rest
          (ctx.after (ShutdownPoints (p.get q1)))
          (p.call env q1 (CozeLoop.Shutdown ctx)).1).called.map Prod.fst
      · exact ih _ _ hin
      · have hq1 : q = q1 := by
          rcases hq with hq | hq
          · exact hq
          · exact absurd hq hin
        rw [(callUntilError_not_called env CozeLoop.Shutdown ShutdownPoints rest _ _ q
          hin).2.1, hq1]
        exact hself

theorem ForceFlush_empties (ctx : Context) (timer : Nat → Bool) (b : BatchQueueManager)
    (hrun : b.stopped = false) (hctx : ctx.doneAt = none) :
    (ForceFlush ctx timer b).2 = none ∧ (ForceFlush ctx timer b).1.queue = [] ∧
      (ForceFlush ctx timer b).1.batch = [] := by
  have hstate : ForceFlush ctx timer b =
      (drainQueue ctx (processQueueSteps timer
        (enqueueBlockOnQueueFull (fun k => timer (k + (b.queue.length + 1))) b
          .forceFlushSpan).queue.length
        (enqueueBlockOnQueueFull (fun k => timer (k + (b.queue.length + 1))) b
          .forceFlushSpan)), none) := by
    unfold ForceFlush
    simp [Context.Err, hctx, hrun]
  have hempty := drainQueueLoop_empty
    ((processQueueSteps timer
        (enqueueBlockOnQueueFull (fun k => timer (k + (b.queue.length + 1))) b
          .forceFlushSpan).queue.length
        (enqueueBlockOnQueueFull (fun k => timer (k + (b.queue.length + 1))) b
          .forceFlushSpan)).queue.length + 1) ctx
    (processQueueSteps timer
        (enqueueBlockOnQueueFull (fun k => timer (k + (b.queue.length + 1))) b
          .forceFlushSpan).queue.length
        (enqueueBlockOnQueueFull (fun k => timer (k + (b.queue.length + 1))) b
          .forceFlushSpan)) hctx (Nat.lt_succ_self _)
  rw [hstate]
  exact ⟨rfl, hempty.1, hempty.2⟩

/-- With a context that is never done, the loop of `ForceFlush` over queues in
ascending order of a processor whose managers are running returns nil and leaves the
channel and the batch of every queue of the list empty; the queues that come before
all of them are untouched. -/
theorem callUntilError_ForceFlush_empties (env : ExportEnv) (timer : Nat → Bool)
    (qs : List QueueId) (ctx : Context) (p : BatchSpanProcessor)
    (hctx : ctx.doneAt = none) (hrun : ∀ q, (p.get q).stopped = false)
    (hqs : qs.Pairwise (fun a b => a.rank < b.rank)) :
    (callUntilError env (fun c => ForceFlush c timer) (ForceFlushPoints timer) qs ctx p).err
        = none ∧
      (∀ q ∈ qs,
        ((callUntilError env (fun c => ForceFlush c timer) (ForceFlushPoints timer) qs ctx
          p).p.get q).queue = [] ∧
        ((callUntilError env (fun c => ForceFlush c timer) (ForceFlushPoints timer) qs ctx
          p).p.get q).batch = []) ∧
      (∀ q, (∀ q2 ∈ qs, q.rank < q2.rank) →
        (callUntilError env (fun c => ForceFlush c timer) (ForceFlushPoints timer) qs ctx
          p).p.get q = p.get q) := by
  induction qs generalizing ctx p with
  | nil => exact ⟨rfl, fun q hq => by simp at hq, fun q _ => rfl⟩
  | cons q1 rest ih =>
    have hflush := ForceFlush_empties ctx timer (p.get q1) (hrun q1) hctx
    have hcall := call_frame env p q1 q1 (ForceFlush ctx timer)
    have herr : (p.call env q1 (ForceFlush ctx timer)).2 = none := hcall.1.trans hflush.1
    have hafter : (ctx.after (ForceFlushPoints timer (p.get q1))).doneAt = none := by
      simp [Context.after, hctx]
    have hrun1 : ∀ q, ((p.call env q1 (ForceFlush ctx timer)).1.get q).stopped = false := by
      intro q
      by_cases hq : q = q1
      · subst hq
        rw [hcall.2.2.1, ForceFlush_stopped]
        exact hrun q
      · rw [((call_frame env p q1 q (ForceFlush ctx timer)).2.2.2.2 hq).1]
        exact hrun q
    have hpair := List.pairwise_cons.mp hqs
    obtain ⟨h1, h2, h3⟩ := ih (ctx.after (ForceFlushPoints timer (p.get q1)))
      (p.call env q1 (ForceFlush ctx timer)).1 hafter hrun1 hpair.2
    simp only [callUntilError, herr]
    refine ⟨h1, ?_, ?_⟩
    · intro q hq
      rcases List.mem_cons.mp hq with hq | hq
      · subst hq
        rw [h3 q hpair.1, hcall.2.2.1]
        exact ⟨hflush.2.1, hflush.2.2⟩
      · exact h2 q hq
    · intro q hlow
      rw [h3 q (fun q2 hq2 => hlow q2 (List.mem_cons_of_mem _ hq2))]
      exact (call_frame env p q1 q (ForceFlush ctx timer)).2.2.2.1
        (hlow q1 (List.mem_cons_self _ _))

/-- `Shutdown` of the processor is the loop over the four queues in their order; the
processor is marked stopped when the loop ends without error. -/
theorem Shutdown_eq_callUntilError (env : ExportEnv) (ctx : Context)
    (p : BatchSpanProcessor) :
    (p.Shutdown env ctx).err
        = (callUntilError env CozeLoop.Shutdown ShutdownPoints queueOrder ctx p).err ∧
      (p.Shutdown env ctx).called
        = (callUntilError env CozeLoop.Shutdown ShutdownPoints queueOrder ctx p).called ∧
      (p.Shutdown env ctx).p
        = if (callUntilError env CozeLoop.Shutdown ShutdownPoints queueOrder ctx p).err
              = none then
            { (callUntilError env CozeLoop.Shutdown ShutdownPoints queueOrder ctx p).p with
              stopped := true }
          else (callUntilError env CozeLoop.Shutdown ShutdownPoints queueOrder ctx p).p := by
  unfold BatchSpanProcessor.Shutdown
  simp only [queueOrder, callUntilError, BatchSpanProcessor.get]
  split
  · exact ⟨rfl, rfl, by simp⟩
  · split
    · exact ⟨rfl, rfl, by simp⟩
    · split
      · exact ⟨rfl, rfl, by simp⟩
      · split
        · exact ⟨rfl, rfl, by simp⟩
        · exact ⟨rfl, rfl, by simp⟩

/-- `ForceFlush` of the processor is the loop over the four queues in their order. -/
theorem ForceFlush_eq_callUntilError (env : ExportEnv) (ctx : Context)
    (timer : Nat → Bool) (p : BatchSpanProcessor) :
    (p.ForceFlush env ctx timer).err
        = (callUntilError env (fun c => ForceFlush c timer) (ForceFlushPoints timer)
            queueOrder ctx p).err ∧
      (p.ForceFlush env ctx timer).called
        = (callUntilError env (fun c => ForceFlush c timer) (ForceFlushPoints timer)
            queueOrder ctx p).called ∧
      (p.ForceFlush env ctx timer).p
        = (callUntilError env (fun c => ForceFlush c timer) (ForceFlushPoints timer)
            queueOrder ctx p).p := by
  unfold BatchSpanProcessor.ForceFlush
  simp only [queueOrder, callUntilError, BatchSpanProcessor.get]
  split
  · exact ⟨rfl, rfl, by simp [*]⟩
  · split
    · exact ⟨rfl, rfl, by simp [*]⟩
    · split
      · exact ⟨rfl, rfl, by simp [*]⟩
      · split
        · exact ⟨rfl, rfl, by simp [*]⟩
        · exact ⟨rfl, rfl, by simp [*]⟩

theorem get_of_stopped (r : BatchSpanProcessor) (q : QueueId) :
    ({ r with stopped := true } : BatchSpanProcessor).get q = r.get q := by
  cases q <;> rfl

theorem Shutdown_get (env : ExportEnv) (ctx : Context) (p : BatchSpanProcessor)
    (q : QueueId) :
    (p.Shutdown env ctx).p.get q
      = (callUntilError env CozeLoop.Shutdown ShutdownPoints queueOrder ctx p).p.get q := by
  rw [(Shutdown_eq_callUntilError env ctx p).2.2]
  split
  · exact get_of_stopped _ q
  · rfl

/-- Claim C12, amended: `Shutdown` and `ForceFlush` of the processor call the same
operation on the queues in the order span, span-retry, file, file-retry and stop at the
first queue that returns an error: each is the loop `callUntilError` over the four
queues in that order, every earlier call returned nil, that error is the result, and no
remaining queue receives the call.  After `Shutdown` with an error the processor is not
marked stopped, every queue that was called has run its `stopOnce`, and a queue that was
not called has its flags, batch and exports as before (it is still running if it was);
after `ForceFlush` a queue that was not called has its batch and exports as before.
When no queue returns an error all four queues receive the call and the result is nil:
after `Shutdown` the four managers have been shut down and the processor is marked
stopped; after `ForceFlush` with a context that is never done, on running managers, the
channel and the batch of all four queues are empty. -/
theorem processor_calls_the_queues_in_order_up_to_the_first_error (env : ExportEnv)
    (ctx : Context) (timer : Nat → Bool) (p : BatchSpanProcessor) :
    ((p.Shutdown env ctx).err
          = (callUntilError env CozeLoop.Shutdown ShutdownPoints queueOrder ctx p).err ∧
        (p.Shutdown env ctx).called
          = (callUntilError env CozeLoop.Shutdown ShutdownPoints queueOrder ctx p).called ∧
        (p.Shutdown env ctx).p
          = if (callUntilError env CozeLoop.Shutdown ShutdownPoints queueOrder ctx p).err
                = none then
              { (callUntilError env CozeLoop.Shutdown ShutdownPoints queueOrder ctx p).p with
                stopped := true }
            else (callUntilError env CozeLoop.Shutdown ShutdownPoints queueOrder ctx p).p) ∧
      ((p.ForceFlush env ctx timer).err
          = (callUntilError env (fun c => ForceFlush c timer) (ForceFlushPoints timer)
              queueOrder ctx p).err ∧
        (p.ForceFlush env ctx timer).called
          = (callUntilError env (fun c => ForceFlush c timer) (ForceFlushPoints timer)
              queueOrder ctx p).called ∧
        (p.ForceFlush env ctx timer).p
          = (callUntilError env (fun c => ForceFlush c timer) (ForceFlushPoints timer)
              queueOrder ctx p).p) ∧
      (p.Shutdown env ctx).WellFormed ∧ (p.ForceFlush env ctx timer).WellFormed ∧
      ((p.Shutdown env ctx).err = none →
        (p.Shutdown env ctx).p.stopped = true ∧
        ∀ q, ((p.Shutdown env ctx).p.get q).stopOnce = true) ∧
      (∀ q, q ∉ (p.Shutdown env ctx).called.map Prod.fst →
        ((p.Shutdown env ctx).p.get q).stopOnce = (p.get q).stopOnce ∧
        ((p.Shutdown env ctx).p.get q).stopped = (p.get q).stopped ∧
        ((p.Shutdown env ctx).p.get q).batch = (p.get q).batch ∧
        ((p.Shutdown env ctx).p.get q).exported = (p.get q).exported) ∧
      (∀ q, q ∈ (p.Shutdown env ctx).called.map Prod.fst →
        ((p.Shutdown env ctx).p.get q).stopOnce = true) ∧
      (∀ e, (p.Shutdown env ctx).err = some e →
        (p.Shutdown env ctx).p.stopped = p.stopped) ∧
      (p.ForceFlush env ctx timer).p.stopped = p.stopped ∧
      (∀ q, q ∉ (p.ForceFlush env ctx timer).called.map Prod.fst →
        ((p.ForceFlush env ctx timer).p.get q).batch = (p.get q).batch ∧
        ((p.ForceFlush env ctx timer).p.get q).exported = (p.get q).exported ∧
        ((p.ForceFlush env ctx timer).p.get q).stopped = (p.get q).stopped) ∧
      (ctx.doneAt = none → (∀ q, (p.get q).stopped = false) →
        (p.ForceFlush env ctx timer).err = none ∧
        ∀ q, ((p.ForceFlush env ctx timer).p.get q).queue = [] ∧
          ((p.ForceFlush env ctx timer).p.get q).batch = []) := by
  have hS := Shutdown_eq_callUntilError env ctx p
  have hF := ForceFlush_eq_callUntilError env ctx timer p
  refine ⟨hS, hF, Shutdown_wellFormed env ctx p, ForceFlush_wellFormed env ctx timer p,
    (Shutdown_processor_flags env ctx p).1, ?_, ?_, ?_, ?_, ?_, ?_⟩
  · intro q hq
    rw [hS.2.1] at hq
    have h := callUntilError_not_called env CozeLoop.Shutdown ShutdownPoints queueOrder ctx
      p q hq
    rw [Shutdown_get]
    exact ⟨h.2.1, h.1, h.2.2.1, h.2.2.2⟩
  · intro q hq
    rw [hS.2.1] at hq
    rw [Shutdown_get]
    exact callUntilError_Shutdown_called env queueOrder ctx p q hq
  · intro e he
    rw [hS.1] at he
    rw [hS.2.2]
    simp only [he, reduceCtorEq, if_false]
    exact callUntilError_stopped env CozeLoop.Shutdown ShutdownPoints queueOrder ctx p
  · rw [hF.2.2]
    exact callUntilError_stopped env _ _ queueOrder ctx p
  · intro q hq
    rw [hF.2.1] at hq
    have h := callUntilError_not_called env (fun c => ForceFlush c timer)
      (ForceFlushPoints timer) queueOrder ctx p q hq
    rw [hF.2.2]
    exact ⟨h.2.2.1, h.2.2.2, h.1⟩
  · intro hctx hrun
    have h := callUntilError_ForceFlush_empties env timer queueOrder ctx p hctx hrun
      (by simp [queueOrder, QueueId.rank])
    rw [hF.1, hF.2.2]
    refine ⟨h.1, fun q => h.2.1 q ?_⟩
    cases q <;> simp [queueOrder]

theorem processor_calls_the_queues_in_order_up_to_the_first_error_witness :
    Context.background.doneAt = none ∧
      (((NewBatchSpanProcessor true none).OnSpanEnd (sampleSpan 1 1)).get .span).queue
        = [.span (sampleSpan 1 1)] ∧
      (((NewBatchSpanProcessor true none).OnSpanEnd (sampleSpan 1 1)).ForceFlush sampleEnv
        Context.background noTimer).err = none ∧
      (∀ q, ((((NewBatchSpanProcessor true none).OnSpanEnd (sampleSpan 1 1)).ForceFlush
          sampleEnv Context.background noTimer).p.get q).queue = [] ∧
        ((((NewBatchSpanProcessor true none).OnSpanEnd (sampleSpan 1 1)).ForceFlush
          sampleEnv Context.background noTimer).p.get q).batch = []) :=
  ⟨rfl, by decide,
    ((processor_calls_the_queues_in_order_up_to_the_first_error sampleEnv Context.background
      noTimer ((NewBatchSpanProcessor true none).OnSpanEnd (sampleSpan 1 1))).2.2.2.2.2.2.2.2.2.2
        rfl (fun q => by cases q <;> rfl)).1,
    ((processor_calls_the_queues_in_order_up_to_the_first_error sampleEnv Context.background
      noTimer ((NewBatchSpanProcessor true none).OnSpanEnd (sampleSpan 1 1))).2.2.2.2.2.2.2.2.2.2
        rfl (fun q => by cases q <;> rfl)).2⟩

/-! ## Oversized text -/

theorem goLen_textOfLength (n : Nat) : goLen (textOfLength n) = n := by
  have h : (String.mk (List.replicate n 'a')).utf8ByteSize = n := by
    induction n with
    | zero => rfl
    | succ n ih =>
      simp only [List.replicate_succ, String.utf8ByteSize, String.utf8ByteSize.go] at ih ⊢
      rw [ih]; rfl
  simp [goLen, textOfLength, h]

theorem KeyTemplateLargeText_text (traceID spanID tagKey : String) :
    KeyTemplateLargeText traceID spanID tagKey fileTypeText
      = traceID ++ "_" ++ spanID ++ "_" ++ tagKey ++ "_text_large_text" := by
  have h : "_" ++ (fileTypeText ++ "_large_text") = "_text_large_text" := by decide
  simp only [KeyTemplateLargeText, String.append_assoc, h]

/-- Claim C14: for a span with `UltraLargeReport` enabled, `transferText` on a text of
more than 1 MiB (1048576 bytes) returns one file whose `Data` is the whole text, whose
`UploadType` is `UploadTypeLong`, whose `TagKey` is the tag key and whose `TosKey` is
`<traceID>_<spanID>_<tagKey>_text_large_text`; on a text of at most 1 MiB it returns
the text unchanged and no file. -/
theorem transferText_uploads_oversized_text (src : String) (span : Span) (tagKey : String)
    (hflag : span.ultraLargeReport = true) :
    (goLen src > 1048576 →
      (transferText src span tagKey).2
        = some { TosKey := span.TraceID ++ "_" ++ span.SpanID ++ "_" ++ tagKey
                   ++ "_text_large_text",
                 Data := src, UploadType := .UploadTypeLong, TagKey := tagKey, Name := "",
                 FileType := "text", SpaceID := span.SpaceID }) ∧
      (goLen src ≤ 1048576 → transferText src span tagKey = (src, none)) := by
  have hmax : MaxBytesOfOneTagValueOfInputOutput = 1048576 := by decide
  refine ⟨fun hbig => ?_, fun hsmall => ?_⟩
  · have hne : ¬ goLen src = 0 := by omega
    have hgt : goLen src > MaxBytesOfOneTagValueOfInputOutput := by rw [hmax]; exact hbig
    simp only [transferText, hne, hflag, hgt, if_true, if_false, Bool.not_true,
      Bool.false_eq_true, KeyTemplateLargeText_text]
    rfl
  · by_cases h0 : goLen src = 0
    · have hempty : src = "" := by
        have hb : src.utf8ByteSize = 0 := by
          simp only [goLen] at h0
          exact_mod_cast h0
        cases src with
        | mk data =>
          cases data with
          | nil => rfl
          | cons c cs =>
            simp only [String.utf8ByteSize, String.utf8ByteSize.go] at hb
            have := Char.utf8Size_pos c
            omega
      subst hempty
      simp only [transferText, h0, if_true]
    · have hle : ¬ goLen src > MaxBytesOfOneTagValueOfInputOutput := by
        rw [hmax]; omega
      simp [transferText, h0, hflag, hle]

theorem transferText_uploads_oversized_text_witness :
    reportingSpan.ultraLargeReport = true ∧
      goLen (textOfLength 1048577) > 1048576 ∧
      (transferText (textOfLength 1048577) reportingSpan "input").2
        = some { TosKey := reportingSpan.TraceID ++ "_" ++ reportingSpan.SpanID ++ "_"
                   ++ "input" ++ "_text_large_text",
                 Data := textOfLength 1048577, UploadType := .UploadTypeLong,
                 TagKey := "input", Name := "", FileType := "text",
                 SpaceID := reportingSpan.SpaceID } ∧
      transferText "hello" reportingSpan "input" = ("hello", none) :=
  ⟨rfl, by rw [goLen_textOfLength]; norm_num,
    (transferText_uploads_oversized_text (textOfLength 1048577) reportingSpan "input"
      rfl).1 (by rw [goLen_textOfLength]; norm_num),
    (transferText_uploads_oversized_text "hello" reportingSpan "input" rfl).2
      (by decide)⟩

/-! ## `TruncateStringByChar` -/

/-- Claim C15, at the failing input: `TruncateStringByChar("ééé", 2)` is "é", one
character, not the first two characters "éé" of the string: the loop compares the byte
offset of each character (0, 2, 4) with `n`. -/
theorem TruncateStringByChar_counts_bytes :
    "ééé".length = 3 ∧
      TruncateStringByChar "ééé" 2 = "é" ∧
      String.mk ("ééé".data.take 2) = "éé" ∧
      TruncateStringByChar "ééé" 2 ≠ String.mk ("ééé".data.take 2) := by
  decide

theorem truncateRange_of_single_bytes (l : List Char) (i : Nat) (n : Int)
    (h : ∀ c ∈ l, c.utf8Size = 1) :
    truncateRange l i n = l.take (n - i).toNat := by
  induction l generalizing i with
  | nil => simp [truncateRange]
  | cons c rest ih =>
    have hc : c.utf8Size = 1 := h c (List.mem_cons_self _ _)
    have hrest : ∀ d ∈ rest, d.utf8Size = 1 := fun d hd => h d (List.mem_cons_of_mem _ hd)
    simp only [truncateRange, hc]
    by_cases hge : (i : Int) ≥ n
    · have : (n - i).toNat = 0 := by omega
      simp [hge, this]
    · have hpos : (n - i).toNat = ((n - ((i + 1 : Nat) : Int)).toNat) + 1 := by
        push_cast; omega
      simp only [hge, if_false]
      rw [ih (i + 1) hrest, hpos, List.take_succ_cons]

/-- On a string of one-byte characters `TruncateStringByChar` does what its name
says: it returns the first `n` characters, the whole string when there are no more. -/
theorem TruncateStringByChar_of_single_bytes (s : String) (n : Int)
    (h : ∀ c ∈ s.data, c.utf8Size = 1) :
    TruncateStringByChar s n = String.mk (s.data.take n.toNat) := by
  unfold TruncateStringByChar
  split
  · rename_i hle
    have hlen : s.data.length ≤ n.toNat := by
      have : (s.data.length : Int) ≤ n := hle
      omega
    rw [List.take_of_length_le hlen]
  · rw [truncateRange_of_single_bytes s.data 0 n h]
    simp

/-! ## Inline images and files -/

/-- Claim C16: for an image (resp. file) part whose `URL` is not a valid external URL
and holds base64 text that decodes to `bin`, `transferImage` (resp. `transferFile`)
returns one file with `UploadType = UploadTypeMultiModality`, `Data = bin` and
`TosKey = <traceID>_<spanID>_<tagKey>_image_<id>` (resp. `_file_`), and overwrites the
`URL` of the part with that key; `transferMessagePart` returns exactly that file for a
part of type image (resp. file).  For a part whose `URL` is a valid external URL no
file is returned and the part is unchanged. -/
theorem inline_part_becomes_one_upload_file (env : ConvertEnv) (rand : Nat)
    (img : ModelImageURL) (file : ModelFileURL) (span : Span) (tagKey : String)
    (binImg binFile text : String)
    (hurlImg : IsValidURL env.parseRequestURI img.URL = false)
    (hbinImg : env.base64Decode img.URL = (binImg, none))
    (hurlFile : IsValidURL env.parseRequestURI file.URL = false)
    (hbinFile : env.base64Decode file.URL = (binFile, none)) :
    (transferImage env rand (some img) span tagKey
        = (some { TosKey := span.TraceID ++ "_" ++ span.SpanID ++ "_" ++ tagKey ++ "_"
                    ++ "image" ++ "_" ++ Gen16CharID rand,
                  Data := binImg, UploadType := .UploadTypeMultiModality, TagKey := tagKey,
                  Name := img.Name, FileType := "image", SpaceID := span.SpaceID },
           some { img with URL := span.TraceID ++ "_" ++ span.SpanID ++ "_" ++ tagKey ++ "_"
                    ++ "image" ++ "_" ++ Gen16CharID rand }) ∧
      transferMessagePart env rand
          (some { Type_ := ModelMessagePartTypeImage, Text := text, ImageURL := some img,
                  FileURL := none }) span tagKey
        = ((transferImage env rand (some img) span tagKey).1.toList,
           some { Type_ := ModelMessagePartTypeImage, Text := text,
                  ImageURL := (transferImage env rand (some img) span tagKey).2,
                  FileURL := none })) ∧
    (transferFile env rand (some file) span tagKey
        = (some { TosKey := span.TraceID ++ "_" ++ span.SpanID ++ "_" ++ tagKey ++ "_"
                    ++ "file" ++ "_" ++ Gen16CharID rand,
                  Data := binFile, UploadType := .UploadTypeMultiModality, TagKey := tagKey,
                  Name := file.Name, FileType := "file", SpaceID := span.SpaceID },
           some { file with URL := span.TraceID ++ "_" ++ span.SpanID ++ "_" ++ tagKey ++ "_"
                    ++ "file" ++ "_" ++ Gen16CharID rand }) ∧
      transferMessagePart env rand
          (some { Type_ := ModelMessagePartTypeFile, Text := text, ImageURL := none,
                  FileURL := some file }) span tagKey
        = ((transferFile env rand (some file) span tagKey).1.toList,
           some { Type_ := ModelMessagePartTypeFile, Text := text, ImageURL := none,
                  FileURL := (transferFile env rand (some file) span tagKey).2 })) ∧
    (∀ img2 : ModelImageURL, IsValidURL env.parseRequestURI img2.URL = true →
      transferImage env rand (some img2) span tagKey = (none, some img2)) ∧
    (∀ file2 : ModelFileURL, IsValidURL env.parseRequestURI file2.URL = true →
      transferFile env rand (some file2) span tagKey = (none, some file2)) := by
  refine ⟨⟨?_, ?_⟩, ⟨?_, ?_⟩, ?_, ?_⟩
  · simp [transferImage, hurlImg, hbinImg, KeyTemplateMultiModality, fileTypeImage]
  · simp [transferMessagePart]
  · simp [transferFile, hurlFile, hbinFile, KeyTemplateMultiModality, fileTypeFile]
  · have hne : ModelMessagePartTypeFile ≠ ModelMessagePartTypeImage := by decide
    simp [transferMessagePart, hne]
  · intro img2 h
    simp [transferImage, h]
  · intro file2 h
    simp [transferFile, h]

theorem inline_part_becomes_one_upload_file_witness :
    IsValidURL sampleConvertEnv.parseRequestURI inlineImage.URL = false ∧
      sampleConvertEnv.base64Decode inlineImage.URL = ("hello", none) ∧
      IsValidURL sampleConvertEnv.parseRequestURI inlineFile.URL = false ∧
      sampleConvertEnv.base64Decode inlineFile.URL = ("hello", none) ∧
      transferImage sampleConvertEnv 255 (some inlineImage) reportingSpan "output"
        = (some { TosKey := sampleImageKey,
                  Data := "hello", UploadType := .UploadTypeMultiModality,
                  TagKey := "output", Name := inlineImage.Name, FileType := "image",
                  SpaceID := reportingSpan.SpaceID },
           some { inlineImage with URL := sampleImageKey }) ∧
      transferImage sampleConvertEnv 255 (some linkedImage) reportingSpan "output"
        = (none, some linkedImage) :=
  ⟨by decide, by decide, by decide, by decide,
    (inline_part_becomes_one_upload_file sampleConvertEnv 255 inlineImage inlineFile
      reportingSpan "output" "hello" "hello" "" (by decide) (by decide) (by decide)
      (by decide)).1.1,
    (inline_part_becomes_one_upload_file sampleConvertEnv 255 inlineImage inlineFile
      reportingSpan "output" "hello" "hello" "" (by decide) (by decide) (by decide)
      (by decide)).2.2.1 linkedImage (by decide)⟩

/-! ## The conversion when `UltraLargeReport` is off -/

theorem transferText_no_file (src : String) (span : Span) (tagKey : String)
    (h : span.ultraLargeReport = false) : (transferText src span tagKey).2 = none := by
  unfold transferText
  split
  · rfl
  · simp [h]

theorem transferImage_multiModality (env : ConvertEnv) (rand : Nat)
    (src : Option ModelImageURL) (span : Span) (tagKey : String) :
    ∀ f ∈ (transferImage env rand src span tagKey).1.toList,
      f.UploadType = .UploadTypeMultiModality := by
  intro f hf
  unfold transferImage at hf
  split at hf
  · simp at hf
  · split at hf
    · simp at hf
    · simp only [Option.toList_some, List.mem_singleton] at hf
      rw [hf]

theorem transferFile_multiModality (env : ConvertEnv) (rand : Nat)
    (src : Option ModelFileURL) (span : Span) (tagKey : String) :
    ∀ f ∈ (transferFile env rand src span tagKey).1.toList,
      f.UploadType = .UploadTypeMultiModality := by
  intro f hf
  unfold transferFile at hf
  split at hf
  · simp at hf
  · split at hf
    · simp at hf
    · simp only [Option.toList_some, List.mem_singleton] at hf
      rw [hf]

theorem transferMessagePart_multiModality (env : ConvertEnv) (rand : Nat)
    (src : Option ModelMessagePart) (span : Span) (tagKey : String) :
    ∀ f ∈ (transferMessagePart env rand src span tagKey).1,
      f.UploadType = .UploadTypeMultiModality := by
  intro f hf
  unfold transferMessagePart at hf
  split at hf
  · simp at hf
  · split at hf
    · exact transferImage_multiModality env rand _ span tagKey f hf
    · split at hf
      · exact transferFile_multiModality env rand _ span tagKey f hf
      · simp at hf

theorem transferParts_multiModality (env : ConvertEnv) (genId : Nat → Nat) (span : Span)
    (tagKey : String) (parts : List (Option ModelMessagePart)) (j : Nat) :
    ∀ f ∈ (transferParts env genId span tagKey parts j).1,
      f.UploadType = .UploadTypeMultiModality := by
  induction parts generalizing j with
  | nil => intro f hf; simp [transferParts] at hf
  | cons part rest ih =>
    intro f hf
    simp only [transferParts, List.mem_append] at hf
    rcases hf with hf | hf
    · exact transferMessagePart_multiModality env _ part span tagKey f hf
    · exact ih (j + 1) f hf

theorem transferMessages_multiModality (env : ConvertEnv) (genId : Nat → Nat → Nat)
    (span : Span) (tagKey : String) (messages : List (Option ModelMessage)) (i : Nat)
    (r : List UploadFile × List (Option ModelMessage))
    (hr : transferMessages env genId span tagKey messages i = some r) :
    ∀ f ∈ r.1, f.UploadType = .UploadTypeMultiModality := by
  induction messages generalizing i r with
  | nil =>
    intro f hf
    simp only [transferMessages, Option.some.injEq] at hr
    rw [← hr] at hf
    simp at hf
  | cons message rest ih =>
    intro f hf
    cases message with
    | none => simp [transferMessages] at hr
    | some message =>
      simp only [transferMessages] at hr
      split at hr
      · simp at hr
      · rename_i rs hrs
        simp only [Option.some.injEq] at hr
        rw [← hr] at hf
        simp only [List.mem_append] at hf
        rcases hf with hf | hf
        · exact transferParts_multiModality env _ span tagKey _ 0 f hf
        · exact ih (i + 1) rs hrs f hf

theorem transferChoices_multiModality (env : ConvertEnv) (genId : Nat → Nat → Nat)
    (span : Span) (tagKey : String) (choices : List (Option ModelChoice)) (i : Nat) :
    ∀ f ∈ (transferChoices env genId span tagKey choices i).1,
      f.UploadType = .UploadTypeMultiModality := by
  induction choices generalizing i with
  | nil => intro f hf; simp [transferChoices] at hf
  | cons choice rest ih =>
    intro f hf
    simp only [transferChoices] at hf
    split at hf
    · exact ih (i + 1) f hf
    · split at hf
      · exact ih (i + 1) f hf
      · simp only [List.mem_append] at hf
        rcases hf with hf | hf
        · exact transferParts_multiModality env _ span tagKey _ 0 f hf
        · exact ih (i + 1) f hf

theorem convertInput_files_of_flag (env : ConvertEnv) (genId : Nat → Nat → Nat)
    (spanKey : String) (span : Span) (v : String) (files : List (Option UploadFile))
    (h : span.ultraLargeReport = false)
    (hok : convertInput env genId spanKey span = .ok (v, files)) :
    ∀ f, some f ∈ files → f.UploadType = .UploadTypeMultiModality := by
  intro f hf
  unfold convertInput at hok
  simp only [transferText_no_file _ span spanKey h] at hok
  split at hok
  · simp only [Outcome.ok.injEq, Prod.mk.injEq] at hok
    rw [← hok.2] at hf
    simp at hf
  · split at hok
    · simp only [Outcome.ok.injEq, Prod.mk.injEq] at hok
      rw [← hok.2] at hf
      simp at hf
    · split at hok
      · simp at hok
      · split at hok
        · simp at hok
        · rename_i r hr
          split at hok
          · simp at hok
          · split at hok
            · simp only [Outcome.ok.injEq, Prod.mk.injEq] at hok
              rw [← hok.2] at hf
              simp only [List.mem_map, Option.some.injEq] at hf
              obtain ⟨g, hg, rfl⟩ := hf
              exact transferMessages_multiModality env genId span spanKey _ 0 r hr g hg
            · simp only [Outcome.ok.injEq, Prod.mk.injEq] at hok
              rw [← hok.2] at hf
              simp only [List.mem_map, Option.some.injEq] at hf
              obtain ⟨g, hg, rfl⟩ := hf
              exact transferMessages_multiModality env genId span spanKey _ 0 r hr g hg

theorem convertOutput_files_of_flag (env : ConvertEnv) (genId : Nat → Nat → Nat)
    (spanKey : String) (span : Span) (v : String) (files : List (Option UploadFile))
    (h : span.ultraLargeReport = false)
    (hok : convertOutput env genId spanKey span = .ok (v, files)) :
    ∀ f, some f ∈ files → f.UploadType = .UploadTypeMultiModality := by
  intro f hf
  unfold convertOutput at hok
  simp only [transferText_no_file _ span spanKey h] at hok
  split at hok
  · simp only [Outcome.ok.injEq, Prod.mk.injEq] at hok
    rw [← hok.2] at hf
    simp at hf
  · split at hok
    · simp only [Outcome.ok.injEq, Prod.mk.injEq] at hok
      rw [← hok.2] at hf
      simp at hf
    · split at hok
      · simp at hok
      · split at hok
        · simp at hok
        · split at hok
          · simp only [Outcome.ok.injEq, Prod.mk.injEq] at hok
            rw [← hok.2] at hf
            simp only [List.mem_map, Option.some.injEq] at hf
            obtain ⟨g, hg, rfl⟩ := hf
            exact transferChoices_multiModality env genId span spanKey _ 0 g hg
          · simp only [Outcome.ok.injEq, Prod.mk.injEq] at hok
            rw [← hok.2] at hf
            simp only [List.mem_map, Option.some.injEq] at hf
            obtain ⟨g, hg, rfl⟩ := hf
            exact transferChoices_multiModality env genId span spanKey _ 0 g hg

theorem parseKeys_files_of_flag (env : ConvertEnv) (genId : String → Nat → Nat → Nat)
    (span : Span) (h : span.ultraLargeReport = false) (keys : List String)
    (acc files : List (Option UploadFile)) (m m2 : List (String × String))
    (hacc : ∀ f, some f ∈ acc → f.UploadType = .UploadTypeMultiModality)
    (hok : parseKeys env genId span keys acc m = .ok (files, m2)) :
    ∀ f, some f ∈ files → f.UploadType = .UploadTypeMultiModality := by
  induction keys generalizing acc m with
  | nil =>
    simp only [parseKeys, Outcome.ok.injEq, Prod.mk.injEq] at hok
    rw [← hok.1]
    exact hacc
  | cons key rest ih =>
    simp only [parseKeys] at hok
    split at hok
    · exact ih acc m hacc hok
    · split at hok
      · simp at hok
      · simp at hok
      · rename_i newInput inputFiles hconv
        refine ih _ _ ?_ hok
        intro f hf
        rcases List.mem_append.mp hf with hf | hf
        · exact hacc f hf
        · unfold tagValueConverter at hconv
          split at hconv
          · exact convertInput_files_of_flag env _ key span newInput inputFiles h hconv f hf
          · exact convertOutput_files_of_flag env _ key span newInput inputFiles h hconv f hf

theorem parseInputOutput_files_of_flag (env : ConvertEnv) (idx : Nat) (span : Span)
    (h : span.ultraLargeReport = false) (files : List (Option UploadFile))
    (m : List (String × String)) (hok : parseInputOutput env idx span = .ok (files, m)) :
    ∀ f, some f ∈ files → f.UploadType = .UploadTypeMultiModality :=
  parseKeys_files_of_flag env _ span h _ [] files [] m (by simp) hok

theorem transferLoop_files_of_flag (env : ConvertEnv) (spans : List Span) (idx : Nat)
    (h : ∀ span ∈ spans, span.ultraLargeReport = false)
    (r : List UploadSpan × List (Option UploadFile))
    (hr : transferLoop env spans idx = some r) :
    ∀ f, some f ∈ r.2 → f.UploadType = .UploadTypeMultiModality := by
  induction spans generalizing idx r with
  | nil =>
    intro f hf
    simp only [transferLoop, Option.some.injEq] at hr
    rw [← hr] at hf
    simp at hf
  | cons span rest ih =>
    have hrest : ∀ s ∈ rest, s.ultraLargeReport = false :=
      fun s hs => h s (List.mem_cons_of_mem _ hs)
    intro f hf
    simp only [transferLoop] at hr
    split at hr
    · simp at hr
    · exact ih (idx + 1) hrest r hr f hf
    · rename_i spanUploadFile putContentMap hparse
      split at hr
      · simp at hr
      · rename_i rs hrs
        simp only [Option.some.injEq] at hr
        rw [← hr] at hf
        rcases List.mem_append.mp hf with hf | hf
        · exact parseInputOutput_files_of_flag env idx span (h span (List.mem_cons_self _ _))
            spanUploadFile putContentMap hparse f hf
        · exact ih (idx + 1) hrest rs hrs f hf

/-- Claim C17, counterexample: the span `quietSpan` has `UltraLargeReport` false and an
input with one inline image; its conversion produces one file, the image. -/
theorem inline_image_is_uploaded_with_the_flag_off :
    quietSpan.ultraLargeReport = false ∧
      (transferToUploadSpanAndFile sampleConvertEnv [quietSpan]).map Prod.snd
        = some [some { TosKey := "t2_s2_input_image_0000000000000001", Data := "hello",
                       UploadType := .UploadTypeMultiModality, TagKey := "input",
                       Name := "cat.png", FileType := "image", SpaceID := "w1" }] := by
  decide

/-- Claim C17 (amended): when `UltraLargeReport` is false for every span of the batch,
`transferText` returns the text as it is (not truncated) and no file, and every file
that `parseInputOutput` and `transferToUploadSpanAndFile` produce has
`UploadType = UploadTypeMultiModality`: it comes from an inline image or file part,
which is uploaded whatever the flag. -/
theorem flag_off_leaves_only_multi_modality_files (env : ConvertEnv) (spans : List Span)
    (h : ∀ span ∈ spans, span.ultraLargeReport = false) :
    (∀ span ∈ spans, ∀ src tagKey,
        transferText src span tagKey = (if goLen src = 0 then "" else src, none)) ∧
      (∀ span ∈ spans, ∀ idx files m, parseInputOutput env idx span = .ok (files, m) →
        ∀ f, some f ∈ files → f.UploadType = .UploadTypeMultiModality) ∧
      (∀ r, transferToUploadSpanAndFile env spans = some r →
        ∀ f, some f ∈ r.2 → f.UploadType = .UploadTypeMultiModality) := by
  refine ⟨?_, ?_, ?_⟩
  · intro span hspan src tagKey
    unfold transferText
    split
    · rfl
    · simp [h span hspan]
  · intro span hspan idx files m hok
    exact parseInputOutput_files_of_flag env idx span (h span hspan) files m hok
  · intro r hr
    exact transferLoop_files_of_flag env spans 0 h r hr

theorem flag_off_leaves_only_multi_modality_files_witness :
    (∀ span ∈ [quietSpan], span.ultraLargeReport = false) ∧
      (transferToUploadSpanAndFile sampleConvertEnv [quietSpan]).isSome = true ∧
      (∀ r, transferToUploadSpanAndFile sampleConvertEnv [quietSpan] = some r →
        ∀ f, some f ∈ r.2 → f.UploadType = .UploadTypeMultiModality) ∧
      transferText (textOfLength 3) quietSpan "input" = (textOfLength 3, none) :=
  ⟨by decide, by decide,
    (flag_off_leaves_only_multi_modality_files sampleConvertEnv [quietSpan]
      (by decide)).2.2,
    ((flag_off_leaves_only_multi_modality_files sampleConvertEnv [quietSpan]
      (by decide)).1 quietSpan (List.mem_singleton.mpr rfl) (textOfLength 3) "input").trans
      (by decide)⟩

/-! ## A span whose conversion fails -/

theorem transferLoop_append (env : ConvertEnv) (pre post : List Span) (idx : Nat)
    (rpre rpost : List UploadSpan × List (Option UploadFile))
    (hpre : transferLoop env pre idx = some rpre)
    (hpost : transferLoop env post (idx + pre.length) = some rpost) :
    transferLoop env (pre ++ post) idx = some (rpre.1 ++ rpost.1, rpre.2 ++ rpost.2) := by
  induction pre generalizing idx rpre with
  | nil =>
    simp only [transferLoop, Option.some.injEq] at hpre
    rw [← hpre]
    simpa using hpost
  | cons span rest ih =>
    have hidx : idx + 1 + rest.length = idx + (span :: rest).length := by
      simp only [List.length_cons]; omega
    rw [← hidx] at hpost
    simp only [List.cons_append, transferLoop] at hpre ⊢
    split at hpre
    · simp at hpre
    · exact ih (idx + 1) rpre hpre hpost
    · split at hpre
      · simp at hpre
      · rename_i rs hrs
        simp only [Option.some.injEq] at hpre
        have h2 := ih (idx + 1) rs hrs hpost
        simp only [List.append_eq, h2]
        rw [← hpre]
        simp

theorem transferLoop_cons_error (env : ConvertEnv) (span : Span) (rest : List Span)
    (idx : Nat) (e : String) (h : parseInputOutput env idx span = .error e) :
    transferLoop env (span :: rest) idx = transferLoop env rest (idx + 1) := by
  simp only [transferLoop, h]

/-- The conversion of a batch panics exactly when `parseInputOutput` panics on one of
its spans. -/
theorem transferLoop_eq_none_iff (env : ConvertEnv) (spans : List Span) (idx : Nat) :
    transferLoop env spans idx = none ↔
      ∃ k span, spans.get? k = some span ∧ parseInputOutput env (idx + k) span = .panic := by
  induction spans generalizing idx with
  | nil => simp [transferLoop]
  | cons span rest ih =>
    have hshift : (∃ k s, rest.get? k = some s ∧ parseInputOutput env (idx + 1 + k) s = .panic)
        ↔ ∃ k s, (span :: rest).get? (k + 1) = some s
            ∧ parseInputOutput env (idx + (k + 1)) s = .panic := by
      constructor
      · rintro ⟨k, s, hk, hp⟩
        exact ⟨k, s, by simpa using hk, by rw [show idx + (k + 1) = idx + 1 + k by omega]; exact hp⟩
      · rintro ⟨k, s, hk, hp⟩
        exact ⟨k, s, by simpa using hk, by rw [show idx + 1 + k = idx + (k + 1) by omega]; exact hp⟩
    have hsplit : (∃ k s, (span :: rest).get? k = some s
          ∧ parseInputOutput env (idx + k) s = .panic)
        ↔ parseInputOutput env idx span = .panic ∨
          ∃ k s, (span :: rest).get? (k + 1) = some s
            ∧ parseInputOutput env (idx + (k + 1)) s = .panic := by
      constructor
      · rintro ⟨k, s, hk, hp⟩
        cases k with
        | zero =>
          left
          simp only [List.get?_cons_zero, Option.some.injEq] at hk
          subst hk
          simpa using hp
        | succ k => exact Or.inr ⟨k, s, hk, hp⟩
      · rintro (hp | ⟨k, s, hk, hp⟩)
        · exact ⟨0, span, rfl, by simpa using hp⟩
        · exact ⟨k + 1, s, hk, hp⟩
    rw [hsplit, ← hshift, ← ih (idx + 1)]
    simp only [transferLoop]
    split
    · rename_i hp; simp [hp]
    · rename_i e hp; simp [hp]
    · rename_i a b hp
      simp only [hp]
      cases transferLoop env rest (idx + 1) <;> simp

theorem newExportSpansFunc_retryQueue_of_success
    (transfer : List Span → List UploadSpan × List (Option UploadFile))
    (exporter : Exporter) (finishEventProcessor : Bool) (tsMs : Int)
    (t : ExportTargets) (l : List Item)
    (h : exporter.ExportSpans (transfer (spansOf l)).1 = none) :
    (newExportSpansFunc transfer exporter finishEventProcessor tsMs t l).retryQueue
      = t.retryQueue := by
  unfold newExportSpansFunc
  simp only [h]
  cases finishEventProcessor <;> rfl

theorem newExportSpansFunc_retryQueue_of_failure
    (transfer : List Span → List UploadSpan × List (Option UploadFile))
    (exporter : Exporter) (finishEventProcessor : Bool) (tsMs : Int)
    (t : ExportTargets) (l : List Item) (err : String) (rq : BatchQueueManager)
    (h : exporter.ExportSpans (transfer (spansOf l)).1 = some err)
    (hrq : t.retryQueue = some rq) :
    (newExportSpansFunc transfer exporter finishEventProcessor tsMs t l).retryQueue
      = some (EnqueueAll rq ((spansOf l).map (fun s => (Item.span s, s.bytesSize)))) := by
  unfold newExportSpansFunc
  simp only [h, hrq, foldl_Enqueue_spans]
  cases finishEventProcessor <;> rfl

theorem spanExportFunc_of_some (env : ConvertEnv) (exporter : Exporter)
    (finishEventProcessor : Bool) (tsMs : Int) (t : ExportTargets) (l : List Item)
    (r : List UploadSpan × List (Option UploadFile))
    (h : transferToUploadSpanAndFile env (spansOf l) = some r) :
    spanExportFunc env exporter finishEventProcessor tsMs t l
      = some (newExportSpansFunc (fun _ => r) exporter finishEventProcessor tsMs t l) := by
  simp only [spanExportFunc, h]

theorem spanExportFunc_eq_none_iff (env : ConvertEnv) (exporter : Exporter)
    (finishEventProcessor : Bool) (tsMs : Int) (t : ExportTargets) (l : List Item) :
    spanExportFunc env exporter finishEventProcessor tsMs t l = none ↔
      ∃ k span, (spansOf l).get? k = some span ∧ parseInputOutput env k span = .panic := by
  have h := transferLoop_eq_none_iff env (spansOf l) 0
  simp only [Nat.zero_add] at h
  rw [← h]
  unfold spanExportFunc transferToUploadSpanAndFile
  cases transferLoop env (spansOf l) 0 <;> simp

/-- Claim C18, counterexample: the second span of `mixedBatch` cannot be converted, so
only the first and the third are passed to the exporter; the exporter call fails, and
all three spans, the second included, are enqueued to the retry queue. -/
theorem skipped_span_is_retried_with_its_batch :
    parseInputOutput sampleConvertEnv 1 brokenSpan = .error "invalid character" ∧
      (transferToUploadSpanAndFile sampleConvertEnv (spansOf mixedBatch)).map
          (fun r => r.1.map (fun u => u.SpanID)) = some ["s2", "4"] ∧
      (spanExportFunc sampleConvertEnv failingExporter true 3
          { retryQueue := some (newBatchQueueManager byteOptions), fileQueue := none,
            events := [] }
          mixedBatch).map (fun t => t.retryQueue.map (fun q => q.queue))
        = some (some mixedBatch) := by
  decide

/-- Claim C18 (amended): let the batch hold the spans `pre ++ bad :: post`, where the
conversion of `bad` returns an error and the conversion of the other spans returns
(`rpre` for those before, `rpost` for those after, at their positions in the batch).
Then the records passed to `ExportSpans` and the files are those of `pre` followed by
those of `post`: `bad` is left out and its files are discarded.  When the exporter call
succeeds the retry queue is not touched.  When it fails and there is a retry queue,
`Enqueue` is called on it for every span of the batch, `bad` included; on a running
queue with room for them `bad` joins the channel.  The export function does not return
exactly when the conversion of some span of its batch panics; then no span of the batch
is passed to the exporter or enqueued. -/
theorem span_that_fails_to_convert_is_skipped_for_this_export
    (env : ConvertEnv) (exporter : Exporter) (finishEventProcessor : Bool) (tsMs : Int)
    (t : ExportTargets) (l : List Item) (pre post : List Span) (bad : Span) (e : String)
    (rpre rpost : List UploadSpan × List (Option UploadFile))
    (hl : spansOf l = pre ++ bad :: post)
    (hbad : parseInputOutput env pre.length bad = .error e)
    (hpre : transferLoop env pre 0 = some rpre)
    (hpost : transferLoop env post (pre.length + 1) = some rpost) :
    transferToUploadSpanAndFile env (spansOf l)
        = some (rpre.1 ++ rpost.1, rpre.2 ++ rpost.2) ∧
      (exporter.ExportSpans (rpre.1 ++ rpost.1) = none →
        (spanExportFunc env exporter finishEventProcessor tsMs t l).map
            (fun r => r.retryQueue) = some t.retryQueue) ∧
      (∀ err rq,
        exporter.ExportSpans (rpre.1 ++ rpost.1) = some err →
        t.retryQueue = some rq →
        (spanExportFunc env exporter finishEventProcessor tsMs t l).map
            (fun r => r.retryQueue)
          = some (some (EnqueueAll rq
              ((pre ++ bad :: post).map (fun s => (Item.span s, s.bytesSize))))) ∧
        (rq.stopped = false →
          rq.queue.length + (pre ++ bad :: post).length ≤ rq.o.maxQueueLength →
          (EnqueueAll rq
              ((pre ++ bad :: post).map (fun s => (Item.span s, s.bytesSize)))).queue
            = rq.queue ++ pre.map Item.span ++ Item.span bad :: post.map Item.span)) ∧
      (∀ l2, spanExportFunc env exporter finishEventProcessor tsMs t l2 = none ↔
        ∃ k span, (spansOf l2).get? k = some span ∧
          parseInputOutput env k span = .panic) := by
  have htransfer : transferToUploadSpanAndFile env (spansOf l)
      = some (rpre.1 ++ rpost.1, rpre.2 ++ rpost.2) := by
    rw [hl]
    unfold transferToUploadSpanAndFile
    apply transferLoop_append env pre (bad :: post) 0 rpre rpost hpre
    rw [Nat.zero_add, transferLoop_cons_error env bad post _ e hbad]
    exact hpost
  have hfunc := spanExportFunc_of_some env exporter finishEventProcessor tsMs t l _ htransfer
  refine ⟨htransfer, ?_, ?_, ?_⟩
  · intro hok
    rw [hfunc, Option.map_some']
    exact congrArg some
      (newExportSpansFunc_retryQueue_of_success _ exporter finishEventProcessor tsMs t l hok)
  · intro err rq herr hrq
    refine ⟨?_, ?_⟩
    · rw [hfunc, Option.map_some']
      have h := newExportSpansFunc_retryQueue_of_failure
        (fun _ => (rpre.1 ++ rpost.1, rpre.2 ++ rpost.2)) exporter finishEventProcessor tsMs
        t l err rq herr hrq
      rw [hl] at h
      exact congrArg some h
    · intro hrun hroom
      have h := EnqueueAll_of_room
        ((pre ++ bad :: post).map (fun s => (Item.span s, s.bytesSize))) rq hrun
        (by simpa using hroom)
      rw [h.1]
      simp [Function.comp_def]
  · intro l2
    exact spanExportFunc_eq_none_iff env exporter finishEventProcessor tsMs t l2

theorem span_that_fails_to_convert_is_skipped_for_this_export_witness :
    spansOf mixedBatch = [quietSpan] ++ brokenSpan :: [sampleSpan 4 1] ∧
      parseInputOutput sampleConvertEnv [quietSpan].length brokenSpan
        = .error "invalid character" ∧
      (transferToUploadSpanAndFile sampleConvertEnv (spansOf mixedBatch)).map
          (fun r => (r.1.map (fun u => u.SpanID), r.2.length)) = some (["s2", "4"], 1) ∧
      transferToUploadSpanAndFile sampleConvertEnv (spansOf mixedBatch)
        = some (((transferLoop sampleConvertEnv [quietSpan] 0).getD ([], [])).1 ++
                  ((transferLoop sampleConvertEnv [sampleSpan 4 1] 2).getD ([], [])).1,
                ((transferLoop sampleConvertEnv [quietSpan] 0).getD ([], [])).2 ++
                  ((transferLoop sampleConvertEnv [sampleSpan 4 1] 2).getD ([], [])).2) ∧
      spanExportFunc sampleConvertEnv failingExporter true 3
          { retryQueue := some (newBatchQueueManager byteOptions), fileQueue := none,
            events := [] }
          [.span quietSpan, .span nilMessageSpan] = none :=
  ⟨rfl, by decide, by decide,
    (span_that_fails_to_convert_is_skipped_for_this_export sampleConvertEnv failingExporter
      true 3
      { retryQueue := some (newBatchQueueManager byteOptions), fileQueue := none,
        events := [] }
      mixedBatch [quietSpan] [sampleSpan 4 1] brokenSpan "invalid character"
      ((transferLoop sampleConvertEnv [quietSpan] 0).getD ([], []))
      ((transferLoop sampleConvertEnv [sampleSpan 4 1] 2).getD ([], []))
      rfl (by decide) (by decide) (by decide)).1,
    ((span_that_fails_to_convert_is_skipped_for_this_export sampleConvertEnv failingExporter
      true 3
      { retryQueue := some (newBatchQueueManager byteOptions), fileQueue := none,
        events := [] }
      mixedBatch [quietSpan] [sampleSpan 4 1] brokenSpan "invalid character"
      ((transferLoop sampleConvertEnv [quietSpan] 0).getD ([], []))
      ((transferLoop sampleConvertEnv [sampleSpan 4 1] 2).getD ([], []))
      rfl (by decide) (by decide) (by decide)).2.2.2
        [.span quietSpan, .span nilMessageSpan]).mpr
      ⟨1, nilMessageSpan, rfl, by decide⟩⟩

/-! ## The finish event of an export -/

/-- Claim C19: with a finish-event processor, one call of the span export function
reports exactly one event, of type flush-span, whose `IsEventFail` is true exactly when
`ExportSpans` returned an error, whose `ItemNum` is the number of records passed to
`ExportSpans` and whose latency is the one measured; one call of the file export
function does the same with type flush-file, `ExportFiles` and the number of files. -/
theorem each_export_reports_one_flush_event
    (transfer : List Span → List UploadSpan × List (Option UploadFile))
    (exporter : Exporter) (tsMs : Int) (t : ExportTargets) (l : List Item) :
    (∃ ev, (newExportSpansFunc transfer exporter true tsMs t l).events = t.events ++ [ev] ∧
        ev.EventType = .FlushSpanRate ∧
        (ev.IsEventFail = true ↔
          (exporter.ExportSpans (transfer (spansOf l)).1).isSome = true) ∧
        ev.ItemNum = ((transfer (spansOf l)).1.length : Int) ∧
        ev.ExtraParams = some { IsRootSpan := false, LatencyMs := tsMs }) ∧
      (∃ ev, (newExportFilesFunc exporter true tsMs t l).events = t.events ++ [ev] ∧
        ev.EventType = .FlushFileRate ∧
        (ev.IsEventFail = true ↔ (exporter.ExportFiles (filesOf l)).isSome = true) ∧
        ev.ItemNum = ((filesOf l).length : Int) ∧
        ev.ExtraParams = some { IsRootSpan := false, LatencyMs := tsMs }) := by
  constructor
  · cases hexp : exporter.ExportSpans (transfer (spansOf l)).1 with
    | none =>
      refine ⟨{ EventType := .FlushSpanRate, IsEventFail := false,
                ItemNum := ((transfer (spansOf l)).1.length : Int), DetailMsg := "",
                ExtraParams := some { IsRootSpan := false, LatencyMs := tsMs } },
        ?_, rfl, by simp, rfl, rfl⟩
      simp only [newExportSpansFunc, hexp, if_true]
    | some err =>
      cases hrq : t.retryQueue with
      | none =>
        refine ⟨{ EventType := .FlushSpanRate, IsEventFail := true,
                  ItemNum := ((transfer (spansOf l)).1.length : Int),
                  DetailMsg := err ++ ", retry second time failed",
                  ExtraParams := some { IsRootSpan := false, LatencyMs := tsMs } },
          ?_, rfl, by simp, rfl, rfl⟩
        simp only [newExportSpansFunc, hexp, hrq, if_true]
      | some rq =>
        refine ⟨{ EventType := .FlushSpanRate, IsEventFail := true,
                  ItemNum := ((transfer (spansOf l)).1.length : Int),
                  DetailMsg := err ++ ", retry later",
                  ExtraParams := some { IsRootSpan := false, LatencyMs := tsMs } },
          ?_, rfl, by simp, rfl, rfl⟩
        simp only [newExportSpansFunc, hexp, hrq, if_true]
  · cases hexp : exporter.ExportFiles (filesOf l) with
    | none =>
      refine ⟨{ EventType := .FlushFileRate, IsEventFail := false,
                ItemNum := ((filesOf l).length : Int), DetailMsg := "",
                ExtraParams := some { IsRootSpan := false, LatencyMs := tsMs } },
        ?_, rfl, by simp, rfl, rfl⟩
      simp only [newExportFilesFunc, hexp, if_true]
    | some err =>
      cases hrq : t.retryQueue with
      | none =>
        refine ⟨{ EventType := .FlushFileRate, IsEventFail := true,
                  ItemNum := ((filesOf l).length : Int),
                  DetailMsg := err ++ ", retry second time failed",
                  ExtraParams := some { IsRootSpan := false, LatencyMs := tsMs } },
          ?_, rfl, by simp, rfl, rfl⟩
        simp only [newExportFilesFunc, hexp, hrq, if_true]
      | some rq =>
        refine ⟨{ EventType := .FlushFileRate, IsEventFail := true,
                  ItemNum := ((filesOf l).length : Int),
                  DetailMsg := err ++ ", retry later",
                  ExtraParams := some { IsRootSpan := false, LatencyMs := tsMs } },
          ?_, rfl, by simp, rfl, rfl⟩
        simp only [newExportFilesFunc, hexp, hrq, if_true]

/-! ## The object-storage summary -/

theorem lastKey_cons_pos (p : UploadFile → Bool) (f : UploadFile) (l : List UploadFile)
    (d : String) (hp : p f = true) :
    ((((f :: l).filter p).getLast?).map (fun f => f.TosKey)).getD d
      = (((l.filter p).getLast?).map (fun f => f.TosKey)).getD f.TosKey := by
  rw [List.filter_cons_of_pos hp, List.getLast?_cons]
  cases (l.filter p).getLast? <;> rfl

theorem lastKey_cons_neg (p : UploadFile → Bool) (f : UploadFile) (l : List UploadFile)
    (d : String) (hp : ¬ p f = true) :
    ((((f :: l).filter p).getLast?).map (fun f => f.TosKey)).getD d
      = (((l.filter p).getLast?).map (fun f => f.TosKey)).getD d := by
  rw [List.filter_cons_of_neg hp]

theorem specAttachments_cons_none (rest : List (Option UploadFile)) :
    specAttachments (none :: rest) = specAttachments rest := rfl

theorem specAttachments_cons_long (f : UploadFile) (rest : List (Option UploadFile))
    (hty : f.UploadType = .UploadTypeLong) :
    specAttachments (some f :: rest) = specAttachments rest := by
  unfold specAttachments
  have hfm : (some f :: rest).filterMap id = f :: rest.filterMap id := rfl
  rw [hfm, List.filter_cons_of_neg (by simp [hty])]

theorem specAttachments_cons_multi (f : UploadFile) (rest : List (Option UploadFile))
    (hty : f.UploadType = .UploadTypeMultiModality) :
    specAttachments (some f :: rest)
      = { Field := f.TagKey, Name := f.Name, Type_ := f.FileType, TosKey := f.TosKey }
          :: specAttachments rest := by
  unfold specAttachments
  have hfm : (some f :: rest).filterMap id = f :: rest.filterMap id := rfl
  rw [hfm, List.filter_cons_of_pos (by simp [hty]), List.map_cons]

theorem objectStorageLoop_spec (files : List (Option UploadFile)) (o : ObjectStorage)
    (e : Bool) :
    objectStorageLoop files (o, e)
      = ({ InputTosKey :=
             ((((files.filterMap id).filter
                 (fun f => f.UploadType = .UploadTypeLong ∧ f.TagKey = tracespecInput)).getLast?).map
               (fun f => f.TosKey)).getD o.InputTosKey,
           OutputTosKey :=
             ((((files.filterMap id).filter
                 (fun f => f.UploadType = .UploadTypeLong ∧ f.TagKey = tracespecOutput)).getLast?).map
               (fun f => f.TosKey)).getD o.OutputTosKey,
           Attachments := o.Attachments ++ specAttachments files },
         e || !(files.filterMap id).isEmpty) := by
  induction files generalizing o e with
  | nil => simp [objectStorageLoop, specAttachments]
  | cons file rest ih =>
    cases file with
    | none =>
      have hfm : (none :: rest).filterMap id = rest.filterMap id := rfl
      simp only [objectStorageLoop]
      rw [ih, hfm, specAttachments_cons_none]
    | some f =>
      have hne : tracespecInput ≠ tracespecOutput := by decide
      have hfm : (some f :: rest).filterMap id = f :: rest.filterMap id := rfl
      have hbool : ∀ x : Bool, (e || !(f :: rest.filterMap id).isEmpty) = (true || x) := by
        intro x; simp
      simp only [objectStorageLoop]
      rw [hfm, hbool (!(rest.filterMap id).isEmpty)]
      cases hty : f.UploadType with
      | UploadTypeLong =>
        rw [specAttachments_cons_long f rest hty]
        by_cases hin : f.TagKey = tracespecInput
        · have hout : f.TagKey ≠ tracespecOutput := by rw [hin]; exact hne
          simp only [if_pos hin]
          rw [ih, lastKey_cons_pos _ f _ _ (by simp [hty, hin]),
            lastKey_cons_neg _ f _ _ (by simp [hin, hne])]
        · by_cases hout : f.TagKey = tracespecOutput
          · simp only [if_neg hin, if_pos hout]
            rw [ih, lastKey_cons_neg _ f _ _ (by simp [hout, hne.symm]),
              lastKey_cons_pos _ f _ _ (by simp [hty, hout])]
          · simp only [if_neg hin, if_neg hout]
            rw [ih, lastKey_cons_neg _ f _ _ (by simp [hin]),
              lastKey_cons_neg _ f _ _ (by simp [hout])]
      | UploadTypeMultiModality =>
        simp only []
        rw [ih, specAttachments_cons_multi f rest hty,
          lastKey_cons_neg _ f _ _ (by simp [hty]), lastKey_cons_neg _ f _ _ (by simp [hty])]
        simp

/-- Claim C20: `transferObjectStorage` returns the empty string when the list has no
non-nil file.  Otherwise it returns what `json.Marshal` gives for the object of the
specification: input and output keys the `TosKey` of the long-text file tagged input
and output (empty, hence left out of the JSON, when there is none), attachments one
entry (field = `TagKey`, name, type = `FileType`, key = `TosKey`) per multi-modality
file in list order. -/
theorem transferObjectStorage_is_the_summary_of_the_files
    (marshal : ObjectStorage → Except String String) (files : List (Option UploadFile)) :
    ((∀ file ∈ files, file = none) → transferObjectStorage marshal files = "") ∧
      (∀ f json, some f ∈ files → marshal (specObjectStorage files) = .ok json →
        transferObjectStorage marshal files = json) ∧
      (specObjectStorage files).Attachments.length
        = ((files.filterMap id).filter
            (fun f => f.UploadType = .UploadTypeMultiModality)).length := by
  refine ⟨?_, ?_, ?_⟩
  · intro hnil
    have hempty : files.filterMap id = [] := by
      rw [List.filterMap_eq_nil_iff]
      intro file hfile
      rw [hnil file hfile]
      rfl
    unfold transferObjectStorage
    simp [objectStorageLoop_spec, hempty]
  · intro f json hf hjson
    have hmem : f ∈ files.filterMap id := by
      rw [List.mem_filterMap]
      exact ⟨some f, hf, rfl⟩
    have hne : (files.filterMap id).isEmpty = false := by
      cases hfm : files.filterMap id with
      | nil => rw [hfm] at hmem; simp at hmem
      | cons a b => rfl
    unfold transferObjectStorage
    simp only [objectStorageLoop_spec, hne, Bool.not_false, Bool.or_true, Bool.not_true,
      Bool.false_eq_true, if_false, List.nil_append]
    have hspec : specObjectStorage files
        = { InputTosKey := specLongTextKey tracespecInput files,
            OutputTosKey := specLongTextKey tracespecOutput files,
            Attachments := specAttachments files } := rfl
    rw [hspec] at hjson
    unfold specLongTextKey at hjson
    rw [hjson]
  · simp [specObjectStorage, specAttachments]

theorem transferObjectStorage_is_the_summary_of_the_files_witness :
    transferObjectStorage sampleConvertEnv.marshalObjectStorage sampleSpanFiles
        = "t1_s1_input_text_large_text|t1_s1_output_text_large_text|2" ∧
      transferObjectStorage sampleConvertEnv.marshalObjectStorage [none, none] = "" :=
  ⟨(transferObjectStorage_is_the_summary_of_the_files sampleConvertEnv.marshalObjectStorage
      sampleSpanFiles).2.1 (sampleFile "k1" "img") _ (by decide) rfl,
    (transferObjectStorage_is_the_summary_of_the_files sampleConvertEnv.marshalObjectStorage
      [none, none]).1 (by decide)⟩

/-! ## The sentinel and the bound of the batch -/

theorem run_o (ops : List Op) (b : BatchQueueManager) : (run b ops).o = b.o := by
  induction ops generalizing b with
  | nil => rfl
  | cons op ops ih =>
    show (run (step b op) ops).o = b.o
    rw [ih, step_o]

theorem isReal_iff_ne (x : Item) : x.isReal = true ↔ x ≠ Item.forceFlushSpan := by
  cases x <;> simp [Item.isReal]

/-- Claim C24: the force-flush sentinel never enters the batch.  In every state a
manager can reach the batch holds no `forceFlushSpan`, and no batch that was passed to
the export function holds one.  Receiving the sentinel, in an iteration of
`processQueue` or of `drainQueue`, only removes it from the channel: batch, byte-size
counter, exports and every other field are as before. -/
theorem sentinel_never_enters_the_batch (o : batchQueueManagerOptions) (ops : List Op)
    (b : BatchQueueManager) (rest : List Item) (fuel : Nat) (ctx : Context) :
    (∀ x ∈ (run (newBatchQueueManager o) ops).batch, x ≠ Item.forceFlushSpan) ∧
      (∀ l ∈ (run (newBatchQueueManager o) ops).exported, ∀ x ∈ l,
        x ≠ Item.forceFlushSpan) ∧
      (b.queue = Item.forceFlushSpan :: rest →
        processQueueRecv b = { b with queue := rest } ∧
        (processQueueRecv b).batch = b.batch ∧
        (processQueueRecv b).batchByteSize = b.batchByteSize) ∧
      (b.queue = Item.forceFlushSpan :: rest → ctx.doneAt ≠ some 0 →
        drainQueueLoop (fuel + 1) ctx b
          = drainQueueLoop fuel (ctx.after 1) { b with queue := rest }) := by
  have hinv := run_invariant ops _ (newBatchQueueManager_invariant o)
  refine ⟨fun x hx => (isReal_iff_ne x).mp (hinv.batch_real x hx),
    fun l hl x hx => (isReal_iff_ne x).mp (hinv.exported_real l hl x hx), ?_, ?_⟩
  · intro hq
    have h : processQueueRecv b = { b with queue := rest } := by
      simp only [processQueueRecv, hq]
    exact ⟨h, by rw [h], by rw [h]⟩
  · intro hq hctx
    simp only [drainQueueLoop, hctx, if_false, hq]

/-- Claim C25: for a manager with `maxExportBatchLength >= 1`, in every state reached
by a sequence of steps (calls of `Enqueue`, `ForceFlush` and `Shutdown`, receptions and
timer expirations of the loop), every batch that was passed to the export function
holds at most `maxExportBatchLength` items, and the batch holds fewer than
`maxExportBatchLength` items. -/
theorem batches_never_exceed_the_batch_length (o : batchQueueManagerOptions)
    (ops : List Op) (hmax : 1 ≤ o.maxExportBatchLength) :
    (∀ l ∈ (run (newBatchQueueManager o) ops).exported,
        l.length ≤ o.maxExportBatchLength) ∧
      (run (newBatchQueueManager o) ops).batch.length < o.maxExportBatchLength := by
  have hinv := run_invariant ops _ (newBatchQueueManager_invariant o)
  have ho : (run (newBatchQueueManager o) ops).o = o := run_o ops _
  have hpos : 0 < (run (newBatchQueueManager o) ops).o.maxExportBatchLength := by
    rw [ho]; exact hmax
  have h1 := hinv.exported_bounded hpos
  have h2 := hinv.batch_bounded hpos
  rw [ho] at h1 h2
  exact ⟨h1, h2⟩

set_option maxRecDepth 100000 in
theorem batches_never_exceed_the_batch_length_witness :
    1 ≤ smallOptions.maxExportBatchLength ∧
      (run (newBatchQueueManager smallOptions) smallRun).exported
        = [[.span (sampleSpan 1 1), .span (sampleSpan 2 1)]] ∧
      (∀ l ∈ (run (newBatchQueueManager smallOptions) smallRun).exported,
        l.length ≤ smallOptions.maxExportBatchLength) ∧
      (run (newBatchQueueManager smallOptions) smallRun).batch.length
        < smallOptions.maxExportBatchLength :=
  ⟨by decide, by decide,
    (batches_never_exceed_the_batch_length smallOptions smallRun (by decide)).1,
    (batches_never_exceed_the_batch_length smallOptions smallRun (by decide)).2⟩

/-! ## The log level -/

/-- Claim C22, at the failing input: before any call of `SetLogLevel` the level is
`LogLevelWarn`, not `LogLevelInfo`, and a message logged with `CtxInfof` is not
forwarded to the logger; a warning is, and so is the message once the level has been set
to `LogLevelInfo`. -/
theorem CtxInfof_is_dropped_before_SetLogLevel :
    GetLogLevel initialLogger = LogLevelWarn ∧
      GetLogLevel initialLogger ≠ LogLevelInfo ∧
      (CtxInfof initialLogger "ready").forwarded = [] ∧
      (CtxWarnf initialLogger "ready").forwarded = [(LogLevelWarn, "ready")] ∧
      (CtxInfof (SetLogLevel initialLogger LogLevelInfo) "ready").forwarded
        = [(LogLevelInfo, "ready")] := by
  decide

/-- A message is forwarded by `CtxInfof` exactly at the levels debug and info (and
below). -/
theorem CtxInfof_forwards_iff (s : LoggerState) (format : String) :
    (CtxInfof s format).forwarded = s.forwarded ++ [(LogLevelInfo, format)]
      ↔ GetLogLevel s ≤ LogLevelInfo := by
  unfold CtxInfof
  split
  · rename_i h; simp [h]
  · rename_i h; simp [h]

/-! ## The keys of the prompt cache -/

theorem length_splitOn (x : Char) (l : List Char) :
    (l.splitOn x).length = l.count x + 1 := by
  unfold List.splitOn
  induction l with
  | nil => simp
  | cons c cs ih =>
    rw [List.splitOnP_cons]
    by_cases h : c = x
    · subst h
      simp [ih]
    · have hne : (c == x) = false := by simpa using h
      simp only [hne, Bool.false_eq_true, if_false, List.length_modifyHead, ih]
      rw [List.count_cons_of_ne (Ne.symm h)]

theorem getCacheKey_data (promptKey version label : String) :
    (getCacheKey promptKey version label).data
      = [':'].intercalate [cacheKeyPrefix.data, promptKey.data, version.data, label.data] := by
  simp [getCacheKey, List.intercalate, List.intersperse, String.data_append]

theorem parseCacheKey_of_length_ne (key : String)
    (h : (key.data.splitOn ':').length ≠ 4) : parseCacheKey key = ("", "", "", false) := by
  unfold parseCacheKey
  split
  · rename_i a b c d heq
    have hlen : (stringsSplit key ':').length = 4 := by rw [heq]; rfl
    simp only [stringsSplit, List.length_map] at hlen
    exact absurd hlen h
  · rfl

/-- Claim C30, at the failing input: a prompt key that holds a colon.  The key stored by
`Set` for `("team:bot", "1.0", "prod")` splits into five parts, `parseCacheKey` rejects
it, and `GetAllPromptQueries`, which is documented to return all cached query
conditions, leaves the prompt out. -/
theorem prompt_key_with_a_colon_is_not_recovered :
    getCacheKey "team:bot" "1.0" "prod" = "prompt_hub:team:bot:1.0:prod" ∧
      parseCacheKey (getCacheKey "team:bot" "1.0" "prod") = ("", "", "", false) ∧
      GetAllPromptQueries [getCacheKey "team:bot" "1.0" "prod"] = [] := by
  decide

/-- The extent of the loss in `parseCacheKey`: when none of `promptKey`, `version` and
`label` holds a colon, `parseCacheKey(getCacheKey(promptKey, version, label))` returns
`(promptKey, version, label, true)` and `GetAllPromptQueries` recovers the query from
the key; when one of them holds a colon, `parseCacheKey` returns
`("", "", "", false)` and `GetAllPromptQueries` leaves the key out. -/
theorem parseCacheKey_recovers_keys_without_colon (promptKey version label : String) :
    ((':' ∉ promptKey.data ∧ ':' ∉ version.data ∧ ':' ∉ label.data) →
        parseCacheKey (getCacheKey promptKey version label)
          = (promptKey, version, label, true) ∧
        GetAllPromptQueries [getCacheKey promptKey version label]
          = [{ PromptKey := promptKey, Version := version, Label := label }]) ∧
      (¬ (':' ∉ promptKey.data ∧ ':' ∉ version.data ∧ ':' ∉ label.data) →
        parseCacheKey (getCacheKey promptKey version label) = ("", "", "", false) ∧
        GetAllPromptQueries [getCacheKey promptKey version label] = []) := by
  have hpre : ':' ∉ cacheKeyPrefix.data := by decide
  constructor
  · rintro ⟨h1, h2, h3⟩
    have hsplit : (getCacheKey promptKey version label).data.splitOn ':'
        = [cacheKeyPrefix.data, promptKey.data, version.data, label.data] := by
      rw [getCacheKey_data]
      apply List.splitOn_intercalate
      · intro l hl
        simp only [List.mem_cons, List.mem_singleton, List.not_mem_nil, or_false] at hl
        rcases hl with rfl | rfl | rfl | rfl
        · exact hpre
        · exact h1
        · exact h2
        · exact h3
      · simp
    have hparse : parseCacheKey (getCacheKey promptKey version label)
        = (promptKey, version, label, true) := by
      simp only [parseCacheKey, stringsSplit, hsplit, List.map_cons, List.map_nil]
    exact ⟨hparse, by simp [GetAllPromptQueries, hparse]⟩
  · intro hcolon
    have hcount : (getCacheKey promptKey version label).data.count ':'
        = 3 + promptKey.data.count ':' + version.data.count ':' + label.data.count ':' := by
      have h0 : cacheKeyPrefix.data.count ':' = 0 := by decide
      have hc : (":" : String).data.count ':' = 1 := by decide
      simp only [getCacheKey, String.data_append, List.count_append, h0, hc]
      omega
    have hpos : 0 < promptKey.data.count ':' + version.data.count ':'
        + label.data.count ':' := by
      by_contra hzero
      apply hcolon
      have hz : promptKey.data.count ':' = 0 ∧ version.data.count ':' = 0
          ∧ label.data.count ':' = 0 := by omega
      exact ⟨List.count_eq_zero.mp hz.1, List.count_eq_zero.mp hz.2.1,
        List.count_eq_zero.mp hz.2.2⟩
    have hparse : parseCacheKey (getCacheKey promptKey version label)
        = ("", "", "", false) := by
      apply parseCacheKey_of_length_ne
      rw [length_splitOn, hcount]
      omega
    exact ⟨hparse, by simp [GetAllPromptQueries, hparse]⟩

theorem parseCacheKey_recovers_keys_without_colon_witness :
    parseCacheKey (getCacheKey "bot" "1.0" "prod") = ("bot", "1.0", "prod", true) ∧
      GetAllPromptQueries [getCacheKey "bot" "1.0" "prod"]
        = [{ PromptKey := "bot", Version := "1.0", Label := "prod" }] :=
  (parseCacheKey_recovers_keys_without_colon "bot" "1.0" "prod").1
    ⟨by decide, by decide, by decide⟩

/-! ## `Wrap` and the shared errors -/

/-- What `Wrap` does to the objects: the receiver gets the cause, every other object is
as before, and the pointer returned is the receiver. -/
theorem LoopError_Wrap_spec (heap : LoopErrors) (e : Nat) (err : GoError) (obj : LoopError)
    (h : heap.get? e = some obj) :
    (LoopError.Wrap heap e err).2 = e ∧
      (LoopError.Wrap heap e err).1.get? e = some { obj with cause := err } ∧
      LoopError.Unwrap (LoopError.Wrap heap e err).1 e = err ∧
      (∀ other, other ≠ e →
        (LoopError.Wrap heap e err).1.get? other = heap.get? other) := by
  have hget : (heap.modify (fun obj => { obj with cause := err }) e).get? e
      = some { obj with cause := err } := by
    rw [List.get?_eq_getElem?, List.getElem?_modify_eq, ← List.get?_eq_getElem?, h]
    rfl
  refine ⟨rfl, hget, ?_, ?_⟩
  · simp only [LoopError.Unwrap, LoopError.Wrap, hget]
  · intro other hne
    simp only [LoopError.Wrap]
    rw [List.get?_eq_getElem?, List.get?_eq_getElem?,
      List.getElem?_modify_ne _ _ (Ne.symm hne)]

/-- Claim C28, at the failing input: `ErrInvalidParam.Wrap(errors.New("apiBaseURL is
required"))` returns the shared object itself, which from then on has that cause and
reads "invalid param: apiBaseURL is required".  So the error returned by a first call
of `checkOptions` reads differently after a second call, and `ErrInternal` and a
`RemoteServiceError` are modified by `Wrap` in the same way. -/
theorem Wrap_modifies_the_shared_error :
    LoopError.Error packageErrors ErrInvalidParam = "invalid param" ∧
      (LoopError.Wrap packageErrors ErrInvalidParam (.plain "apiBaseURL is required")).2
        = ErrInvalidParam ∧
      LoopError.Unwrap
          (LoopError.Wrap packageErrors ErrInvalidParam (.plain "apiBaseURL is required")).1
          ErrInvalidParam = .plain "apiBaseURL is required" ∧
      LoopError.Error
          (LoopError.Wrap packageErrors ErrInvalidParam (.plain "apiBaseURL is required")).1
          ErrInvalidParam = "invalid param: apiBaseURL is required" ∧
      LoopError.Error (LoopError.Wrap packageErrors ErrInternal (.plain "EOF")).1 ErrInternal
        = "internal error: EOF" ∧
      (checkOptions packageErrors "" "w1" true).2 = some ErrInvalidParam ∧
      LoopError.Error (checkOptions packageErrors "" "w1" true).1 ErrInvalidParam
        = "invalid param: apiBaseURL is required" ∧
      (checkOptions (checkOptions packageErrors "" "w1" true).1 "https://api" "" true).2
        = some ErrInvalidParam ∧
      LoopError.Error
          (checkOptions (checkOptions packageErrors "" "w1" true).1 "https://api" "" true).1
          ErrInvalidParam = "invalid param: workspaceID is required" ∧
      RemoteServiceError.value
          (RemoteServiceError.Wrap (NewRemoteServiceError [] 500 1 "busy" "log1").1 0
            (.plain "EOF")).1 0
        = .remote 500 1 "busy" "log1" (.plain "EOF") := by
  decide

/-! ## `Backoff.Retry` -/

theorem retryLoop_stop (ctx : Context) (f : Nat → GoError) (n i : Nat) (e : GoError)
    (h : endsRetry (f i) = true) :
    retryLoop ctx f (n + 1) i e = { err := f i, calls := i + 1, waits := i } := by
  simp only [endsRetry, Bool.or_eq_true, decide_eq_true_eq] at h
  simp only [retryLoop]
  rcases h with (h | h) | h
  · simp [h]
  · split
    · rfl
    · simp [h]
  · split
    · rfl
    · split
      · rfl
      · simp [h]

theorem endsRetry_eq_false (err : GoError) (h : endsRetry err = false) :
    err ≠ .nil ∧ asAuthError err = false ∧
      (match asRemoteServiceError err with
        | some HttpCode => decide (HttpCode < 500)
        | none => false) = false := by
  simp only [endsRetry, Bool.or_eq_false_iff, decide_eq_false_iff_not] at h
  exact ⟨h.1.1, h.1.2, h.2⟩

theorem retryLoop_wait_fails (ctx : Context) (f : Nat → GoError) (n i : Nat) (e : GoError)
    (h : endsRetry (f i) = false) (hw : Backoff.Wait ctx i ≠ .nil) :
    retryLoop ctx f (n + 1) i e
      = { err := Backoff.Wait ctx i, calls := i + 1, waits := i + 1 } := by
  obtain ⟨h1, h2, h3⟩ := endsRetry_eq_false _ h
  simp only [retryLoop, h1, h2, h3, hw, if_false, Bool.false_eq_true, ne_eq,
    not_false_eq_true, if_true]

theorem retryLoop_continue (ctx : Context) (f : Nat → GoError) (n i : Nat) (e : GoError)
    (h : endsRetry (f i) = false) (hw : Backoff.Wait ctx i = .nil) :
    retryLoop ctx f (n + 1) i e = retryLoop ctx f n (i + 1) (f i) := by
  obtain ⟨h1, h2, h3⟩ := endsRetry_eq_false _ h
  simp only [retryLoop, h1, h2, h3, hw, if_false, Bool.false_eq_true, ne_eq,
    not_true_eq_false]

theorem retryLoop_skip (ctx : Context) (f : Nat → GoError) (k n i : Nat) (e : GoError)
    (h : ∀ j < k, endsRetry (f (i + j)) = false ∧ Backoff.Wait ctx (i + j) = .nil) :
    retryLoop ctx f (n + k) i e
      = retryLoop ctx f n (i + k) (if k = 0 then e else f (i + k - 1)) := by
  induction k generalizing i e with
  | zero => simp
  | succ k ih =>
    have h0 := h 0 (Nat.succ_pos k)
    rw [Nat.add_zero] at h0
    have hrest : ∀ j < k, endsRetry (f (i + 1 + j)) = false
        ∧ Backoff.Wait ctx (i + 1 + j) = .nil := by
      intro j hj
      have := h (j + 1) (Nat.succ_lt_succ hj)
      rw [show i + (j + 1) = i + 1 + j by omega] at this
      exact this
    rw [show n + (k + 1) = (n + k) + 1 by omega, retryLoop_continue ctx f _ i e h0.1 h0.2,
      ih (i + 1) (f i) hrest]
    rw [show i + 1 + k = i + (k + 1) by omega]
    by_cases hk : k = 0
    · subst hk; simp
    · have : i + (k + 1) - 1 = i + 1 + k - 1 := by omega
      simp only [hk, if_false, Nat.succ_ne_zero, this]

theorem retryLoop_calls_bounds (ctx : Context) (f : Nat → GoError) (n i : Nat)
    (e : GoError) :
    i ≤ (retryLoop ctx f n i e).calls ∧ (retryLoop ctx f n i e).calls ≤ i + n ∧
      (0 < n → i + 1 ≤ (retryLoop ctx f n i e).calls) := by
  induction n generalizing i e with
  | zero => simp [retryLoop]
  | succ n ih =>
    have h := ih (i + 1) (f i)
    simp only [retryLoop]
    split
    · simp
    · split
      · simp
      · split
        · simp
        · split
          · simp
          · exact ⟨by omega, by omega, fun _ => by omega⟩

theorem retryLoop_nil (ctx : Context) (f : Nat → GoError) (n i : Nat) (e : GoError)
    (h : (retryLoop ctx f n i e).err = .nil) :
    (n = 0 ∧ e = .nil) ∨
      (i + 1 ≤ (retryLoop ctx f n i e).calls ∧
        f ((retryLoop ctx f n i e).calls - 1) = .nil) := by
  induction n generalizing i e with
  | zero => left; exact ⟨rfl, by simpa [retryLoop] using h⟩
  | succ n ih =>
    right
    by_cases hend : endsRetry (f i) = true
    · rw [retryLoop_stop ctx f n i e hend] at h ⊢
      have hfi : f i = .nil := h
      exact ⟨Nat.le_refl _, by simpa using hfi⟩
    · have hend2 : endsRetry (f i) = false := by simpa using hend
      by_cases hw : Backoff.Wait ctx i = .nil
      · rw [retryLoop_continue ctx f n i e hend2 hw] at h ⊢
        rcases ih (i + 1) (f i) h with ⟨_, hfi⟩ | ⟨hc, hf⟩
        · exact absurd hfi (endsRetry_eq_false _ hend2).1
        · exact ⟨by omega, hf⟩
      · rw [retryLoop_wait_fails ctx f n i e hend2 hw] at h
        exact absurd h hw

/-- Claim C26, counterexample: the request fails with a server error (HTTP 500), three
attempts are allowed and the context is cancelled.  The wait after the first failure
returns the context error at once: `f` is called once although two attempts remain, and
`Retry` returns the context error, not the result of `f`. -/
theorem Retry_gives_up_when_the_wait_is_cancelled :
    endsRetry (serverError 0) = false ∧
      Backoff.Retry cancelledContext serverError 3
        = { err := .context .Canceled, calls := 1, waits := 1 } := by
  decide

/-- Claim C26 (amended): `Retry` calls `f` at most `retryTimes` times.  At the first
call of `f` that returns nil, an `AuthError` or a `RemoteServiceError` whose HTTP code is
below 500 it returns that result at once, without waiting.  Every other result is
followed by a wait: when the wait returns nil and attempts remain `f` is called again;
when the context ends the wait, `Retry` returns the context error without calling `f`
again.  When the attempts are used up it returns the last result of `f`. -/
theorem Retry_stops_at_the_first_final_result (ctx : Context) (f : Nat → GoError)
    (retryTimes : Int) :
    (Backoff.Retry ctx f retryTimes).calls ≤ retryTimes.toNat ∧
      (∀ k, k < retryTimes.toNat →
        (∀ j < k, endsRetry (f j) = false ∧ Backoff.Wait ctx j = .nil) →
        (endsRetry (f k) = true →
          Backoff.Retry ctx f retryTimes = { err := f k, calls := k + 1, waits := k }) ∧
        (endsRetry (f k) = false → Backoff.Wait ctx k ≠ .nil →
          Backoff.Retry ctx f retryTimes
            = { err := Backoff.Wait ctx k, calls := k + 1, waits := k + 1 }) ∧
        (endsRetry (f k) = false → Backoff.Wait ctx k = .nil → k + 1 < retryTimes.toNat →
          k + 2 ≤ (Backoff.Retry ctx f retryTimes).calls)) ∧
      ((∀ j < retryTimes.toNat, endsRetry (f j) = false ∧ Backoff.Wait ctx j = .nil) →
        Backoff.Retry ctx f retryTimes
          = { err := if retryTimes.toNat = 0 then .nil else f (retryTimes.toNat - 1),
              calls := retryTimes.toNat, waits := retryTimes.toNat }) := by
  refine ⟨?_, ?_, ?_⟩
  · have h := (retryLoop_calls_bounds ctx f retryTimes.toNat 0 .nil).2.1
    simpa [Backoff.Retry] using h
  · intro k hk hbefore
    have hskip : ∀ m, retryTimes.toNat = m + k →
        Backoff.Retry ctx f retryTimes
          = retryLoop ctx f m k (if k = 0 then .nil else f (k - 1)) := by
      intro m hm
      have h := retryLoop_skip ctx f k m 0 .nil (by simpa using hbefore)
      simp only [Nat.zero_add] at h
      rw [Backoff.Retry, hm, h]
    obtain ⟨m, hm⟩ : ∃ m, retryTimes.toNat = (m + 1) + k := ⟨retryTimes.toNat - k - 1, by omega⟩
    refine ⟨fun hend => ?_, fun hend hw => ?_, fun hend hw hmore => ?_⟩
    · rw [hskip (m + 1) hm, retryLoop_stop ctx f m k _ hend]
    · rw [hskip (m + 1) hm, retryLoop_wait_fails ctx f m k _ hend hw]
    · rw [hskip (m + 1) hm, retryLoop_continue ctx f m k _ hend hw]
      have hpos : 0 < m := by omega
      have h := (retryLoop_calls_bounds ctx f m (k + 1) (f k)).2.2 hpos
      omega
  · intro hall
    have h := retryLoop_skip ctx f retryTimes.toNat 0 0 .nil (by simpa using hall)
    simp only [Nat.zero_add] at h
    rw [Backoff.Retry, h]
    simp [retryLoop]

/-- Claim C27, counterexample: with `retryTimes = 0` (or a negative number) `Retry`
returns nil without calling `f`, so `GetWithRetry` and `PostWithRetry` report success
although no request was made. -/
theorem Retry_without_attempts_returns_nil :
    Backoff.Retry Context.background serverError 0 = { err := .nil, calls := 0, waits := 0 } ∧
      Backoff.Retry Context.background serverError (-1)
        = { err := .nil, calls := 0, waits := 0 } ∧
      GetWithRetry Context.background serverError 0 = .nil ∧
      PostWithRetry Context.background serverError 0 = .nil := by
  decide

/-- Claim C27 (amended): for `retryTimes >= 1`, every `f` and every context, `Retry`
returns nil only if `f` was called at least once and its last call returned nil; so
`GetWithRetry` and `PostWithRetry` with `retryTimes >= 1` return nil only after a
request that returned nil. -/
theorem Retry_returns_nil_only_after_a_call_that_returned_nil (ctx : Context)
    (f : Nat → GoError) (retryTimes : Int) (hpos : 1 ≤ retryTimes) :
    ((Backoff.Retry ctx f retryTimes).err = .nil →
        1 ≤ (Backoff.Retry ctx f retryTimes).calls ∧
        f ((Backoff.Retry ctx f retryTimes).calls - 1) = .nil) ∧
      (GetWithRetry ctx f retryTimes = .nil → ∃ k, k < retryTimes.toNat ∧ f k = .nil) ∧
      (PostWithRetry ctx f retryTimes = .nil → ∃ k, k < retryTimes.toNat ∧ f k = .nil) := by
  have hn : retryTimes.toNat ≠ 0 := by omega
  have hmain : (Backoff.Retry ctx f retryTimes).err = .nil →
      1 ≤ (Backoff.Retry ctx f retryTimes).calls ∧
      f ((Backoff.Retry ctx f retryTimes).calls - 1) = .nil := by
    intro hnil
    rcases retryLoop_nil ctx f retryTimes.toNat 0 .nil hnil with ⟨h0, _⟩ | h
    · exact absurd h0 hn
    · exact ⟨by simpa using h.1, h.2⟩
  have hle : (Backoff.Retry ctx f retryTimes).calls ≤ retryTimes.toNat := by
    have h := (retryLoop_calls_bounds ctx f retryTimes.toNat 0 .nil).2.1
    simpa [Backoff.Retry] using h
  have hex : (Backoff.Retry ctx f retryTimes).err = .nil →
      ∃ k, k < retryTimes.toNat ∧ f k = .nil := by
    intro hnil
    obtain ⟨h1, h2⟩ := hmain hnil
    exact ⟨(Backoff.Retry ctx f retryTimes).calls - 1, by omega, h2⟩
  exact ⟨hmain, hex, hex⟩

theorem Retry_returns_nil_only_after_a_call_that_returned_nil_witness :
    (1 : Int) ≤ 3 ∧
      Backoff.Retry Context.background succeedsSecond 3
        = { err := .nil, calls := 2, waits := 1 } ∧
      (1 ≤ (Backoff.Retry Context.background succeedsSecond 3).calls ∧
        succeedsSecond ((Backoff.Retry Context.background succeedsSecond 3).calls - 1)
          = .nil) :=
  ⟨by decide, by decide,
    (Retry_returns_nil_only_after_a_call_that_returned_nil Context.background succeedsSecond
      3 (by decide)).1 (by decide)⟩

/-! ## `parseTag` -/

theorem parseTagLoop_entry (format : TagValue → String) (isSystemTag : Bool)
    (l : List (String × TagValue)) (m : TagMaps)
    (hnodup : (l.map Prod.fst).Nodup)
    (hfresh : ∀ key ∈ l.map Prod.fst, m.entry key = (none, none, none, none)) :
    (∀ key value, (key, value) ∈ l → key ≠ tracespecInput → key ≠ tracespecOutput →
        (parseTagLoop format isSystemTag l m).entry key
          = specTagEntry format isSystemTag value) ∧
      (∀ key, (key = tracespecInput ∨ key = tracespecOutput ∨ key ∉ l.map Prod.fst) →
        (parseTagLoop format isSystemTag l m).entry key = m.entry key) := by
  induction l generalizing m with
  | nil =>
    exact ⟨fun key value h => by simp at h, fun key _ => rfl⟩
  | cons kv rest ih =>
    obtain ⟨k, v⟩ := kv
    simp only [List.map_cons, List.nodup_cons] at hnodup
    obtain ⟨hk, hrest⟩ := hnodup
    by_cases hio : k = tracespecInput ∨ k = tracespecOutput
    · have hloop : parseTagLoop format isSystemTag ((k, v) :: rest) m
          = parseTagLoop format isSystemTag rest m := by
        simp only [parseTagLoop, hio, if_true]
      rw [hloop]
      have h := ih m hrest (fun key hkey => hfresh key (List.mem_cons_of_mem _ hkey))
      refine ⟨fun key value hmem hi ho => ?_, fun key hkey => ?_⟩
      · rcases List.mem_cons.mp hmem with heq | hmem
        · simp only [Prod.mk.injEq] at heq
          rcases hio with hio | hio
          · exact absurd (heq.1.trans hio) hi
          · exact absurd (heq.1.trans hio) ho
        · exact h.1 key value hmem hi ho
      · apply h.2 key
        rcases hkey with hkey | hkey | hkey
        · exact Or.inl hkey
        · exact Or.inr (Or.inl hkey)
        · exact Or.inr (Or.inr (fun hin => hkey (List.mem_cons_of_mem _ hin)))
    · have hkfresh : m.entry k = (none, none, none, none) :=
        hfresh k (List.mem_cons_self _ _)
      simp only [TagMaps.entry, Prod.mk.injEq] at hkfresh
      obtain ⟨hs, hl, hd, hb⟩ := hkfresh
      -- the maps after the entry `(k, v)`
      obtain ⟨m1, hloop, hm1k, hm1other⟩ : ∃ m1 : TagMaps,
          parseTagLoop format isSystemTag ((k, v) :: rest) m
            = parseTagLoop format isSystemTag rest m1 ∧
          m1.entry k = specTagEntry format isSystemTag v ∧
          (∀ key, key ≠ k → m1.entry key = m.entry key) := by
        cases v with
        | string x =>
          exact ⟨{ m with vStrMap := m.vStrMap.set k x },
            by simp only [parseTagLoop, hio, if_false],
            by simp [TagMaps.entry, GoMap.set, specTagEntry, hl, hd, hb],
            fun key hne => by simp [TagMaps.entry, GoMap.set, hne]⟩
        | bool x =>
          cases isSystemTag with
          | true =>
            exact ⟨{ m with vStrMap := m.vStrMap.set k (Stringify format (.bool x)) },
              by simp only [parseTagLoop, hio, if_false, if_true],
              by simp [TagMaps.entry, GoMap.set, specTagEntry, Stringify, hl, hd, hb],
              fun key hne => by simp [TagMaps.entry, GoMap.set, hne]⟩
          | false =>
            exact ⟨{ m with vBoolMap := m.vBoolMap.set k x },
              by simp only [parseTagLoop, hio, if_false, Bool.false_eq_true],
              by simp [TagMaps.entry, GoMap.set, specTagEntry, hs, hl, hd],
              fun key hne => by simp [TagMaps.entry, GoMap.set, hne]⟩
        | int x =>
          exact ⟨{ m with vLongMap := m.vLongMap.set k (wrapInt64 x) },
            by simp only [parseTagLoop, hio, if_false],
            by simp [TagMaps.entry, GoMap.set, specTagEntry, hs, hd, hb],
            fun key hne => by simp [TagMaps.entry, GoMap.set, hne]⟩
        | float x =>
          exact ⟨{ m with vDoubleMap := m.vDoubleMap.set k x },
            by simp only [parseTagLoop, hio, if_false],
            by simp [TagMaps.entry, GoMap.set, specTagEntry, hs, hl, hb],
            fun key hne => by simp [TagMaps.entry, GoMap.set, hne]⟩
        | other x =>
          exact ⟨{ m with vStrMap := m.vStrMap.set k (Stringify format (.other x)) },
            by simp only [parseTagLoop, hio, if_false],
            by simp [TagMaps.entry, GoMap.set, specTagEntry, Stringify, hl, hd, hb],
            fun key hne => by simp [TagMaps.entry, GoMap.set, hne]⟩
      rw [hloop]
      have hfresh1 : ∀ key ∈ rest.map Prod.fst, m1.entry key = (none, none, none, none) := by
        intro key hkey
        have hne : key ≠ k := fun h => hk (h ▸ hkey)
        rw [hm1other key hne]
        exact hfresh key (List.mem_cons_of_mem _ hkey)
      have h := ih m1 hrest hfresh1
      refine ⟨fun key value hmem hi ho => ?_, fun key hkey => ?_⟩
      · rcases List.mem_cons.mp hmem with heq | hmem
        · simp only [Prod.mk.injEq] at heq
          obtain ⟨rfl, rfl⟩ := heq
          rw [h.2 key (Or.inr (Or.inr hk)), hm1k]
        · exact h.1 key value hmem hi ho
      · have hne : key ≠ k := by
          rcases hkey with hkey | hkey | hkey
          · exact fun h => hio (Or.inl (h ▸ hkey))
          · exact fun h => hio (Or.inr (h ▸ hkey))
          · exact fun h => hkey (h ▸ List.mem_cons_self _ _)
        rw [← hm1other key hne]
        apply h.2 key
        rcases hkey with hkey | hkey | hkey
        · exact Or.inl hkey
        · exact Or.inr (Or.inl hkey)
        · exact Or.inr (Or.inr (fun hin => hkey (List.mem_cons_of_mem _ hin)))

theorem holders_of_specTagEntry (format : TagValue → String) (isSystemTag : Bool)
    (m : TagMaps) (key : String) (value : TagValue)
    (h : m.entry key = specTagEntry format isSystemTag value) :
    m.holders key = 1 ∧ (isSystemTag = true → m.vBoolMap key = none) := by
  simp only [TagMaps.entry] at h
  cases value <;> cases isSystemTag <;>
    simp only [specTagEntry, Prod.mk.injEq, if_true, if_false, Bool.false_eq_true] at h <;>
    simp [TagMaps.holders, h.1, h.2.1, h.2.2.1, h.2.2.2]

/-- Claim C21: `parseTag` returns four nil maps for an empty tag map.  Otherwise every
key other than input and output is in exactly one of the four maps, the one that goes
with the type of its value (string; integer of any type, converted to `int64`; float;
bool in the bool map for user tags and as "true" / "false" in the string map for system
tags, whose bool map stays empty; any other type as its string form), and the keys
input and output, like every key that is not a tag, are in none of the maps. -/
theorem parseTag_splits_the_tags_by_type (format : TagValue → String)
    (spanTag : List (String × TagValue)) (isSystemTag : Bool)
    (hnodup : (spanTag.map Prod.fst).Nodup) :
    parseTag format [] isSystemTag = none ∧
      (spanTag ≠ [] → ∃ m, parseTag format spanTag isSystemTag = some m ∧
        (∀ key value, (key, value) ∈ spanTag → key ≠ tracespecInput →
          key ≠ tracespecOutput →
          m.entry key = specTagEntry format isSystemTag value ∧ m.holders key = 1) ∧
        (∀ key, (key = tracespecInput ∨ key = tracespecOutput ∨
            key ∉ spanTag.map Prod.fst) → m.holders key = 0) ∧
        (isSystemTag = true → ∀ key, m.vBoolMap key = none)) := by
  refine ⟨rfl, fun hne => ?_⟩
  have hlen : ¬ spanTag.length = 0 := by
    intro h
    exact hne (List.length_eq_zero.mp h)
  have h := parseTagLoop_entry format isSystemTag spanTag
    { vStrMap := GoMap.empty, vLongMap := GoMap.empty, vDoubleMap := GoMap.empty,
      vBoolMap := GoMap.empty } hnodup (fun key _ => rfl)
  refine ⟨parseTagLoop format isSystemTag spanTag
      { vStrMap := GoMap.empty, vLongMap := GoMap.empty, vDoubleMap := GoMap.empty,
        vBoolMap := GoMap.empty },
    by simp only [parseTag, hlen, if_false], ?_, ?_, ?_⟩
  · intro key value hmem hi ho
    exact ⟨h.1 key value hmem hi ho,
      (holders_of_specTagEntry format isSystemTag _ key value (h.1 key value hmem hi ho)).1⟩
  · intro key hkey
    have he := h.2 key hkey
    simp only [TagMaps.entry, GoMap.empty, Prod.mk.injEq] at he
    simp [TagMaps.holders, he.1, he.2.1, he.2.2.1, he.2.2.2]
  · intro hsys key
    by_cases hkey : key = tracespecInput ∨ key = tracespecOutput ∨
        key ∉ spanTag.map Prod.fst
    · have he := h.2 key hkey
      simp only [TagMaps.entry, GoMap.empty, Prod.mk.injEq] at he
      exact he.2.2.2
    · simp only [not_or, not_not] at hkey
      obtain ⟨hi, ho, hin⟩ := hkey
      obtain ⟨kv, hkv, hfst⟩ := List.mem_map.mp hin
      obtain ⟨k, value⟩ := kv
      simp only at hfst
      subst hfst
      exact (holders_of_specTagEntry format isSystemTag _ k value
        (h.1 k value hkv hi ho)).2 hsys

theorem parseTag_splits_the_tags_by_type_witness :
    (sampleTags.map Prod.fst).Nodup ∧
      (∃ m, parseTag sampleFormat sampleTags true = some m ∧
        (∀ key value, (key, value) ∈ sampleTags → key ≠ tracespecInput →
          key ≠ tracespecOutput →
          m.entry key = specTagEntry sampleFormat true value ∧ m.holders key = 1) ∧
        (∀ key, (key = tracespecInput ∨ key = tracespecOutput ∨
            key ∉ sampleTags.map Prod.fst) → m.holders key = 0) ∧
        (true = true → ∀ key, m.vBoolMap key = none)) ∧
      (parseTag sampleFormat sampleTags false).map
          (fun m => (m.entry "stream", m.entry "tokens", m.entry "input"))
        = some ((none, none, none, some true), (none, some 42, none, none),
            (none, none, none, none)) :=
  ⟨by decide,
    (parseTag_splits_the_tags_by_type sampleFormat sampleTags true (by decide)).2
      (by decide),
    rfl⟩

/-! ## `convertOutput` against `convertInput` on plain text -/

/-- On a tag that is not multi-modal both converters return the value of
`transferText`; `convertInput` returns its file when there is one, `convertOutput`
returns a list of one entry, which is nil when there is no file. -/
theorem convert_plain_text (env : ConvertEnv) (genId : Nat → Nat → Nat) (spanKey : String)
    (span : Span) (value : TagValue) (hvalue : span.TagMap.lookup spanKey = some value)
    (hplain : spanKey ∉ span.multiModalityKeyMap) :
    convertInput env genId spanKey span
        = .ok ((transferText value.sprint span spanKey).1,
            (transferText value.sprint span spanKey).2.toList.map some) ∧
      convertOutput env genId spanKey span
        = .ok ((transferText value.sprint span spanKey).1,
            [(transferText value.sprint span spanKey).2]) := by
  constructor
  · simp only [convertInput, hvalue, hplain, not_false_eq_true, if_true]
    cases (transferText value.sprint span spanKey).2 <;> rfl
  · simp only [convertOutput, hvalue, hplain, not_false_eq_true, if_true]

/-- Claim C29, at the failing input: a span whose output is the plain text "hello".
`convertInput` on that tag returns the text and no file; `convertOutput` returns the
text and a list holding one nil entry, which ends up in the files of the export. -/
theorem convertOutput_returns_a_nil_file :
    "output" ∉ plainOutputSpan.multiModalityKeyMap ∧
      convertInput sampleConvertEnv (fun _ _ => 0) "output" plainOutputSpan
        = .ok ("hello", []) ∧
      convertOutput sampleConvertEnv (fun _ _ => 0) "output" plainOutputSpan
        = .ok ("hello", [none]) ∧
      (transferToUploadSpanAndFile sampleConvertEnv [plainOutputSpan]).map Prod.snd
        = some [none] :=
  ⟨by decide, rfl, rfl, by decide⟩

/-! ## Two concurrent calls of `Shutdown` -/

theorem fire_wellFormed (s : ConcurrentShutdown) (ev : ShutdownEvent)
    (h : s.wellFormed = true) : (s.fire ev).wellFormed = true := by
  obtain ⟨now, ctx1, ctx2, c1, c2, od, st, dr, td⟩ := s
  cases ev with
  | tick => simpa [ConcurrentShutdown.fire, ConcurrentShutdown.enabled,
      ConcurrentShutdown.wellFormed] using h
  | drainEnds =>
    cases st <;> cases dr <;> cases od <;>
      simp_all [ConcurrentShutdown.fire, ConcurrentShutdown.enabled,
        ConcurrentShutdown.wellFormed]
  | move who p =>
    cases who <;> cases c1 <;> cases c2 <;> cases od <;> cases st <;> cases dr <;>
      simp_all [ConcurrentShutdown.fire, ConcurrentShutdown.enabled,
        ConcurrentShutdown.wellFormed, ConcurrentShutdown.call, ConcurrentShutdown.setCall,
        ShutdownCall.isReturned] <;>
      (try split) <;> (try split) <;> simp_all

theorem run_wellFormed (evs : List ShutdownEvent) (s : ConcurrentShutdown)
    (h : s.wellFormed = true) : (s.run evs).wellFormed = true := by
  induction evs generalizing s with
  | nil => exact h
  | cons ev evs ih => exact ih (s.fire ev) (fire_wellFormed s ev h)

theorem wellFormed_teardowns (s : ConcurrentShutdown) (h : s.wellFormed = true) :
    s.teardowns ≤ 1 ∧ ((s.call1 ≠ .atDo ∨ s.call2 ≠ .atDo) → s.teardowns = 1) := by
  obtain ⟨now, ctx1, ctx2, c1, c2, od, st, dr, td⟩ := s
  cases c1 <;> cases c2 <;> cases od <;> cases st <;>
    simp_all [ConcurrentShutdown.wellFormed, ShutdownCall.isReturned]

theorem wellFormed_progress (s : ConcurrentShutdown) (h : s.wellFormed = true)
    (hleft : s.call1.isReturned = false ∨ s.call2.isReturned = false) :
    (∃ who, ∀ p, s.enabled (.move who p) = true) ∨ s.enabled .drainEnds = true := by
  obtain ⟨now, ctx1, ctx2, c1, c2, od, st, dr, td⟩ := s
  cases dr with
  | false =>
    cases c1 <;> cases c2 <;> cases od <;> cases st <;>
      simp_all [ConcurrentShutdown.wellFormed, ShutdownCall.isReturned,
        ConcurrentShutdown.enabled, ConcurrentShutdown.call]
  | true =>
    left
    cases c1 <;> cases c2 <;> cases od <;> cases st <;>
      simp_all [ConcurrentShutdown.wellFormed, ShutdownCall.isReturned,
        ConcurrentShutdown.enabled, ConcurrentShutdown.call]

theorem fire_pending (s : ConcurrentShutdown) (ev : ShutdownEvent)
    (hev : ev ≠ .tick) (hen : s.enabled ev = true) : (s.fire ev).pending < s.pending := by
  obtain ⟨now, ctx1, ctx2, c1, c2, od, st, dr, td⟩ := s
  cases ev with
  | tick => exact absurd rfl hev
  | drainEnds =>
    cases st <;> cases dr <;>
      simp_all [ConcurrentShutdown.fire, ConcurrentShutdown.enabled,
        ConcurrentShutdown.pending]
  | move who p =>
    have hfire : ConcurrentShutdown.fire
        { now := now, ctx1 := ctx1, ctx2 := ctx2, call1 := c1, call2 := c2, onceDone := od,
          stopped := st, drained := dr, teardowns := td } (.move who p)
        = (match ConcurrentShutdown.call
            { now := now, ctx1 := ctx1, ctx2 := ctx2, call1 := c1, call2 := c2,
              onceDone := od, stopped := st, drained := dr, teardowns := td } who with
          | .atDo =>
            if od then ConcurrentShutdown.setCall
              { now := now, ctx1 := ctx1, ctx2 := ctx2, call1 := c1, call2 := c2,
                onceDone := od, stopped := st, drained := dr, teardowns := td } who
              (.returned none)
            else
              { ConcurrentShutdown.setCall
                  { now := now, ctx1 := ctx1, ctx2 := ctx2, call1 := c1, call2 := c2,
                    onceDone := od, stopped := st, drained := dr, teardowns := td } who
                  .inTeardown with stopped := true, teardowns := td + 1 }
          | .inTeardown =>
            match ConcurrentShutdown.ctxErr
              { now := now, ctx1 := ctx1, ctx2 := ctx2, call1 := c1, call2 := c2,
                onceDone := od, stopped := st, drained := dr, teardowns := td } who with
            | some e =>
              if dr && !p then
                { ConcurrentShutdown.setCall
                    { now := now, ctx1 := ctx1, ctx2 := ctx2, call1 := c1, call2 := c2,
                      onceDone := od, stopped := st, drained := dr, teardowns := td } who
                    (.returned none) with onceDone := true }
              else
                { ConcurrentShutdown.setCall
                    { now := now, ctx1 := ctx1, ctx2 := ctx2, call1 := c1, call2 := c2,
                      onceDone := od, stopped := st, drained := dr, teardowns := td } who
                    (.returned (some e)) with onceDone := true }
            | none =>
              { ConcurrentShutdown.setCall
                  { now := now, ctx1 := ctx1, ctx2 := ctx2, call1 := c1, call2 := c2,
                    onceDone := od, stopped := st, drained := dr, teardowns := td } who
                  (.returned none) with onceDone := true }
          | .returned _ =>
            { now := now, ctx1 := ctx1, ctx2 := ctx2, call1 := c1, call2 := c2,
              onceDone := od, stopped := st, drained := dr, teardowns := td }) := by
      simp only [ConcurrentShutdown.fire, hen, Bool.not_true, Bool.false_eq_true, if_false]
    rw [hfire]
    cases who <;> cases c1 <;> cases c2 <;>
      simp only [ConcurrentShutdown.call, ConcurrentShutdown.setCall, Bool.false_eq_true,
        if_false, if_true, ConcurrentShutdown.enabled] at hen ⊢ <;>
      (try split) <;> (try split) <;>
      simp [ConcurrentShutdown.pending, ShutdownCall.stepsLeft]

theorem waiting_call_is_blocked (s : ConcurrentShutdown) (h : s.wellFormed = true)
    (who p : Bool) (hwho : s.call who = .atDo) (hother : s.call (!who) = .inTeardown) :
    s.enabled (.move who p) = false := by
  obtain ⟨now, ctx1, ctx2, c1, c2, od, st, dr, td⟩ := s
  cases who <;> cases od <;>
    simp_all [ConcurrentShutdown.wellFormed, ConcurrentShutdown.enabled,
      ConcurrentShutdown.call]

theorem waiting_call_returns_nil (s : ConcurrentShutdown) (who p : Bool)
    (hwho : s.call who = .atDo) (hdone : s.onceDone = true) :
    s.enabled (.move who p) = true ∧ (s.fire (.move who p)).call who = .returned none := by
  obtain ⟨now, ctx1, ctx2, c1, c2, od, st, dr, td⟩ := s
  cases who <;>
    simp_all [ConcurrentShutdown.fire, ConcurrentShutdown.enabled, ConcurrentShutdown.call,
      ConcurrentShutdown.setCall]

theorem teardown_call_returns (s : ConcurrentShutdown) (who p : Bool)
    (hwho : s.call who = .inTeardown) :
    (s.drained = true → s.enabled (.move who p) = true) ∧
      (∀ e, s.ctxErr who = some e →
        s.enabled (.move who p) = true ∧
        (s.fire (.move who p)).call who
          = .returned (if s.drained && !p then none else some e)) ∧
      (s.ctxErr who = none → s.drained = true →
        (s.fire (.move who p)).call who = .returned none) := by
  obtain ⟨now, ctx1, ctx2, c1, c2, od, st, dr, td⟩ := s
  refine ⟨fun hd => ?_, fun e he => ?_, fun he hd => ?_⟩
  · cases who <;>
      simp_all [ConcurrentShutdown.enabled, ConcurrentShutdown.call]
  · cases who <;> cases dr <;> cases p <;>
      simp_all [ConcurrentShutdown.fire, ConcurrentShutdown.enabled,
        ConcurrentShutdown.call, ConcurrentShutdown.setCall, ConcurrentShutdown.ctxErr,
        ConcurrentShutdown.ctx]
  · cases who <;>
      simp_all [ConcurrentShutdown.fire, ConcurrentShutdown.enabled,
        ConcurrentShutdown.call, ConcurrentShutdown.setCall, ConcurrentShutdown.ctxErr,
        ConcurrentShutdown.ctx]

/-- Claim C23, counterexample: the first call, whose context never ends, is in the
teardown and the loop is still draining; the second call has a deadline at time 1.  At
time 2 the context of the second call is done, yet the call is still at `stopOnce.Do`
and cannot take a step: it returns only after the first call has.  And when it is
the context of the first call that ends, the first call returns the context error and
the second then returns nil although the drain has not ended. -/
theorem second_Shutdown_outlives_its_context :
    ((ConcurrentShutdown.start Context.background shortDeadline).run secondCallWaits).call1
        = .inTeardown ∧
      ((ConcurrentShutdown.start Context.background shortDeadline).run secondCallWaits).call2
        = .atDo ∧
      ((ConcurrentShutdown.start Context.background shortDeadline).run secondCallWaits).ctxErr
        true = some .DeadlineExceeded ∧
      ((ConcurrentShutdown.start Context.background shortDeadline).run
        secondCallWaits).enabled (.move true false) = false ∧
      ((ConcurrentShutdown.start Context.background shortDeadline).run
        secondCallWaits).enabled (.move true true) = false ∧
      ((ConcurrentShutdown.start Context.background shortDeadline).run
        (secondCallWaits ++ [.move true true, .tick, .move true false])).call2 = .atDo ∧
      ((ConcurrentShutdown.start shortDeadline Context.background).run
        [.move false false, .move true false, .tick, .move false true,
         .move true false]).call1 = .returned (some .DeadlineExceeded) ∧
      ((ConcurrentShutdown.start shortDeadline Context.background).run
        [.move false false, .move true false, .tick, .move false true,
         .move true false]).call2 = .returned none ∧
      ((ConcurrentShutdown.start shortDeadline Context.background).run
        [.move false false, .move true false, .tick, .move false true,
         .move true false]).drained = false := by
  decide

/-- Claim C23 (amended): in every state that two concurrent calls of `Shutdown` can
reach, the function given to `stopOnce.Do` has run at most once, and exactly once as
soon as a call has gone past `Do`.  There is no deadlock: while a call has not
returned, a call can take a step or the drain of the loop can end, and every such
event brings the end nearer.  The call in the teardown can return as soon as the drain
has ended or its own context is done, and then returns nil or its context error.  The
other call cannot take a step while the first is in the teardown, whatever its own
context; once the first has returned it returns nil. -/
theorem one_Shutdown_tears_down_and_the_other_waits (ctx1 ctx2 : Context)
    (evs : List ShutdownEvent) (who p : Bool) :
    (((ConcurrentShutdown.start ctx1 ctx2).run evs).teardowns ≤ 1 ∧
      ((((ConcurrentShutdown.start ctx1 ctx2).run evs).call1 ≠ .atDo ∨
          ((ConcurrentShutdown.start ctx1 ctx2).run evs).call2 ≠ .atDo) →
        ((ConcurrentShutdown.start ctx1 ctx2).run evs).teardowns = 1)) ∧
      ((((ConcurrentShutdown.start ctx1 ctx2).run evs).call1.isReturned = false ∨
          ((ConcurrentShutdown.start ctx1 ctx2).run evs).call2.isReturned = false) →
        (∃ w, ∀ q, ((ConcurrentShutdown.start ctx1 ctx2).run evs).enabled (.move w q) = true)
          ∨ ((ConcurrentShutdown.start ctx1 ctx2).run evs).enabled .drainEnds = true) ∧
      (∀ ev, ev ≠ .tick → ((ConcurrentShutdown.start ctx1 ctx2).run evs).enabled ev = true →
        (((ConcurrentShutdown.start ctx1 ctx2).run evs).fire ev).pending
          < ((ConcurrentShutdown.start ctx1 ctx2).run evs).pending) ∧
      (((ConcurrentShutdown.start ctx1 ctx2).run evs).call who = .inTeardown →
        (((ConcurrentShutdown.start ctx1 ctx2).run evs).drained = true →
          ((ConcurrentShutdown.start ctx1 ctx2).run evs).enabled (.move who p) = true) ∧
        (∀ e, ((ConcurrentShutdown.start ctx1 ctx2).run evs).ctxErr who = some e →
          ((ConcurrentShutdown.start ctx1 ctx2).run evs).enabled (.move who p) = true ∧
          (((ConcurrentShutdown.start ctx1 ctx2).run evs).fire (.move who p)).call who
            = .returned
                (if ((ConcurrentShutdown.start ctx1 ctx2).run evs).drained && !p then none
                  else some e)) ∧
        (((ConcurrentShutdown.start ctx1 ctx2).run evs).ctxErr who = none →
          ((ConcurrentShutdown.start ctx1 ctx2).run evs).drained = true →
          (((ConcurrentShutdown.start ctx1 ctx2).run evs).fire (.move who p)).call who
            = .returned none)) ∧
      (((ConcurrentShutdown.start ctx1 ctx2).run evs).call who = .atDo →
        ((ConcurrentShutdown.start ctx1 ctx2).run evs).call (!who) = .inTeardown →
        ((ConcurrentShutdown.start ctx1 ctx2).run evs).enabled (.move who p) = false) ∧
      (((ConcurrentShutdown.start ctx1 ctx2).run evs).call who = .atDo →
        ((ConcurrentShutdown.start ctx1 ctx2).run evs).onceDone = true →
        ((ConcurrentShutdown.start ctx1 ctx2).run evs).enabled (.move who p) = true ∧
        (((ConcurrentShutdown.start ctx1 ctx2).run evs).fire (.move who p)).call who
          = .returned none) := by
  have hwf : ((ConcurrentShutdown.start ctx1 ctx2).run evs).wellFormed = true :=
    run_wellFormed evs _ rfl
  exact ⟨wellFormed_teardowns _ hwf, wellFormed_progress _ hwf,
    fun ev hev hen => fire_pending _ ev hev hen,
    fun hwho => teardown_call_returns _ who p hwho,
    fun hwho hother => waiting_call_is_blocked _ hwf who p hwho hother,
    fun hwho hdone => waiting_call_returns_nil _ who p hwho hdone⟩

theorem one_Shutdown_tears_down_and_the_other_waits_witness :
    ((ConcurrentShutdown.start Context.background shortDeadline).run
        (secondCallWaits ++ [.drainEnds, .move false false, .move true false])).teardowns = 1 ∧
      ((ConcurrentShutdown.start Context.background shortDeadline).run
        (secondCallWaits ++ [.drainEnds, .move false false, .move true false])).call1
        = .returned none ∧
      ((ConcurrentShutdown.start Context.background shortDeadline).run
        (secondCallWaits ++ [.drainEnds, .move false false, .move true false])).call2
        = .returned none ∧
      ((ConcurrentShutdown.start Context.background shortDeadline).run
        secondCallWaits).enabled (.move true false) = false :=
  ⟨(one_Shutdown_tears_down_and_the_other_waits Context.background shortDeadline
      (secondCallWaits ++ [.drainEnds, .move false false, .move true false]) false
      false).1.2 (by decide),
    by decide, by decide,
    (one_Shutdown_tears_down_and_the_other_waits Context.background shortDeadline
      secondCallWaits true false).2.2.2.2.1 (by decide) (by decide)⟩

end CozeLoop
